import Mathlib

/-!
Verification of the IntelliMarket browser client (API communication module,
API client and markdown renderer) against its design specification.

JavaScript strings are modelled as `List Char` (a JS string is a sequence of
code units; all inputs of interest here are ASCII).  Each JS function of the
source is embedded as a Lean definition carrying the same name (suffixes
`000` / `001` distinguish the two near-duplicate client implementations,
`main` marks the UI module `main.js`).
-/

namespace IntelliMarket

/-- Convert a Lean string literal to the `List Char` model of JS strings. -/
def strL (s : String) : List Char := s.data

/-- Boolean prefix test on character lists (JS `String.prototype.startsWith`). -/
def isPfx : List Char → List Char → Bool
  | [], _ => true
  | _ :: _, [] => false
  | a :: as, b :: bs => a == b && isPfx as bs

/-- Boolean suffix test on character lists (JS `String.prototype.endsWith`). -/
def isSfx (pat cs : List Char) : Bool := isPfx pat.reverse cs.reverse

/-- Substring test (JS `String.prototype.includes` for multi-character needles). -/
def containsSub (pat : List Char) : List Char → Bool
  | [] => pat.isEmpty
  | c :: cs => isPfx pat (c :: cs) || containsSub pat cs

/-- Whitespace class trimmed by JS `String.prototype.trim` (ASCII fragment). -/
def isJsWhitespace (c : Char) : Bool :=
  c = ' ' || c = '\t' || c = '\n' || c = '\r' || c = '\x0b' || c = '\x0c'

/-- JS `String.prototype.trim`: strip leading and trailing whitespace. -/
def jsTrim (cs : List Char) : List Char :=
  ((cs.dropWhile isJsWhitespace).reverse.dropWhile isJsWhitespace).reverse

/-- JS `String.prototype.toUpperCase` on the ASCII fragment: `Char.toUpper`
is exactly the map sending `a`–`z` (code points 97–122) to `A`–`Z` and
fixing everything else, which is what `toUpperCase` does on ASCII input. -/
def jsToUpper (cs : List Char) : List Char := cs.map Char.toUpper

/-- JS `String.prototype.split` with a single-character separator. -/
def splitOnChar (sep : Char) : List Char → List (List Char)
  | [] => [[]]
  | c :: cs =>
    if c = sep then [] :: splitOnChar sep cs
    else
      match splitOnChar sep cs with
      | [] => [[c]]
      | p :: ps => (c :: p) :: ps

/-- JS `Array.prototype.join` with a separator string. -/
def joinWith (sep : List Char) : List (List Char) → List Char
  | [] => []
  | [x] => x
  | x :: xs => x ++ sep ++ joinWith sep xs

/-- Decision procedure for membership of a character in `A`–`Z`. -/
def isUpperLatinB (c : Char) : Bool := decide (65 ≤ c.toNat ∧ c.toNat ≤ 90)

/-- Decision procedure for membership of a character in `A`–`Z` or `a`–`z`. -/
def isLatinLetterB (c : Char) : Bool :=
  decide ((65 ≤ c.toNat ∧ c.toNat ≤ 90) ∨ (97 ≤ c.toNat ∧ c.toNat ≤ 122))

/-- Denotation of the regular expression test over a JS string:
a match of the anchored pattern of one to five characters from the
class `A`–`Z` holds exactly of the strings of length 1 to 5 whose
characters all lie in `A`–`Z`. -/
def regexUpperOneToFive (cs : List Char) : Bool :=
  decide (1 ≤ cs.length) && decide (cs.length ≤ 5) && cs.all isUpperLatinB

/-- `isValidSymbol` of the first client (API communication module):
it uppercases the argument before applying the regex test. -/
def isValidSymbol000 (symbol : List Char) : Bool :=
  regexUpperOneToFive (jsToUpper symbol)

/-- `isValidSymbol` of the second client (API client):
the regex test applied to the argument as given. -/
def isValidSymbol001 (symbol : List Char) : Bool :=
  regexUpperOneToFive symbol

/-- `parseSymbolList` of the first client: split on commas, trim and
uppercase each piece, keep the truthy (non-empty) pieces passing
`isValidSymbol`. -/
def parseSymbolList000 (input : List Char) : List (List Char) :=
  ((splitOnChar ',' input).map (fun s => jsToUpper (jsTrim s))).filter
    (fun s => !s.isEmpty && isValidSymbol000 s)

/-- `parseSymbolList` of the second client: split on commas, trim and
uppercase each piece, keep the pieces of positive length. -/
def parseSymbolList001 (symbolsText : List Char) : List (List Char) :=
  ((splitOnChar ',' symbolsText).map (fun s => jsToUpper (jsTrim s))).filter
    (fun s => decide (0 < s.length))

/-- Result shape of `validateSymbolList` (`{valid, error?}`). -/
structure ValidationResult where
  valid : Bool
  error : Option (List Char)
  deriving Repr, DecidableEq

/-- `validateSymbolList` of the first client: count bounds, then a single
error naming every member failing `isValidSymbol`. -/
def validateSymbolList000 (symbols : List (List Char)) : ValidationResult :=
  if symbols.length < 2 then
    ⟨false, some (strL "Please enter at least 2 symbols")⟩
  else if 5 < symbols.length then
    ⟨false, some (strL "Maximum 5 symbols allowed")⟩
  else
    let invalidSymbols := symbols.filter (fun s => !isValidSymbol000 s)
    if 0 < invalidSymbols.length then
      ⟨false, some (strL "Invalid symbols: " ++ joinWith (strL ", ") invalidSymbols)⟩
    else ⟨true, none⟩

/-- `validateSymbolList` of the second client: count bounds, then the loop
returns on the first member failing `isValidSymbol`. -/
def validateSymbolList001 (symbols : List (List Char)) : ValidationResult :=
  if symbols.length < 2 then
    ⟨false, some (strL "At least 2 symbols required for comparison")⟩
  else if 5 < symbols.length then
    ⟨false, some (strL "Maximum 5 symbols allowed for comparison")⟩
  else
    match symbols.find? (fun s => !isValidSymbol001 s) with
    | some s => ⟨false, some (strL "Invalid symbol format: " ++ s ++ strL " (1-5 letters only)")⟩
    | none => ⟨true, none⟩

/-- Entry pushed by `addToRecentAnalyses` in `main.js`. -/
structure RecentAnalysis where
  query : List Char
  type : List Char
  analysisType : Option (List Char)
  timestamp : List Char

/-- `addToRecentAnalyses` of `main.js`: `unshift` the new entry, then
`slice(0, 10)` the list. -/
def addToRecentAnalyses (analysis : RecentAnalysis)
    (recentAnalyses : List RecentAnalysis) : List RecentAnalysis :=
  (analysis :: recentAnalyses).take 10

/-- Error value thrown in JS, as a `name`/`message` pair (`new Error(m)`
has name `"Error"`; an aborted fetch rejects with name `"AbortError"`). -/
structure JsError where
  name : List Char
  message : List Char
  deriving Repr, DecidableEq

/-- The status-derived fallback `HTTP <status>: <statusText>` interpolated
by `makeRequest` when the error body yields no usable message. -/
def httpFallbackMessage (status : Nat) (statusText : List Char) : List Char :=
  strL "HTTP " ++ (Nat.repr status).data ++ strL ": " ++ statusText

/-- JS `x || y` where `x` is a string-valued property lookup: an absent
property (`undefined`) and the empty string are both falsy, so either
selects the fallback `y`. -/
def jsOrElse (v : Option (List Char)) (fallback : List Char) : List Char :=
  match v with
  | some s => if s.isEmpty then fallback else s
  | none => fallback

/-- The non-2xx branch of `makeRequest` (identical in both clients):
`errorData` is the JSON body parsed as a string-field object, or `{}` when
parsing fails (`.catch(() => ({}))`), and the thrown message is
`errorData.error || HTTP <status>: <statusText>`. -/
def nonOkErrorMessage (status : Nat) (statusText : List Char)
    (body : Option (List (List Char × List Char))) : List Char :=
  let errorData := body.getD []
  jsOrElse (errorData.lookup (strL "error")) (httpFallbackMessage status statusText)

/-- Minimal JSON value universe for payloads returned by the backend. -/
inductive JsonValue where
  | jsonNull
  | jsonBool (b : Bool)
  | jsonStr (s : List Char)
  | jsonObj (fields : List (List Char × JsonValue))

/-- The literal `{valid: false, reason: 'Validation failed'}` returned by
the first client's `validateSymbol` when the request throws. -/
def validationFailedResult : JsonValue :=
  .jsonObj [(strL "valid", .jsonBool false),
            (strL "reason", .jsonStr (strL "Validation failed"))]

/-- `validateSymbol` of the first client: `try { return makeRequest(...) }`
with a catch-all returning the fixed failure object.  The argument is the
outcome of the awaited `makeRequest` call (a thrown error or a payload). -/
def validateSymbol000 (requestOutcome : Except JsError JsonValue) : JsonValue :=
  match requestOutcome with
  | .ok v => v
  | .error _ => validationFailedResult

/-- Options object passed to `makeRequest` by the domain operations
(every field optional; no caller in the repository ever sets `signal`
or `timeout`). -/
structure RequestOptions where
  method : Option (List Char) := none
  headers : Option (List (List Char × List Char)) := none
  body : Option (List Char) := none
  timeout : Option Nat := none
  signal : Option Unit := none

/-- The `config` object literal built by the second client's
`makeRequest`: `{ timeout, headers: {json, ...options.headers}, ...options }`.
Since `...options` is spread last, any key present on `options` overrides
the one written before it (in particular a caller-supplied `headers`
object replaces the merged one wholesale). -/
structure RequestConfig where
  timeout : Option Nat
  headers : List (List Char × List Char)
  method : Option (List Char)
  body : Option (List Char)
  signal : Option Unit

/-- `this.timeout` set in the second client's constructor (5 minutes). -/
def defaultTimeoutMs : Nat := 300000

def makeRequestConfig (clientTimeout : Nat) (options : RequestOptions) : RequestConfig :=
  { timeout := some (options.timeout.getD clientTimeout)
    headers :=
      match options.headers with
      | some hs => hs
      | none => [(strL "Content-Type", strL "application/json")]
    method := options.method
    body := options.body
    signal := options.signal }

/-- The members of the WHATWG fetch `RequestInit` dictionary that this
code could populate: the fetch algorithm reads these and only these, so
the nonstandard `timeout` key of the config object is dropped here. -/
structure RequestInit where
  method : Option (List Char)
  headers : List (List Char × List Char)
  body : Option (List Char)
  signal : Option Unit

def toRequestInit (config : RequestConfig) : RequestInit :=
  { method := config.method
    headers := config.headers
    body := config.body
    signal := config.signal }

/-- Possible outcomes of an awaited `fetch` call: a response with status,
status text and (error-)body fields, a rejection with a network error, or
a rejection with an `AbortError`. -/
inductive FetchResult where
  | response (status : Nat) (statusText : List Char)
      (body : Option (List (List Char × List Char)))
  | networkError (e : JsError)
  | abortError

/-- `response.ok`: status in the 2xx range. -/
def okStatus (status : Nat) : Bool := decide (200 ≤ status ∧ status ≤ 299)

/-- The WHATWG fetch standard aborts a request only through an
`AbortSignal` passed in the init dictionary: a fetch semantics is
standard-conformant when it rejects with `AbortError` only if the init
carried a signal. -/
def fetchRespectsAbortStd (fetchSem : RequestInit → Nat → FetchResult) : Prop :=
  ∀ init d, fetchSem init d = .abortError → init.signal.isSome = true

def requestTimeoutMessage : List Char :=
  strL "Request timeout - analysis is taking longer than expected"

/-- The second client's `makeRequest`, parameterised by a fetch semantics
and the duration the request ends up taking: builds the config, calls
fetch, maps a non-2xx response to a thrown `Error` with the body-derived
message, rethrows network errors, and maps an `AbortError` to the
timeout-message `Error`. -/
def makeRequest001 (fetchSem : RequestInit → Nat → FetchResult)
    (options : RequestOptions) (duration : Nat) :
    Except JsError (Option (List (List Char × List Char))) :=
  let config := makeRequestConfig defaultTimeoutMs options
  match fetchSem (toRequestInit config) duration with
  | .response status statusText body =>
      if okStatus status then .ok body
      else .error ⟨strL "Error", nonOkErrorMessage status statusText body⟩
  | .networkError e => .error e
  | .abortError => .error ⟨strL "Error", requestTimeoutMessage⟩

/-- Concatenation of a list of lists (JS string accumulation by `+=`). -/
def concatAll {α : Type} : List (List α) → List α
  | [] => []
  | l :: ls => l ++ concatAll ls

/-- Per-character escaping performed by serialising a DOM text node. -/
def escChar (c : Char) : List Char :=
  if c = '&' then strL "&amp;"
  else if c = '<' then strL "&lt;"
  else if c = '>' then strL "&gt;"
  else [c]

/-- `escapeHtml` of `main.js`: `div.textContent = text; return div.innerHTML`
serialises the text node, escaping the markup-significant characters. -/
def escapeHtml (text : List Char) : List Char := concatAll (text.map escChar)

/-- Inverse of the text-node serialisation, as a test harness would decode
the generated cell contents. -/
def unescapeHtml : List Char → List Char
  | [] => []
  | '&' :: 'a' :: 'm' :: 'p' :: ';' :: rest => '&' :: unescapeHtml rest
  | '&' :: 'l' :: 't' :: ';' :: rest => '<' :: unescapeHtml rest
  | '&' :: 'g' :: 't' :: ';' :: rest => '>' :: unescapeHtml rest
  | c :: cs => c :: unescapeHtml cs

/-- The row-shape test used both by the table detector and by the body-row
loop: the line contains a pipe and its trimmed form starts and ends with
a pipe. -/
def isRowLine (line : List Char) : Bool :=
  line.contains '|' && isPfx (strL "|") (jsTrim line) && isSfx (strL "|") (jsTrim line)

/-- Cell extraction shared by header and body rows: split the line on
pipes, trim every piece, keep the non-empty pieces. -/
def rowCells (line : List Char) : List (List Char) :=
  ((splitOnChar '|' line).map jsTrim).filter (fun cell => !cell.isEmpty)

/-- The table-start condition of `parseMarkdownTables`: the current line
passes the row-shape test and the (truthy) next line contains both a dash
and a pipe. -/
def tableStartCheck (line : List Char) (next : Option (List Char)) : Bool :=
  isRowLine line &&
  (match next with
   | some nextLine => !nextLine.isEmpty && nextLine.contains '-' && nextLine.contains '|'
   | none => false)

/-- The body-row loop of `parseTable`: consume lines while they pass the
row-shape test, pushing each row's cells when the row has at least one
non-empty cell, and return the remaining lines. -/
def collectRows : List (List Char) → List (List (List Char)) × List (List Char)
  | [] => ([], [])
  | line :: rest =>
    if isRowLine line then
      let cells := rowCells line
      let (rs, rem) := collectRows rest
      (if cells.isEmpty then rs else cells :: rs, rem)
    else ([], line :: rest)

def thLine (header : List Char) : List Char :=
  strL "      <th>" ++ escapeHtml header ++ strL "</th>\n"

def tdLine (cell : List Char) : List Char :=
  strL "      <td>" ++ escapeHtml cell ++ strL "</td>\n"

/-- One body row of the generated table: cells past the header count are
not emitted (`if (index < headers.length)`). -/
def trBlock (headerCount : Nat) (row : List (List Char)) : List Char :=
  strL "    <tr>\n" ++ concatAll ((row.take headerCount).map tdLine) ++ strL "    </tr>\n"

def theadHtml (headers : List (List Char)) : List Char :=
  if 0 < headers.length then
    strL "  <thead>\n    <tr>\n" ++ concatAll (headers.map thLine)
      ++ strL "    </tr>\n  </thead>\n"
  else []

def tbodyHtml (headerCount : Nat) (rows : List (List (List Char))) : List Char :=
  if 0 < rows.length then
    strL "  <tbody>\n" ++ concatAll (rows.map (trBlock headerCount)) ++ strL "  </tbody>\n"
  else []

/-- The HTML string assembled by `parseTable`. -/
def tableHtml (headers : List (List Char)) (rows : List (List (List Char))) : List Char :=
  strL "<table class=\"markdown-table\">\n" ++ theadHtml headers
    ++ tbodyHtml headers.length rows ++ strL "</table>"

/-- Result of `parseTable` in the suffix-list model: the header cells and
body rows it computed, the generated HTML, and the lines remaining after
the table (the source's `nextIndex`). -/
structure ParsedTable where
  headers : List (List Char)
  dataRows : List (List (List Char))
  html : List Char
  rest : List (List Char)

/-- `parseTable` of `main.js`: `headerLine` is `lines[startIndex]`,
`sepLine` is `lines[startIndex + 1]` (read but otherwise unused), and
`rest` are the lines from `startIndex + 2` on. -/
def parseTable (headerLine sepLine : List Char) (rest : List (List Char)) : ParsedTable :=
  let headers := rowCells headerLine
  let consumed := collectRows rest
  { headers := headers
    dataRows := consumed.1
    html := tableHtml headers consumed.1
    rest := consumed.2 }

/-- The `<th>` line of the generated table without its newline. -/
def thContentLine (header : List Char) : List Char :=
  strL "      <th>" ++ escapeHtml header ++ strL "</th>"

/-- The `<td>` line of the generated table without its newline. -/
def tdContentLine (cell : List Char) : List Char :=
  strL "      <td>" ++ escapeHtml cell ++ strL "</td>"

/-- Line-level layout of one emitted body row. -/
def trLines (headerCount : Nat) (row : List (List Char)) : List (List Char) :=
  strL "    <tr>" :: ((row.take headerCount).map tdContentLine ++ [strL "    </tr>"])

/-- Line-level layout of the whole generated table. -/
def tableLines (headers : List (List Char)) (rows : List (List (List Char))) :
    List (List Char) :=
  strL "<table class=\"markdown-table\">" ::
    ((if 0 < headers.length then
        strL "  <thead>" :: strL "    <tr>" ::
          (headers.map thContentLine ++ [strL "    </tr>", strL "  </thead>"])
      else []) ++
     (if 0 < rows.length then
        strL "  <tbody>" ::
          (concatAll (rows.map (trLines headers.length)) ++ [strL "  </tbody>"])
      else []) ++
     [strL "</table>"])

/-- Split a string into its lines (inverse image of joining with `\n`). -/
def splitLines : List Char → List (List Char)
  | [] => [[]]
  | c :: cs =>
    if c = '\n' then [] :: splitLines cs
    else
      match splitLines cs with
      | [] => [[c]]
      | l :: ls => (c :: l) :: ls

/-- Join lines with newline separators. -/
def joinNL : List (List Char) → List Char
  | [] => []
  | [l] => l
  | l :: ls => l ++ '\n' :: joinNL ls

/-- Test-harness extraction of one table line: strip indentation and, if
the line is of the form `<tag>…</tag>`, return the enclosed text. -/
def linePickTag (openTag closeTag : List Char) (line : List Char) : Option (List Char) :=
  let t := line.dropWhile (fun c => c == ' ')
  if isPfx openTag t && isSfx closeTag t
      && decide (openTag.length + closeTag.length ≤ t.length) then
    some ((t.drop openTag.length).take (t.length - openTag.length - closeTag.length))
  else none

/-- All header-cell texts of a generated table, read back from its
`<th>` elements. -/
def extractTh (html : List Char) : List (List Char) :=
  (splitLines html).filterMap (linePickTag (strL "<th>") (strL "</th>"))

/-- All body-cell texts of a generated table, read back from its
`<td>` elements in document order. -/
def extractTd (html : List Char) : List (List Char) :=
  (splitLines html).filterMap (linePickTag (strL "<td>") (strL "</td>"))

/-- Apply a line substitution to every line of a text (a JS
`replace(/^…$/gm, …)` pass). -/
def perLine (f : List Char → List Char) (cs : List Char) : List Char :=
  joinNL ((splitLines cs).map f)

/-- Heading and list-item line substitutions of `formatMarkdown`. -/
def mdH1 : List Char → List Char :=
  perLine (fun l => if isPfx (strL "# ") l then strL "<h1>" ++ l.drop 2 ++ strL "</h1>" else l)

def mdH2 : List Char → List Char :=
  perLine (fun l => if isPfx (strL "## ") l then strL "<h2>" ++ l.drop 3 ++ strL "</h2>" else l)

def mdH3 : List Char → List Char :=
  perLine (fun l => if isPfx (strL "### ") l then strL "<h3>" ++ l.drop 4 ++ strL "</h3>" else l)

def mdH4 : List Char → List Char :=
  perLine (fun l => if isPfx (strL "#### ") l then strL "<h4>" ++ l.drop 5 ++ strL "</h4>" else l)

def mdLi : List Char → List Char :=
  perLine (fun l => if isPfx (strL "- ") l then strL "<li>" ++ l.drop 2 ++ strL "</li>" else l)

/-- The paragraph-wrapping pass (`/^(.*)$/gm` → `<p>$1</p>`). -/
def mdPara : List Char → List Char :=
  perLine (fun l => strL "<p>" ++ l ++ strL "</p>")

/-- Earliest offset at which `**` occurs, scanning only characters the
dot of the (newline-free) pattern can cross. -/
def findDelim2 : List Char → Option Nat
  | [] => none
  | c :: cs =>
    if isPfx (strL "**") (c :: cs) then some 0
    else if c = '\n' then none
    else (findDelim2 cs).map (· + 1)

/-- Earliest offset at which `*` occurs before any newline. -/
def findDelim1 : List Char → Option Nat
  | [] => none
  | c :: cs =>
    if c = '*' then some 0
    else if c = '\n' then none
    else (findDelim1 cs).map (· + 1)

/-- The global bold substitution: at each position, a `**` opener with a
lazily-matched same-line `**` closer becomes a `<strong>` element and the
scan resumes after the match; otherwise the scan advances one character. -/
def boldStep : List Char → List Char
  | [] => []
  | c :: cs =>
    if isPfx (strL "**") (c :: cs) then
      match findDelim2 (cs.drop 1) with
      | some q =>
          strL "<strong>" ++ (cs.drop 1).take q ++ strL "</strong>"
            ++ boldStep ((cs.drop 1).drop (q + 2))
      | none => c :: boldStep cs
    else c :: boldStep cs
  termination_by cs => cs.length
  decreasing_by
    all_goals simp [List.length_drop]
    all_goals omega

/-- The global italic substitution (single-star delimiters), run after the
bold pass. -/
def italicStep : List Char → List Char
  | [] => []
  | c :: cs =>
    if c = '*' then
      match findDelim1 cs with
      | some q => strL "<em>" ++ cs.take q ++ strL "</em>" ++ italicStep (cs.drop (q + 1))
      | none => c :: italicStep cs
    else c :: italicStep cs
  termination_by cs => cs.length
  decreasing_by
    all_goals simp [List.length_drop]
    all_goals omega

/-- Offset of the last occurrence of `pat` in the list, if any. -/
def lastIdxOf (pat : List Char) : List Char → Option Nat
  | [] => none
  | c :: cs =>
    match lastIdxOf pat cs with
    | some q => some (q + 1)
    | none => if isPfx pat (c :: cs) then some 0 else none

/-- The non-global dot-matches-all list wrap: the first `<li>` opener
having any later `</li>` closer is greedily matched up to the last such
closer, the whole span is wrapped in one `<ul>` element, and the
remainder of the string is emitted unchanged. -/
def ulWrapGo : List Char → List Char
  | [] => []
  | c :: cs =>
    if isPfx (strL "<li>") (c :: cs) then
      match lastIdxOf (strL "</li>") (cs.drop 3) with
      | some q =>
          strL "<ul>" ++ (c :: cs).take (4 + q + 5) ++ strL "</ul>"
            ++ (cs.drop 3).drop (q + 5)
      | none => c :: ulWrapGo cs
    else c :: ulWrapGo cs

/-- Try an ordered list of literal patterns at the head of the input,
returning the replacement and consumed length of the first that matches. -/
def tryPats (pats : List (List Char × List Char)) (cs : List Char) :
    Option (List Char × Nat) :=
  match pats with
  | [] => none
  | (p, r) :: rest => if isPfx p cs then some (r, p.length) else tryPats rest cs

/-- A global literal-pattern replacement pass: leftmost matches, no
overlap, no rescanning of emitted replacements (JS `replace(/pat/g, r)`;
a list of patterns models a character-class alternative such as
`<h[1-6]>`, whose alternatives can never overlap). -/
def replMulti (pats : List (List Char × List Char)) : List Char → List Char
  | [] => []
  | c :: cs =>
    match tryPats pats (c :: cs) with
    | some (r, n) => r ++ replMulti pats (cs.drop (n - 1))
    | none => c :: replMulti pats cs
  termination_by cs => cs.length
  decreasing_by
    all_goals simp [List.length_drop]
    all_goals omega

/-- The non-table substitution chain of `formatMarkdown`, in source
order: headings 1–4, bold, italic, list items, the single list wrap,
blank-line pairs, paragraph wrapping, empty-paragraph removal, and the
block-element paragraph-tag strips. -/
def formatMarkdownSubst (text : List Char) : List Char :=
  let s4 := mdH4 (mdH3 (mdH2 (mdH1 text)))
  let s6 := italicStep (boldStep s4)
  let s8 := ulWrapGo (mdLi s6)
  let s9 := replMulti [(strL "\n\n", strL "</p><p>")] s8
  let s10 := mdPara s9
  let s11 := replMulti [(strL "<p></p>", [])] s10
  let s12 := replMulti
    [(strL "<p><h1>", strL "<h1>"), (strL "<p><h2>", strL "<h2>"),
     (strL "<p><h3>", strL "<h3>"), (strL "<p><h4>", strL "<h4>"),
     (strL "<p><h5>", strL "<h5>"), (strL "<p><h6>", strL "<h6>")] s11
  let s13 := replMulti
    [(strL "</h1></p>", strL "</h1>"), (strL "</h2></p>", strL "</h2>"),
     (strL "</h3></p>", strL "</h3>"), (strL "</h4></p>", strL "</h4>"),
     (strL "</h5></p>", strL "</h5>"), (strL "</h6></p>", strL "</h6>")] s12
  let s15 := replMulti [(strL "</ul></p>", strL "</ul>")]
    (replMulti [(strL "<p><ul>", strL "<ul>")] s13)
  replMulti [(strL "</table></p>", strL "</table>")]
    (replMulti [(strL "<p><table", strL "<table")] s15)

/-- Number of positions at which `pat` occurs in the string. -/
def countSub (pat : List Char) : List Char → Nat
  | [] => 0
  | c :: cs => (if isPfx pat (c :: cs) then 1 else 0) + countSub pat cs

/-- Plain-text characters carrying no markdown or HTML significance. -/
def benignChar (c : Char) : Bool := c.isAlphanum || c = ' '

/-- A string of plain-text characters only. -/
def benignStr (cs : List Char) : Bool := cs.all benignChar

/-- Join chunk segments with a fixed separator character between them
(a decomposition of a string at every occurrence of that character). -/
def segsJoin (d : Char) : List Char → List (List Char) → List Char
  | s0, [] => s0
  | s0, s :: ss => s0 ++ d :: segsJoin d s ss

/-- The separator-headed suffixes of a `segsJoin` decomposition: the
positions a pattern starting with the separator could match at. -/
def segsSufs (d : Char) : List Char → List (List Char) → List (List Char)
  | _, [] => []
  | _, s :: ss => (d :: segsJoin d s ss) :: segsSufs d s ss

/-- `segsJoin` with a distinguished trailing suffix after the last
separator-joined chunk. -/
def segsJoinT (d : Char) (tail : List Char) : List Char → List (List Char) → List Char
  | s0, [] => s0 ++ tail
  | s0, s :: ss => s0 ++ d :: segsJoinT d tail s ss

/-- The separator-headed suffixes of a `segsJoinT` decomposition. -/
def segsSufsT (d : Char) (tail : List Char) : List Char → List (List Char) → List (List Char)
  | _, [] => []
  | _, s :: ss => (d :: segsJoinT d tail s ss) :: segsSufsT d tail s ss

section CharFacts

theorem ofNat_sub32_toNat (n : Nat) (h1 : 97 ≤ n) (h2 : n ≤ 122) :
    (Char.ofNat (n - 32)).toNat = n - 32 := by
  have hv : (n - 32).isValidChar := Or.inl (by omega)
  simp [Char.ofNat, hv, Char.ofNatAux, Char.toNat, UInt32.toNat, BitVec.toNat_ofNatLt]

theorem toUpper_toNat_of_lower (c : Char) (h1 : 97 ≤ c.toNat) (h2 : c.toNat ≤ 122) :
    (Char.toUpper c).toNat = c.toNat - 32 := by
  rw [Char.toUpper, if_pos ⟨h1, h2⟩, ofNat_sub32_toNat _ h1 h2]

theorem toUpper_eq_self (c : Char) (h : ¬ (97 ≤ c.toNat ∧ c.toNat ≤ 122)) :
    Char.toUpper c = c := by
  rw [Char.toUpper, if_neg h]

theorem isUpperLatinB_toUpper (c : Char) :
    isUpperLatinB (Char.toUpper c) = isLatinLetterB c := by
  by_cases h : 97 ≤ c.toNat ∧ c.toNat ≤ 122
  · obtain ⟨h1, h2⟩ := h
    have ht := toUpper_toNat_of_lower c h1 h2
    simp only [isUpperLatinB, isLatinLetterB, ht, decide_eq_decide]
    omega
  · rw [toUpper_eq_self c h]
    simp only [isUpperLatinB, isLatinLetterB, decide_eq_decide]
    omega

end CharFacts

theorem regexUpperOneToFive_iff (cs : List Char) :
    regexUpperOneToFive cs = true ↔
      (1 ≤ cs.length ∧ cs.length ≤ 5 ∧ ∀ c ∈ cs, isUpperLatinB c = true) := by
  simp [regexUpperOneToFive, List.all_eq_true, and_assoc]

/-- Claim C2 counterexample: the first client's `isValidSymbol` accepts
the all-lowercase string `"aapl"`, which the claim says must be rejected
(it contains lowercase letters and is not a string of 1–5 uppercase
Latin letters). -/
theorem c2_counterexample_lowercase_accepted :
    isValidSymbol000 (strL "aapl") = true ∧
    regexUpperOneToFive (strL "aapl") = false := by
  decide

/-- Claim C2 (amended): the second client's `isValidSymbol` returns true
iff its argument is 1–5 characters, all uppercase Latin letters; the
first client's `isValidSymbol` uppercases its argument before the test,
so it returns true iff the argument is 1–5 characters, all Latin letters
of either case. -/
theorem c2_symbol_validity_characterization (s : List Char) :
    (isValidSymbol001 s = true ↔
       (1 ≤ s.length ∧ s.length ≤ 5 ∧ ∀ c ∈ s, isUpperLatinB c = true)) ∧
    (isValidSymbol000 s = true ↔
       (1 ≤ s.length ∧ s.length ≤ 5 ∧ ∀ c ∈ s, isLatinLetterB c = true)) := by
  constructor
  · exact regexUpperOneToFive_iff s
  · rw [isValidSymbol000, regexUpperOneToFive_iff]
    simp only [jsToUpper, List.length_map, List.mem_map]
    constructor
    · rintro ⟨h1, h2, h3⟩
      refine ⟨h1, h2, fun c hc => ?_⟩
      rw [← isUpperLatinB_toUpper c]
      exact h3 _ ⟨c, hc, rfl⟩
    · rintro ⟨h1, h2, h3⟩
      refine ⟨h1, h2, ?_⟩
      rintro x ⟨c, hc, rfl⟩
      rw [isUpperLatinB_toUpper c]
      exact h3 c hc

/-- Claim C3 counterexample: the second client's `parseSymbolList` keeps
`"XYZ123"` (it filters only empty pieces, not invalid symbols), so on the
input of the claim it does not return `["AAPL","MSFT"]`. -/
theorem c3_counterexample_invalid_piece_kept :
    parseSymbolList001 (strL "AAPL, msft , xyz123")
      = [strL "AAPL", strL "MSFT", strL "XYZ123"] ∧
    parseSymbolList001 (strL "AAPL, msft , xyz123")
      ≠ [strL "AAPL", strL "MSFT"] := by
  decide

/-- Claim C3 (amended): the first client's `parseSymbolList` splits on
commas, trims and uppercases each piece and drops the pieces failing the
symbol check, giving `["AAPL","MSFT"]` on the input of the claim; the
second client's version drops only empty pieces (it equals the first
composed with no validity filter), giving `["AAPL","MSFT","XYZ123"]`.
In general the first client's result is the second client's result
filtered through `isValidSymbol`. -/
theorem c3_parse_symbol_list :
    parseSymbolList000 (strL "AAPL, msft , xyz123") = [strL "AAPL", strL "MSFT"] ∧
    (∀ input, parseSymbolList000 input
       = (parseSymbolList001 input).filter isValidSymbol000) := by
  refine ⟨by decide, fun input => ?_⟩
  rw [parseSymbolList000, parseSymbolList001, List.filter_filter]
  congr 1
  funext s
  by_cases h : isValidSymbol000 s = true
  · have hne : s.isEmpty = false := by
      rcases s with _ | ⟨c, cs⟩
      · exact absurd h (by decide)
      · rfl
    simp [h, hne]
    have : 1 ≤ s.length := by
      rcases s with _ | ⟨c, cs⟩
      · exact absurd h (by decide)
      · simp
    omega
  · simp [h]

/-- Claim C4 counterexample: with two badly formatted members, the second
client's `validateSymbolList` reports only the first of them; the returned
message does not mention `"B2"` at all, so it does not identify all
members that failed the format check. -/
theorem c4_counterexample_only_first_reported :
    (validateSymbolList001 [strL "A1", strL "B2"]).error
      = some (strL "Invalid symbol format: A1 (1-5 letters only)") ∧
    containsSub (strL "B2") (strL "Invalid symbol format: A1 (1-5 letters only)")
      = false := by
  decide

/-- Claim C4 (amended): both clients return `valid: false` exactly when
the list has fewer than 2 or more than 5 members or some member fails
that client's symbol check, and `valid: true` otherwise; within the count
bounds, the first client's error message lists every invalid member,
while the second client's names only the first invalid member. -/
theorem c4_validate_symbol_list (symbols : List (List Char)) :
    ((validateSymbolList000 symbols).valid = true ↔
       (2 ≤ symbols.length ∧ symbols.length ≤ 5 ∧
        ∀ s ∈ symbols, isValidSymbol000 s = true)) ∧
    ((validateSymbolList001 symbols).valid = true ↔
       (2 ≤ symbols.length ∧ symbols.length ≤ 5 ∧
        ∀ s ∈ symbols, isValidSymbol001 s = true)) ∧
    (2 ≤ symbols.length → symbols.length ≤ 5 →
       (validateSymbolList000 symbols).error
         = (if (symbols.filter (fun s => !isValidSymbol000 s)).isEmpty then none
            else some (strL "Invalid symbols: "
                 ++ joinWith (strL ", ") (symbols.filter (fun s => !isValidSymbol000 s))))) ∧
    (2 ≤ symbols.length → symbols.length ≤ 5 → ∀ s,
       symbols.find? (fun t => !isValidSymbol001 t) = some s →
       (validateSymbolList001 symbols).error
         = some (strL "Invalid symbol format: " ++ s ++ strL " (1-5 letters only)")) := by
  refine ⟨?_, ?_, ?_, ?_⟩
  · simp only [validateSymbolList000]
    by_cases hA : symbols.length < 2
    · rw [if_pos hA]
      exact iff_of_false (by simp) (by rintro ⟨h, -, -⟩; omega)
    · rw [if_neg hA]
      by_cases hB : 5 < symbols.length
      · rw [if_pos hB]
        exact iff_of_false (by simp) (by rintro ⟨-, h, -⟩; omega)
      · rw [if_neg hB]
        by_cases hC : 0 < (symbols.filter (fun s => !isValidSymbol000 s)).length
        · rw [if_pos hC]
          refine iff_of_false (by simp) ?_
          rintro ⟨-, -, hall⟩
          have hnil : symbols.filter (fun s => !isValidSymbol000 s) = [] := by
            rw [List.filter_eq_nil_iff]
            intro a ha
            simp [hall a ha]
          rw [hnil] at hC
          simp at hC
        · rw [if_neg hC]
          refine iff_of_true rfl ⟨by omega, by omega, fun s hs => ?_⟩
          by_contra hbad
          have hmem : s ∈ symbols.filter (fun t => !isValidSymbol000 t) :=
            List.mem_filter.mpr ⟨hs, by simp [hbad]⟩
          exact hC (List.length_pos.mpr (List.ne_nil_of_mem hmem))
  · simp only [validateSymbolList001]
    by_cases hA : symbols.length < 2
    · rw [if_pos hA]
      exact iff_of_false (by simp) (by rintro ⟨h, -, -⟩; omega)
    · rw [if_neg hA]
      by_cases hB : 5 < symbols.length
      · rw [if_pos hB]
        exact iff_of_false (by simp) (by rintro ⟨-, h, -⟩; omega)
      · rw [if_neg hB]
        rcases hfind : symbols.find? (fun t => !isValidSymbol001 t) with _ | s
        · simp only [hfind]
          refine iff_of_true trivial ⟨by omega, by omega, fun s hs => ?_⟩
          have := List.find?_eq_none.mp hfind s hs
          simpa using this
        · simp only [hfind]
          refine iff_of_false (by simp) ?_
          rintro ⟨-, -, hall⟩
          have hmem := List.mem_of_find?_eq_some hfind
          have := List.find?_some hfind
          simp [hall s hmem] at this
  · intro h2 h5
    simp only [validateSymbolList000]
    rw [if_neg (by omega), if_neg (by omega)]
    by_cases hfil : (symbols.filter (fun s => !isValidSymbol000 s)).isEmpty
    · have hnil : symbols.filter (fun s => !isValidSymbol000 s) = [] := by
        simpa [List.isEmpty_iff] using hfil
      rw [if_neg (by rw [hnil]; simp), hfil]
      simp
    · have hpos : 0 < (symbols.filter (fun s => !isValidSymbol000 s)).length := by
        rcases hl : symbols.filter (fun s => !isValidSymbol000 s) with _ | ⟨a, as⟩
        · rw [hl] at hfil
          simp at hfil
        · simp
      rw [if_pos hpos]
      simp [hfil]
  · intro h2 h5 s hfind
    simp only [validateSymbolList001]
    rw [if_neg (by omega), if_neg (by omega)]
    simp only [hfind]

/-- Claim C6: after every `addToRecentAnalyses` the list has length at
most 10 with the new entry at the front (entries past the tenth dropped);
folding insertions over an empty list retains the 10 most recent entries,
newest first, so 11 insertions leave exactly 10 entries. -/
theorem c6_recent_analyses_invariant :
    (∀ (a : RecentAnalysis) (l : List RecentAnalysis),
       (addToRecentAnalyses a l).length ≤ 10 ∧
       (addToRecentAnalyses a l).head? = some a ∧
       addToRecentAnalyses a l = (a :: l).take 10) ∧
    (∀ es : List RecentAnalysis,
       List.foldl (fun l a => addToRecentAnalyses a l) [] es = es.reverse.take 10) ∧
    (∀ es : List RecentAnalysis, es.length = 11 →
       (List.foldl (fun l a => addToRecentAnalyses a l) [] es).length = 10) := by
  have hTT : ∀ (xs ys : List RecentAnalysis) (n : Nat),
      (xs ++ ys.take n).take n = (xs ++ ys).take n := by
    intro xs ys n
    rw [List.take_append_eq_append_take, List.take_append_eq_append_take, List.take_take]
    congr 2
    omega
  have hFold : ∀ (es acc : List RecentAnalysis), acc.length ≤ 10 →
      List.foldl (fun l a => addToRecentAnalyses a l) acc es
        = (es.reverse ++ acc).take 10 := by
    intro es
    induction es with
    | nil =>
      intro acc hacc
      simpa using (List.take_of_length_le hacc).symm
    | cons e es ih =>
      intro acc hacc
      rw [List.foldl_cons]
      rw [ih (addToRecentAnalyses e acc) (by simp [addToRecentAnalyses])]
      rw [addToRecentAnalyses, List.reverse_cons, List.append_assoc]
      rw [show ([e] : List RecentAnalysis) ++ acc = e :: acc by simp]
      exact hTT _ _ _
  refine ⟨?_, ?_, ?_⟩
  · intro a l
    refine ⟨by simp [addToRecentAnalyses], ?_, rfl⟩
    rw [addToRecentAnalyses, List.take_cons (by omega)]
    rfl
  · intro es
    simpa using hFold es [] (by simp)
  · intro es hlen
    rw [hFold es [] (by simp)]
    simp [hlen]

/-- Claim C6 witness: eleven concrete insertions starting from the empty
list leave exactly ten entries. -/
theorem c6_recent_analyses_witness :
    (List.foldl (fun l a => addToRecentAnalyses a l) []
      (List.replicate 11 ⟨strL "AAPL", strL "stock", none, strL "2024-01-01"⟩)).length
      = 10 :=
  c6_recent_analyses_invariant.2.2 _ (by simp)

section TableLemmas

theorem isPfx_append_self (p s : List Char) : isPfx p (p ++ s) = true := by
  induction p with
  | nil => rfl
  | cons a as ih => simp [isPfx, ih]

theorem isSfx_append_self (p a : List Char) : isSfx p (a ++ p) = true := by
  rw [isSfx, List.reverse_append]
  exact isPfx_append_self p.reverse a.reverse

theorem mem_of_isPfx_single (a : Char) (s : List Char) (h : isPfx [a] s = true) : a ∈ s := by
  cases s with
  | nil => simp [isPfx] at h
  | cons b bs =>
    simp [isPfx] at h
    simp [h]

theorem mem_of_mem_jsTrim (x : Char) (cs : List Char) (h : x ∈ jsTrim cs) : x ∈ cs := by
  rw [jsTrim, List.mem_reverse] at h
  have h1 : x ∈ (cs.dropWhile isJsWhitespace).reverse :=
    List.Sublist.mem h (List.dropWhile_sublist _)
  rw [List.mem_reverse] at h1
  exact List.Sublist.mem h1 (List.dropWhile_sublist _)

theorem splitOnChar_ne_nil (sep : Char) (cs : List Char) : splitOnChar sep cs ≠ [] := by
  induction cs with
  | nil => simp [splitOnChar]
  | cons c cs ih =>
    rw [splitOnChar]
    by_cases h : c = sep
    · simp [h]
    · rcases hs : splitOnChar sep cs with _ | ⟨p, ps⟩
      · exact absurd hs ih
      · simp [h, hs]

theorem mem_of_mem_splitOnChar (sep : Char) (cs : List Char) (piece : List Char) (x : Char)
    (hp : piece ∈ splitOnChar sep cs) (hx : x ∈ piece) : x ∈ cs := by
  induction cs generalizing piece with
  | nil =>
    simp [splitOnChar] at hp
    subst hp
    simp at hx
  | cons c cs ih =>
    rw [splitOnChar] at hp
    by_cases h : c = sep
    · rw [if_pos h] at hp
      rcases List.mem_cons.mp hp with h1 | h1
      · subst h1
        simp at hx
      · exact List.mem_cons_of_mem _ (ih piece h1 hx)
    · rw [if_neg h] at hp
      rcases hs : splitOnChar sep cs with _ | ⟨p, ps⟩
      · exact absurd hs (splitOnChar_ne_nil sep cs)
      · rw [hs] at hp
        rcases List.mem_cons.mp hp with h1 | h1
        · subst h1
          rcases List.mem_cons.mp hx with h2 | h2
          · subst h2
            exact List.mem_cons_self _ _
          · exact List.mem_cons_of_mem _
              (ih p (by rw [hs]; exact List.mem_cons_self _ _) h2)
        · exact List.mem_cons_of_mem _
            (ih piece (by rw [hs]; exact List.mem_cons_of_mem _ h1) hx)

theorem rowCells_no_nl (line : List Char) (h : '\n' ∉ line) :
    ∀ cell ∈ rowCells line, '\n' ∉ cell := by
  intro cell hcell hmemNL
  rw [rowCells] at hcell
  have h1 := List.mem_of_mem_filter hcell
  rcases List.mem_map.mp h1 with ⟨p, hp, rfl⟩
  exact h (mem_of_mem_splitOnChar '|' line p '\n' hp (mem_of_mem_jsTrim _ _ hmemNL))

theorem collectRows_eq (ls : List (List Char)) :
    collectRows ls
      = (((ls.takeWhile isRowLine).map rowCells).filter (fun r => !r.isEmpty),
         ls.dropWhile isRowLine) := by
  induction ls with
  | nil => rfl
  | cons line rest ih =>
    rw [collectRows]
    by_cases h : isRowLine line
    · rw [if_pos h, ih]
      rw [List.takeWhile_cons, List.dropWhile_cons]
      by_cases hc : (rowCells line).isEmpty
      · simp [h, hc, List.filter_cons]
      · simp [h, hc, List.filter_cons]
    · rw [if_neg h]
      rw [List.takeWhile_cons, List.dropWhile_cons]
      simp [h]

theorem no_nl_escChar (c : Char) (hc : c ≠ '\n') : '\n' ∉ escChar c := by
  rw [escChar]
  split_ifs <;> simp [strL] <;> exact fun hh => hc hh.symm

theorem no_nl_escapeHtml (cs : List Char) (h : '\n' ∉ cs) : '\n' ∉ escapeHtml cs := by
  induction cs with
  | nil => simp [escapeHtml, concatAll]
  | cons c cs ih =>
    rw [escapeHtml, List.map_cons, concatAll]
    intro hmem
    rcases List.mem_append.mp hmem with h1 | h1
    · exact no_nl_escChar c (fun hh => h (hh ▸ List.mem_cons_self _ _)) h1
    · exact ih (fun hh => h (List.mem_cons_of_mem _ hh)) h1

theorem unescapeHtml_cons_of_ne (c : Char) (hca : c ≠ '&') (X : List Char) :
    unescapeHtml (c :: X) = c :: unescapeHtml X := by
  rw [unescapeHtml.eq_def]
  split
  · rename_i heq
    exact absurd heq (by simp)
  · rename_i heq
    injection heq with hc ht
    exact absurd hc hca
  · rename_i heq
    injection heq with hc ht
    exact absurd hc hca
  · rename_i heq
    injection heq with hc ht
    exact absurd hc hca
  · rename_i heq
    injection heq with hc ht
    subst hc
    rw [ht]

theorem unescapeHtml_escapeHtml (a : List Char) : unescapeHtml (escapeHtml a) = a := by
  induction a with
  | nil => rfl
  | cons c cs ih =>
    rw [escapeHtml, List.map_cons, concatAll]
    rw [show concatAll (cs.map escChar) = escapeHtml cs from rfl]
    rw [escChar]
    by_cases h1 : c = '&'
    · subst h1
      rw [if_pos rfl,
        show strL "&amp;" ++ escapeHtml cs = '&' :: 'a' :: 'm' :: 'p' :: ';' :: escapeHtml cs
          from rfl]
      rw [show unescapeHtml ('&' :: 'a' :: 'm' :: 'p' :: ';' :: escapeHtml cs)
            = '&' :: unescapeHtml (escapeHtml cs) from rfl, ih]
    · rw [if_neg h1]
      by_cases h2 : c = '<'
      · subst h2
        rw [if_pos rfl,
          show strL "&lt;" ++ escapeHtml cs = '&' :: 'l' :: 't' :: ';' :: escapeHtml cs
            from rfl]
        rw [show unescapeHtml ('&' :: 'l' :: 't' :: ';' :: escapeHtml cs)
              = '<' :: unescapeHtml (escapeHtml cs) from rfl, ih]
      · rw [if_neg h2]
        by_cases h3 : c = '>'
        · subst h3
          rw [if_pos rfl,
            show strL "&gt;" ++ escapeHtml cs = '&' :: 'g' :: 't' :: ';' :: escapeHtml cs
              from rfl]
          rw [show unescapeHtml ('&' :: 'g' :: 't' :: ';' :: escapeHtml cs)
                = '>' :: unescapeHtml (escapeHtml cs) from rfl, ih]
        · rw [if_neg h3, List.singleton_append, unescapeHtml_cons_of_ne c h1, ih]

theorem escapeHtml_injective (a b : List Char) (h : escapeHtml a = escapeHtml b) : a = b := by
  have h2 := congrArg unescapeHtml h
  rwa [unescapeHtml_escapeHtml, unescapeHtml_escapeHtml] at h2

theorem splitLines_line_append (a b : List Char) (ha : '\n' ∉ a) :
    splitLines (a ++ '\n' :: b) = a :: splitLines b := by
  induction a with
  | nil => simp [splitLines]
  | cons c cs ih =>
    have hc : c ≠ '\n' := fun hh => ha (hh ▸ List.mem_cons_self _ _)
    rw [List.cons_append, splitLines, if_neg hc,
      ih (fun hh => ha (List.mem_cons_of_mem _ hh))]

theorem splitLines_no_nl (a : List Char) (ha : '\n' ∉ a) : splitLines a = [a] := by
  induction a with
  | nil => rfl
  | cons c cs ih =>
    have hc : c ≠ '\n' := fun hh => ha (hh ▸ List.mem_cons_self _ _)
    rw [splitLines, if_neg hc, ih (fun hh => ha (List.mem_cons_of_mem _ hh))]

theorem thLine_eq (h : List Char) : thLine h = thContentLine h ++ ['\n'] := by
  rw [thLine, thContentLine,
    show strL "</th>\n" = strL "</th>" ++ ['\n'] from rfl]
  simp [List.append_assoc]

theorem tdLine_eq (c : List Char) : tdLine c = tdContentLine c ++ ['\n'] := by
  rw [tdLine, tdContentLine,
    show strL "</td>\n" = strL "</td>" ++ ['\n'] from rfl]
  simp [List.append_assoc]

theorem no_nl_thContentLine (h : List Char) (hh : '\n' ∉ h) : '\n' ∉ thContentLine h := by
  rw [thContentLine]
  intro hmem
  rcases List.mem_append.mp hmem with h1 | h1
  · rcases List.mem_append.mp h1 with h2 | h2
    · exact absurd h2 (by decide)
    · exact no_nl_escapeHtml h hh h2
  · exact absurd h1 (by decide)

theorem no_nl_tdContentLine (c : List Char) (hc : '\n' ∉ c) : '\n' ∉ tdContentLine c := by
  rw [tdContentLine]
  intro hmem
  rcases List.mem_append.mp hmem with h1 | h1
  · rcases List.mem_append.mp h1 with h2 | h2
    · exact absurd h2 (by decide)
    · exact no_nl_escapeHtml c hc h2
  · exact absurd h1 (by decide)

theorem splitLines_th_region (headers : List (List Char)) (rest : List Char)
    (hH : ∀ h ∈ headers, '\n' ∉ h) :
    splitLines (concatAll (headers.map thLine) ++ rest)
      = headers.map thContentLine ++ splitLines rest := by
  induction headers with
  | nil => simp [concatAll]
  | cons h hs ih =>
    rw [List.map_cons, concatAll, thLine_eq, List.map_cons]
    rw [List.append_assoc, List.append_assoc, List.singleton_append]
    rw [splitLines_line_append _ _ (no_nl_thContentLine h (hH h (List.mem_cons_self _ _)))]
    rw [ih (fun x hx => hH x (List.mem_cons_of_mem _ hx))]
    rfl

theorem splitLines_td_region (cells : List (List Char)) (rest : List Char)
    (hC : ∀ c ∈ cells, '\n' ∉ c) :
    splitLines (concatAll (cells.map tdLine) ++ rest)
      = cells.map tdContentLine ++ splitLines rest := by
  induction cells with
  | nil => simp [concatAll]
  | cons c cs ih =>
    rw [List.map_cons, concatAll, tdLine_eq, List.map_cons]
    rw [List.append_assoc, List.append_assoc, List.singleton_append]
    rw [splitLines_line_append _ _ (no_nl_tdContentLine c (hC c (List.mem_cons_self _ _)))]
    rw [ih (fun x hx => hC x (List.mem_cons_of_mem _ hx))]
    rfl

theorem splitLines_tr_region (rows : List (List (List Char))) (n : Nat) (rest : List Char)
    (hR : ∀ r ∈ rows, ∀ c ∈ r, '\n' ∉ c) :
    splitLines (concatAll (rows.map (trBlock n)) ++ rest)
      = concatAll (rows.map (trLines n)) ++ splitLines rest := by
  induction rows with
  | nil => simp [concatAll]
  | cons r rs ih =>
    rw [List.map_cons, concatAll, trBlock]
    rw [show strL "    <tr>\n" = strL "    <tr>" ++ ['\n'] from rfl,
        show strL "    </tr>\n" = strL "    </tr>" ++ ['\n'] from rfl]
    simp only [List.append_assoc, List.cons_append, List.nil_append]
    rw [splitLines_line_append (strL "    <tr>") _ (by decide)]
    rw [splitLines_td_region (r.take n) _
      (fun c hc => hR r (List.mem_cons_self _ _) c (List.Sublist.mem hc (List.take_sublist n r)))]
    rw [splitLines_line_append (strL "    </tr>") _ (by decide)]
    rw [ih (fun x hx => hR x (List.mem_cons_of_mem _ hx))]
    simp [trLines, concatAll, List.append_assoc]

theorem splitLines_tableHtml (headers : List (List Char)) (rows : List (List (List Char)))
    (hH : ∀ h ∈ headers, '\n' ∉ h) (hR : ∀ r ∈ rows, ∀ c ∈ r, '\n' ∉ c) :
    splitLines (tableHtml headers rows) = tableLines headers rows := by
  rw [tableHtml, theadHtml, tbodyHtml, tableLines]
  rw [show strL "<table class=\"markdown-table\">\n"
        = strL "<table class=\"markdown-table\">" ++ ['\n'] from rfl]
  by_cases hh : 0 < headers.length
  · by_cases hr : 0 < rows.length
    · rw [if_pos hh, if_pos hr, if_pos hh, if_pos hr]
      rw [show strL "  <thead>\n    <tr>\n"
            = (strL "  <thead>" ++ ['\n']) ++ (strL "    <tr>" ++ ['\n']) from rfl,
          show strL "    </tr>\n  </thead>\n"
            = (strL "    </tr>" ++ ['\n']) ++ (strL "  </thead>" ++ ['\n']) from rfl,
          show strL "  <tbody>\n" = strL "  <tbody>" ++ ['\n'] from rfl,
          show strL "  </tbody>\n" = strL "  </tbody>" ++ ['\n'] from rfl]
      simp only [List.append_assoc, List.cons_append, List.nil_append]
      rw [splitLines_line_append (strL "<table class=\"markdown-table\">") _ (by decide)]
      rw [splitLines_line_append (strL "  <thead>") _ (by decide)]
      rw [splitLines_line_append (strL "    <tr>") _ (by decide)]
      rw [splitLines_th_region headers _ hH]
      rw [splitLines_line_append (strL "    </tr>") _ (by decide)]
      rw [splitLines_line_append (strL "  </thead>") _ (by decide)]
      rw [splitLines_line_append (strL "  <tbody>") _ (by decide)]
      rw [splitLines_tr_region rows headers.length _ hR]
      rw [splitLines_line_append (strL "  </tbody>") _ (by decide)]
      rw [splitLines_no_nl (strL "</table>") (by decide)]
    · rw [if_pos hh, if_neg hr, if_pos hh, if_neg hr]
      rw [show strL "  <thead>\n    <tr>\n"
            = (strL "  <thead>" ++ ['\n']) ++ (strL "    <tr>" ++ ['\n']) from rfl,
          show strL "    </tr>\n  </thead>\n"
            = (strL "    </tr>" ++ ['\n']) ++ (strL "  </thead>" ++ ['\n']) from rfl]
      simp only [List.append_assoc, List.cons_append, List.nil_append, List.append_nil]
      rw [splitLines_line_append (strL "<table class=\"markdown-table\">") _ (by decide)]
      rw [splitLines_line_append (strL "  <thead>") _ (by decide)]
      rw [splitLines_line_append (strL "    <tr>") _ (by decide)]
      rw [splitLines_th_region headers _ hH]
      rw [splitLines_line_append (strL "    </tr>") _ (by decide)]
      rw [splitLines_line_append (strL "  </thead>") _ (by decide)]
      rw [splitLines_no_nl (strL "</table>") (by decide)]
  · by_cases hr : 0 < rows.length
    · rw [if_neg hh, if_pos hr, if_neg hh, if_pos hr]
      rw [show strL "  <tbody>\n" = strL "  <tbody>" ++ ['\n'] from rfl,
          show strL "  </tbody>\n" = strL "  </tbody>" ++ ['\n'] from rfl]
      simp only [List.append_assoc, List.cons_append, List.nil_append, List.append_nil]
      rw [splitLines_line_append (strL "<table class=\"markdown-table\">") _ (by decide)]
      rw [splitLines_line_append (strL "  <tbody>") _ (by decide)]
      rw [splitLines_tr_region rows headers.length _ hR]
      rw [splitLines_line_append (strL "  </tbody>") _ (by decide)]
      rw [splitLines_no_nl (strL "</table>") (by decide)]
    · rw [if_neg hh, if_neg hr, if_neg hh, if_neg hr]
      simp only [List.append_assoc, List.cons_append, List.nil_append, List.append_nil]
      rw [splitLines_line_append (strL "<table class=\"markdown-table\">") _ (by decide)]
      rw [splitLines_no_nl (strL "</table>") (by decide)]

theorem linePickTag_thContent (h : List Char) :
    linePickTag (strL "<th>") (strL "</th>") (thContentLine h) = some (escapeHtml h) := by
  have hdrop : (strL "      <th>" ++ escapeHtml h ++ strL "</th>").dropWhile (fun c => c == ' ')
      = strL "<th>" ++ (escapeHtml h ++ strL "</th>") := rfl
  simp only [linePickTag, thContentLine]
  simp only [hdrop]
  have hpfx : isPfx (strL "<th>") (strL "<th>" ++ (escapeHtml h ++ strL "</th>")) = true :=
    isPfx_append_self _ _
  have hsfx : isSfx (strL "</th>") (strL "<th>" ++ (escapeHtml h ++ strL "</th>")) = true := by
    rw [show strL "<th>" ++ (escapeHtml h ++ strL "</th>")
          = (strL "<th>" ++ escapeHtml h) ++ strL "</th>" from (List.append_assoc _ _ _).symm]
    exact isSfx_append_self _ _
  have hlen : decide ((strL "<th>").length + (strL "</th>").length
      ≤ (strL "<th>" ++ (escapeHtml h ++ strL "</th>")).length) = true := by
    refine decide_eq_true ?_
    rw [List.length_append, List.length_append]
    rw [show (strL "<th>").length = 4 from rfl, show (strL "</th>").length = 5 from rfl]
    omega
  rw [if_pos (by rw [hpfx, hsfx, hlen]; rfl)]
  congr 1
  rw [show ((strL "<th>" ++ (escapeHtml h ++ strL "</th>")).drop (strL "<th>").length)
        = escapeHtml h ++ strL "</th>" from List.drop_left _ _]
  have hl : (strL "<th>" ++ (escapeHtml h ++ strL "</th>")).length
      - (strL "<th>").length - (strL "</th>").length = (escapeHtml h).length := by
    rw [List.length_append, List.length_append]
    rw [show (strL "<th>").length = 4 from rfl, show (strL "</th>").length = 5 from rfl]
    omega
  rw [hl]
  exact List.take_left _ _

theorem linePickTag_tdContent (c : List Char) :
    linePickTag (strL "<td>") (strL "</td>") (tdContentLine c) = some (escapeHtml c) := by
  have hdrop : (strL "      <td>" ++ escapeHtml c ++ strL "</td>").dropWhile (fun x => x == ' ')
      = strL "<td>" ++ (escapeHtml c ++ strL "</td>") := rfl
  simp only [linePickTag, tdContentLine]
  simp only [hdrop]
  have hpfx : isPfx (strL "<td>") (strL "<td>" ++ (escapeHtml c ++ strL "</td>")) = true :=
    isPfx_append_self _ _
  have hsfx : isSfx (strL "</td>") (strL "<td>" ++ (escapeHtml c ++ strL "</td>")) = true := by
    rw [show strL "<td>" ++ (escapeHtml c ++ strL "</td>")
          = (strL "<td>" ++ escapeHtml c) ++ strL "</td>" from (List.append_assoc _ _ _).symm]
    exact isSfx_append_self _ _
  have hlen : decide ((strL "<td>").length + (strL "</td>").length
      ≤ (strL "<td>" ++ (escapeHtml c ++ strL "</td>")).length) = true := by
    refine decide_eq_true ?_
    rw [List.length_append, List.length_append]
    rw [show (strL "<td>").length = 4 from rfl, show (strL "</td>").length = 5 from rfl]
    omega
  rw [if_pos (by rw [hpfx, hsfx, hlen]; rfl)]
  congr 1
  rw [show ((strL "<td>" ++ (escapeHtml c ++ strL "</td>")).drop (strL "<td>").length)
        = escapeHtml c ++ strL "</td>" from List.drop_left _ _]
  have hl : (strL "<td>" ++ (escapeHtml c ++ strL "</td>")).length
      - (strL "<td>").length - (strL "</td>").length = (escapeHtml c).length := by
    rw [List.length_append, List.length_append]
    rw [show (strL "<td>").length = 4 from rfl, show (strL "</td>").length = 5 from rfl]
    omega
  rw [hl]
  exact List.take_left _ _

theorem linePickTag_th_of_td (c : List Char) :
    linePickTag (strL "<th>") (strL "</th>") (tdContentLine c) = none := rfl

theorem linePickTag_td_of_th (h : List Char) :
    linePickTag (strL "<td>") (strL "</td>") (thContentLine h) = none := rfl

theorem filterMap_concatAll {α β : Type} (f : α → Option β) (ls : List (List α)) :
    List.filterMap f (concatAll ls) = concatAll (ls.map (List.filterMap f)) := by
  induction ls with
  | nil => rfl
  | cons l ls ih => rw [concatAll, List.filterMap_append, ih, List.map_cons, concatAll]

theorem filterMap_some_map {α β : Type} (f : α → β) (l : List α) :
    List.filterMap (fun a => some (f a)) l = l.map f := by
  induction l with
  | nil => rfl
  | cons a l ih => simp [List.filterMap_cons, ih]

theorem concatAll_map_nil {α β : Type} (l : List α) :
    concatAll (l.map (fun _ => ([] : List β))) = [] := by
  induction l with
  | nil => rfl
  | cons a l ih => rw [List.map_cons, concatAll, List.nil_append, ih]

theorem filterMap_none_list {α β : Type} (l : List α) :
    List.filterMap (fun _ => (none : Option β)) l = [] := by
  induction l with
  | nil => rfl
  | cons a l ih => rw [List.filterMap_cons]; exact ih

theorem map_concatAll {α β : Type} (f : α → β) (ls : List (List α)) :
    (concatAll ls).map f = concatAll (ls.map (List.map f)) := by
  induction ls with
  | nil => rfl
  | cons l ls ih => rw [concatAll, List.map_append, ih, List.map_cons, concatAll]

theorem extractTh_tableHtml (headers : List (List Char)) (rows : List (List (List Char)))
    (hH : ∀ h ∈ headers, '\n' ∉ h) (hR : ∀ r ∈ rows, ∀ c ∈ r, '\n' ∉ c) :
    extractTh (tableHtml headers rows) = headers.map escapeHtml := by
  rw [extractTh, splitLines_tableHtml headers rows hH hR, tableLines]
  have e1 : linePickTag (strL "<th>") (strL "</th>")
      (strL "<table class=\"markdown-table\">") = none := by decide
  have e2 : linePickTag (strL "<th>") (strL "</th>") (strL "  <thead>") = none := by decide
  have e3 : linePickTag (strL "<th>") (strL "</th>") (strL "    <tr>") = none := by decide
  have e4 : linePickTag (strL "<th>") (strL "</th>") (strL "    </tr>") = none := by decide
  have e5 : linePickTag (strL "<th>") (strL "</th>") (strL "  </thead>") = none := by decide
  have e6 : linePickTag (strL "<th>") (strL "</th>") (strL "  <tbody>") = none := by decide
  have e7 : linePickTag (strL "<th>") (strL "</th>") (strL "  </tbody>") = none := by decide
  have e8 : linePickTag (strL "<th>") (strL "</th>") (strL "</table>") = none := by decide
  have hrowline : ∀ r : List (List Char),
      List.filterMap (linePickTag (strL "<th>") (strL "</th>")) (trLines headers.length r)
        = [] := by
    intro r
    rw [trLines, List.filterMap_cons, e3, List.filterMap_append, List.filterMap_map]
    simp only [Function.comp_def, linePickTag_th_of_td]
    rw [filterMap_none_list]
    simp [List.filterMap_cons, e4]
  have hthregion :
      List.filterMap (linePickTag (strL "<th>") (strL "</th>")) (headers.map thContentLine)
        = headers.map escapeHtml := by
    rw [List.filterMap_map]
    simp only [Function.comp_def, linePickTag_thContent]
    exact filterMap_some_map escapeHtml headers
  have hbodyregion :
      List.filterMap (linePickTag (strL "<th>") (strL "</th>"))
          (concatAll (rows.map (trLines headers.length))) = [] := by
    rw [filterMap_concatAll, List.map_map]
    have : ((List.filterMap (linePickTag (strL "<th>") (strL "</th>")))
        ∘ trLines headers.length) = fun _ => [] := funext fun r => hrowline r
    rw [this, concatAll_map_nil]
  by_cases hh : 0 < headers.length
  · by_cases hr : 0 < rows.length
    · rw [if_pos hh, if_pos hr]
      simp [List.filterMap_cons, List.filterMap_append, e1, e2, e3, e4, e5, e6, e7, e8,
        hthregion, hbodyregion]
    · rw [if_pos hh, if_neg hr]
      simp [List.filterMap_cons, List.filterMap_append, e1, e2, e3, e4, e5, e6, e7, e8,
        hthregion]
  · have hnil : headers = [] := by
      cases headers with
      | nil => rfl
      | cons x xs => simp at hh
    subst hnil
    simp only [List.length_nil] at hbodyregion
    by_cases hr : 0 < rows.length
    · rw [if_neg hh, if_pos hr]
      simp [List.filterMap_cons, List.filterMap_append, e1, e2, e3, e4, e5, e6, e7, e8,
        hbodyregion]
    · rw [if_neg hh, if_neg hr]
      simp [List.filterMap_cons, List.filterMap_append, e1, e8]

theorem extractTd_tableHtml (headers : List (List Char)) (rows : List (List (List Char)))
    (hH : ∀ h ∈ headers, '\n' ∉ h) (hR : ∀ r ∈ rows, ∀ c ∈ r, '\n' ∉ c) :
    extractTd (tableHtml headers rows)
      = concatAll (rows.map (fun r => (r.take headers.length).map escapeHtml)) := by
  rw [extractTd, splitLines_tableHtml headers rows hH hR, tableLines]
  have e1 : linePickTag (strL "<td>") (strL "</td>")
      (strL "<table class=\"markdown-table\">") = none := by decide
  have e2 : linePickTag (strL "<td>") (strL "</td>") (strL "  <thead>") = none := by decide
  have e3 : linePickTag (strL "<td>") (strL "</td>") (strL "    <tr>") = none := by decide
  have e4 : linePickTag (strL "<td>") (strL "</td>") (strL "    </tr>") = none := by decide
  have e5 : linePickTag (strL "<td>") (strL "</td>") (strL "  </thead>") = none := by decide
  have e6 : linePickTag (strL "<td>") (strL "</td>") (strL "  <tbody>") = none := by decide
  have e7 : linePickTag (strL "<td>") (strL "</td>") (strL "  </tbody>") = none := by decide
  have e8 : linePickTag (strL "<td>") (strL "</td>") (strL "</table>") = none := by decide
  have hrowline : ∀ r : List (List Char),
      List.filterMap (linePickTag (strL "<td>") (strL "</td>")) (trLines headers.length r)
        = (r.take headers.length).map escapeHtml := by
    intro r
    rw [trLines, List.filterMap_cons, e3, List.filterMap_append, List.filterMap_map]
    simp only [Function.comp_def, linePickTag_tdContent]
    rw [filterMap_some_map]
    simp [List.filterMap_cons, e4]
  have hthregion :
      List.filterMap (linePickTag (strL "<td>") (strL "</td>")) (headers.map thContentLine)
        = [] := by
    rw [List.filterMap_map]
    simp only [Function.comp_def, linePickTag_td_of_th]
    exact filterMap_none_list headers
  have hbodyregion :
      List.filterMap (linePickTag (strL "<td>") (strL "</td>"))
          (concatAll (rows.map (trLines headers.length)))
        = concatAll (rows.map (fun r => (r.take headers.length).map escapeHtml)) := by
    rw [filterMap_concatAll, List.map_map]
    have : ((List.filterMap (linePickTag (strL "<td>") (strL "</td>")))
        ∘ trLines headers.length) = fun r => (r.take headers.length).map escapeHtml :=
      funext fun r => hrowline r
    rw [this]
  by_cases hh : 0 < headers.length
  · by_cases hr : 0 < rows.length
    · rw [if_pos hh, if_pos hr]
      simp [List.filterMap_cons, List.filterMap_append, e1, e2, e3, e4, e5, e6, e7, e8,
        hthregion, hbodyregion]
    · have hrnil : rows = [] := by
        cases rows with
        | nil => rfl
        | cons x xs => simp at hr
      subst hrnil
      rw [if_pos hh, if_neg hr]
      simp [List.filterMap_cons, List.filterMap_append, e1, e2, e3, e4, e5, e6, e7, e8,
        hthregion, concatAll]
  · have hhnil : headers = [] := by
      cases headers with
      | nil => rfl
      | cons x xs => simp at hh
    subst hhnil
    simp only [List.length_nil] at hbodyregion
    by_cases hr : 0 < rows.length
    · rw [if_neg hh, if_pos hr]
      simp [List.filterMap_cons, List.filterMap_append, e1, e2, e3, e4, e5, e6, e7, e8,
        hbodyregion]
    · have hrnil : rows = [] := by
        cases rows with
        | nil => rfl
        | cons x xs => simp at hr
      subst hrnil
      rw [if_neg hh, if_neg hr]
      simp [List.filterMap_cons, List.filterMap_append, e1, e8, concatAll]

theorem contains_pipe_of_trim_pfx (line : List Char)
    (h : isPfx (strL "|") (jsTrim line) = true) : line.contains '|' = true := by
  have hm : '|' ∈ jsTrim line := mem_of_isPfx_single '|' (jsTrim line) h
  have hm2 := mem_of_mem_jsTrim '|' line hm
  simpa using hm2

end TableLemmas

/-- Claim C7 counterexample: a non-2xx response whose JSON body parses
and contains the `error` field with the empty-string value surfaces the
status fallback, not the field's value, because `errorData.error || ...`
treats the empty string as falsy. -/
theorem c7_counterexample_empty_error_field :
    nonOkErrorMessage 404 (strL "Not Found") (some [(strL "error", strL "")])
      = strL "HTTP 404: Not Found" ∧
    nonOkErrorMessage 404 (strL "Not Found") (some [(strL "error", strL "")])
      ≠ strL "" := by
  decide

/-- Claim C7 (amended): for a non-2xx response, the raised message is the
`error` field of the parsed JSON body when that field is present with a
non-empty value, and otherwise (field absent, field empty, or body not
parseable) it is exactly `HTTP <status>: <statusText>`. -/
theorem c7_non_ok_message (status : Nat) (statusText : List Char)
    (body : Option (List (List Char × List Char))) :
    (∀ v, (body.getD []).lookup (strL "error") = some v → v ≠ [] →
       nonOkErrorMessage status statusText body = v) ∧
    ((body.getD []).lookup (strL "error") = none →
       nonOkErrorMessage status statusText body
         = httpFallbackMessage status statusText) ∧
    ((body.getD []).lookup (strL "error") = some [] →
       nonOkErrorMessage status statusText body
         = httpFallbackMessage status statusText) ∧
    (body = none →
       nonOkErrorMessage status statusText body
         = httpFallbackMessage status statusText) := by
  refine ⟨?_, ?_, ?_, ?_⟩
  · intro v hv hne
    rw [nonOkErrorMessage, hv, jsOrElse]
    simp [hne]
  · intro hnone
    rw [nonOkErrorMessage, hnone]
    rfl
  · intro hempty
    rw [nonOkErrorMessage, hempty]
    rfl
  · intro hbody
    subst hbody
    rw [nonOkErrorMessage]
    rcases hl : (List.lookup (strL "error") ([] : List (List Char × List Char))) with _ | v
    · rfl
    · simp at hl

/-- Claim C7 witness: the spec's two examples, derived from the amended
theorem at concrete inputs. -/
theorem c7_non_ok_message_witness :
    nonOkErrorMessage 500 (strL "Internal Server Error")
        (some [(strL "error", strL "symbol not found")])
      = strL "symbol not found" ∧
    nonOkErrorMessage 404 (strL "Not Found") none
      = strL "HTTP 404: Not Found" := by
  constructor
  · exact (c7_non_ok_message 500 (strL "Internal Server Error")
      (some [(strL "error", strL "symbol not found")])).1
      (strL "symbol not found") (by decide) (by decide)
  · exact ((c7_non_ok_message 404 (strL "Not Found") none).2.2.2 rfl).trans (by decide)

/-- Claim C10: the first client's `validateSymbol` returns a value for
every outcome of the underlying request — when the request throws (for
any reason: network failure, non-2xx status, unparseable body), it
returns the fixed `{valid: false, reason: 'Validation failed'}` object
instead of propagating the exception, and on success it passes the
payload through. -/
theorem c10_validate_symbol_never_throws :
    (∀ e : JsError, validateSymbol000 (.error e) = validationFailedResult) ∧
    (∀ v : JsonValue, validateSymbol000 (.ok v) = v) :=
  ⟨fun _ => rfl, fun _ => rfl⟩

/-- Claim C1: the second client's constructor sets a 300000 ms timeout and
`makeRequest` copies it into the config object, but `fetch` reads no
`timeout` member of its init dictionary and the code never creates an
`AbortController`, so the init carries no signal; under any
standard-conformant fetch semantics the `AbortError` branch (the one that
would surface the timeout message) is unreachable, no matter how long the
request takes — the configured timeout is never enforced.  The last
conjunct records that the code does map an `AbortError`, were one
possible, to the timeout-message error. -/
theorem c1_timeout_not_enforced (options : RequestOptions)
    (hsig : options.signal = none) :
    defaultTimeoutMs = 300000 ∧
    (makeRequestConfig defaultTimeoutMs options).timeout
      = some (options.timeout.getD 300000) ∧
    (toRequestInit (makeRequestConfig defaultTimeoutMs options)).signal = none ∧
    (∀ fetchSem, fetchRespectsAbortStd fetchSem → ∀ duration : Nat,
       fetchSem (toRequestInit (makeRequestConfig defaultTimeoutMs options)) duration
         ≠ .abortError) ∧
    (∀ fetchSem duration,
       fetchSem (toRequestInit (makeRequestConfig defaultTimeoutMs options)) duration
           = .abortError →
       makeRequest001 fetchSem options duration
         = .error ⟨strL "Error", requestTimeoutMessage⟩) := by
  refine ⟨rfl, rfl, ?_, ?_, ?_⟩
  · simp [toRequestInit, makeRequestConfig, hsig]
  · intro fetchSem hstd duration habort
    have := hstd _ _ habort
    rw [show (toRequestInit (makeRequestConfig defaultTimeoutMs options)).signal
          = options.signal from rfl, hsig] at this
    simp at this
  · intro fetchSem duration habort
    rw [makeRequest001]
    rw [habort]

/-- Claim C1 witness: with the empty options object and a fetch semantics
that always yields a 200 response (vacuously standard-conformant), a
duration beyond the configured 300000 ms does not reach the abort branch. -/
theorem c1_timeout_not_enforced_witness :
    (fun (_ : RequestInit) (_ : Nat) => FetchResult.response 200 (strL "OK") none)
        (toRequestInit (makeRequestConfig defaultTimeoutMs {})) 300001
      ≠ FetchResult.abortError :=
  (c1_timeout_not_enforced {} rfl).2.2.2.1
    (fun (_ : RequestInit) (_ : Nat) => FetchResult.response 200 (strL "OK") none)
    (fun _ _ h => FetchResult.noConfusion h) 300001

/-- Claim C4 witness: within the count bounds, the first client's message
names both invalid members, derived from the amended theorem at a
concrete input. -/
theorem c4_validate_symbol_list_witness :
    (validateSymbolList000 [strL "A1", strL "MSFT", strL "B2"]).error
      = some (strL "Invalid symbols: A1, B2") := by
  have h := (c4_validate_symbol_list [strL "A1", strL "MSFT", strL "B2"]).2.2.1
    (by decide) (by decide)
  exact h.trans (by decide)

/-- Claim C5: the table-parsing algorithm.  (1) A line followed by `next`
is treated as a table header iff its trimmed form starts and ends with a
pipe and `next` contains both a pipe and a dash; (2) a final line never
starts a table; (3) header cells are the trimmed non-empty segments of
the header line split on pipes; (4) body rows are consumed greedily until
a line fails the row-shape test (the remainder resuming after them), and
rows with zero non-empty cells are skipped; (5) the emitted `<td>` cells
are exactly each row's cells truncated to the header count, each
HTML-escaped; (6) `<b>` escapes to `&lt;b&gt;`. -/
theorem c5_table_parsing_algorithm :
    (∀ line next, tableStartCheck line (some next) = true ↔
       (isPfx (strL "|") (jsTrim line) = true ∧ isSfx (strL "|") (jsTrim line) = true ∧
        next.contains '|' = true ∧ next.contains '-' = true)) ∧
    (∀ line, tableStartCheck line none = false) ∧
    (∀ headerLine sepLine rest,
       (parseTable headerLine sepLine rest).headers
         = ((splitOnChar '|' headerLine).map jsTrim).filter (fun cell => !cell.isEmpty)) ∧
    (∀ headerLine sepLine rest,
       (parseTable headerLine sepLine rest).dataRows
         = ((rest.takeWhile isRowLine).map rowCells).filter (fun r => !r.isEmpty) ∧
       (parseTable headerLine sepLine rest).rest = rest.dropWhile isRowLine) ∧
    (∀ headerLine sepLine rest, '\n' ∉ headerLine → (∀ l ∈ rest, '\n' ∉ l) →
       extractTd (parseTable headerLine sepLine rest).html
         = concatAll ((parseTable headerLine sepLine rest).dataRows.map
             (fun r => (r.take (parseTable headerLine sepLine rest).headers.length).map
                escapeHtml))) ∧
    escapeHtml (strL "<b>") = strL "&lt;b&gt;" := by
  refine ⟨?_, ?_, ?_, ?_, ?_, by decide⟩
  · intro line next
    constructor
    · intro h
      replace h : (line.contains '|' && isPfx (strL "|") (jsTrim line)
          && isSfx (strL "|") (jsTrim line)
          && (!next.isEmpty && next.contains '-' && next.contains '|')) = true := h
      simp only [Bool.and_eq_true] at h
      obtain ⟨⟨⟨hc, hp⟩, hs⟩, ⟨⟨he, hd⟩, hpi⟩⟩ := h
      exact ⟨hp, hs, hpi, hd⟩
    · rintro ⟨h1, h2, h3, h4⟩
      have hc := contains_pipe_of_trim_pfx line h1
      have hne : next.isEmpty = false := by
        cases next with
        | nil => simp at h3
        | cons c cs => rfl
      show (line.contains '|' && isPfx (strL "|") (jsTrim line)
          && isSfx (strL "|") (jsTrim line)
          && (!next.isEmpty && next.contains '-' && next.contains '|')) = true
      rw [hc, h1, h2, h3, h4, hne]
      rfl
  · intro line
    show (isRowLine line && false) = false
    exact Bool.and_false _
  · intro headerLine sepLine rest
    rfl
  · intro headerLine sepLine rest
    constructor
    · show (collectRows rest).1 = _
      rw [collectRows_eq]
    · show (collectRows rest).2 = _
      rw [collectRows_eq]
  · intro headerLine sepLine rest hLine hRest
    show extractTd (tableHtml (rowCells headerLine) (collectRows rest).1) = _
    refine extractTd_tableHtml (rowCells headerLine) (collectRows rest).1
      (rowCells_no_nl headerLine hLine) ?_
    intro r hr c hcr
    rw [collectRows_eq] at hr
    have hr2 := List.mem_of_mem_filter hr
    rcases List.mem_map.mp hr2 with ⟨l, hl, rfl⟩
    have hlrest : l ∈ rest := List.Sublist.mem hl (List.takeWhile_sublist _)
    exact rowCells_no_nl l (hRest l hlrest) c hcr

/-- Claim C5 witness: the spec's example table, parsed and re-extracted
through the algorithm characterised by the claim theorem. -/
theorem c5_table_parsing_witness :
    extractTd (parseTable (strL "| A | B |") (strL "|---|---|")
        [strL "| 1 | 2 |", strL "no more"]).html
      = [strL "1", strL "2"] := by
  have h := c5_table_parsing_algorithm.2.2.2.2.1 (strL "| A | B |") (strL "|---|---|")
    [strL "| 1 | 2 |", strL "no more"] (by decide) (by decide)
  exact h.trans (by decide)

/-- Claim C8 counterexample: the accepted table block with header `|A|`
and body row `|1|2|` loses the cell `2`: the row's cells past the single
header column are dropped by the transform, so re-extracting the `<td>`
texts does not recover the original cell texts. -/
theorem c8_counterexample_extra_cell_dropped :
    tableStartCheck (strL "|A|") (some (strL "|-|")) = true ∧
    (parseTable (strL "|A|") (strL "|-|") [strL "|1|2|"]).dataRows
      = [[strL "1", strL "2"]] ∧
    extractTd (parseTable (strL "|A|") (strL "|-|") [strL "|1|2|"]).html = [strL "1"] ∧
    (strL "2") ∉ (extractTd (parseTable (strL "|A|") (strL "|-|")
        [strL "|1|2|"]).html).map unescapeHtml := by
  decide

/-- Claim C8 (amended): for every generated table, re-extracting the
`<th>`/`<td>` texts recovers exactly the header cells and each body row's
cells truncated to the header column count, modulo HTML escaping — and
the escaping itself is lossless (injective, inverted by the decoder).
Cell data is preserved except for the truncation of body cells past the
header count. -/
theorem c8_table_roundtrip (headers : List (List Char)) (rows : List (List (List Char)))
    (hH : ∀ h ∈ headers, '\n' ∉ h) (hR : ∀ r ∈ rows, ∀ c ∈ r, '\n' ∉ c) :
    extractTh (tableHtml headers rows) = headers.map escapeHtml ∧
    extractTd (tableHtml headers rows)
      = concatAll (rows.map (fun r => (r.take headers.length).map escapeHtml)) ∧
    (extractTh (tableHtml headers rows)).map unescapeHtml = headers ∧
    (extractTd (tableHtml headers rows)).map unescapeHtml
      = concatAll (rows.map (fun r => r.take headers.length)) ∧
    (∀ a b : List Char, escapeHtml a = escapeHtml b → a = b) := by
  have h1 := extractTh_tableHtml headers rows hH hR
  have h2 := extractTd_tableHtml headers rows hH hR
  have hmapinv : ∀ l : List (List Char), (l.map escapeHtml).map unescapeHtml = l := by
    intro l
    rw [List.map_map]
    rw [show unescapeHtml ∘ escapeHtml = id from funext unescapeHtml_escapeHtml]
    exact List.map_id l
  refine ⟨h1, h2, ?_, ?_, escapeHtml_injective⟩
  · rw [h1]
    exact hmapinv headers
  · rw [h2, map_concatAll, List.map_map,
      show (List.map unescapeHtml ∘ fun r => List.map escapeHtml (List.take headers.length r))
          = fun r => List.take headers.length r
        from funext fun r => hmapinv (r.take headers.length)]

/-- Claim C8 witness: a concrete table whose cell `<b>` survives the
escape/decode round trip. -/
theorem c8_table_roundtrip_witness :
    (extractTd (tableHtml [strL "A", strL "B"] [[strL "<b>", strL "2"]])).map unescapeHtml
      = [strL "<b>", strL "2"] := by
  have h := (c8_table_roundtrip [strL "A", strL "B"] [[strL "<b>", strL "2"]]
    (by decide) (by decide)).2.2.2.1
  exact h.trans (by decide)

section MarkdownLemmas

theorem benign_not_mem (x : Char) (hx : benignChar x = false) (r : List Char)
    (hr : benignStr r = true) : x ∉ r := by
  intro hmem
  rw [benignStr, List.all_eq_true] at hr
  rw [hr x hmem] at hx
  cases hx

theorem isPfx_cons_ne (a : Char) (as : List Char) (c : Char) (cs : List Char)
    (h : a ≠ c) : isPfx (a :: as) (c :: cs) = false := by
  have hb : (a == c) = false := beq_eq_false_iff_ne.mpr h
  simp [isPfx, hb]

theorem isPfx_length_le (p s : List Char) (h : isPfx p s = true) : p.length ≤ s.length := by
  induction p generalizing s with
  | nil => simp
  | cons a as ih =>
    cases s with
    | nil => simp [isPfx] at h
    | cons b bs =>
      simp only [isPfx, Bool.and_eq_true] at h
      have := ih bs h.2
      simp only [List.length_cons]
      omega

theorem boldStep_nil : boldStep [] = [] := by
  simp [boldStep]

theorem boldStep_cons_no (c : Char) (cs : List Char)
    (h : isPfx (strL "**") (c :: cs) = false) :
    boldStep (c :: cs) = c :: boldStep cs := by
  simp only [boldStep]
  rw [if_neg (by simp [h])]

theorem boldStep_chunk (r s : List Char) (hr : '*' ∉ r) :
    boldStep (r ++ s) = r ++ boldStep s := by
  induction r with
  | nil => simp
  | cons c r ih =>
    have hc : '*' ≠ c := fun heq => hr (heq ▸ List.mem_cons_self _ _)
    rw [List.cons_append, boldStep_cons_no c _ (by
        rw [show strL "**" = '*' :: '*' :: [] from rfl]
        exact isPfx_cons_ne '*' _ c _ hc),
      ih (fun hm => hr (List.mem_cons_of_mem _ hm))]
    rfl

theorem boldStep_id (cs : List Char) (h : '*' ∉ cs) : boldStep cs = cs := by
  have h2 := boldStep_chunk cs [] h
  simpa [boldStep_nil] using h2

theorem findDelim2_append (r s : List Char) (h1 : '*' ∉ r) (h2 : '\n' ∉ r) :
    findDelim2 (r ++ '*' :: '*' :: s) = some r.length := by
  induction r with
  | nil => simp [findDelim2, isPfx]
  | cons c r ih =>
    have hs : '*' ≠ c := fun heq => h1 (heq ▸ List.mem_cons_self _ _)
    have hn : c ≠ '\n' := fun heq => h2 (heq ▸ List.mem_cons_self _ _)
    have hno : isPfx (strL "**") (c :: (r ++ '*' :: '*' :: s)) = false := by
      rw [show strL "**" = '*' :: '*' :: [] from rfl]
      exact isPfx_cons_ne '*' _ c _ hs
    rw [List.cons_append]
    simp only [findDelim2]
    rw [if_neg (by simp [hno]), if_neg hn,
      ih (fun hm => h1 (List.mem_cons_of_mem _ hm))
         (fun hm => h2 (List.mem_cons_of_mem _ hm))]
    simp

theorem drop_append_two (r s : List Char) (a b : Char) :
    (r ++ a :: b :: s).drop (r.length + 2) = s := by
  rw [show r ++ a :: b :: s = (r ++ [a, b]) ++ s by simp,
    show r.length + 2 = (r ++ [a, b]).length by simp]
  exact List.drop_left _ _

theorem boldStep_act (r s : List Char) (h1 : '*' ∉ r) (h2 : '\n' ∉ r) :
    boldStep ('*' :: '*' :: (r ++ '*' :: '*' :: s))
      = strL "<strong>" ++ r ++ (strL "</strong>" ++ boldStep s) := by
  simp only [boldStep]
  rw [if_pos (by rfl)]
  rw [show ('*' :: (r ++ '*' :: '*' :: s)).drop 1 = r ++ '*' :: '*' :: s from rfl]
  rw [findDelim2_append r s h1 h2]
  show strL "<strong>" ++ (r ++ '*' :: '*' :: s).take r.length ++ strL "</strong>"
      ++ boldStep ((r ++ '*' :: '*' :: s).drop (r.length + 2)) = _
  rw [List.take_left, drop_append_two]
  simp [List.append_assoc]

theorem italicStep_nil : italicStep [] = [] := by
  simp [italicStep]

theorem italicStep_cons_no (c : Char) (cs : List Char) (h : c ≠ '*') :
    italicStep (c :: cs) = c :: italicStep cs := by
  simp only [italicStep]
  rw [if_neg h]

theorem italicStep_chunk (r s : List Char) (hr : '*' ∉ r) :
    italicStep (r ++ s) = r ++ italicStep s := by
  induction r with
  | nil => simp
  | cons c r ih =>
    have hc : c ≠ '*' := fun heq => hr (heq ▸ List.mem_cons_self _ _)
    rw [List.cons_append, italicStep_cons_no c _ hc,
      ih (fun hm => hr (List.mem_cons_of_mem _ hm))]
    rfl

theorem italicStep_id (cs : List Char) (h : '*' ∉ cs) : italicStep cs = cs := by
  have h2 := italicStep_chunk cs [] h
  simpa [italicStep_nil] using h2

theorem findDelim1_append (r s : List Char) (h1 : '*' ∉ r) (h2 : '\n' ∉ r) :
    findDelim1 (r ++ '*' :: s) = some r.length := by
  induction r with
  | nil => simp [findDelim1]
  | cons c r ih =>
    have hs : c ≠ '*' := fun heq => h1 (heq ▸ List.mem_cons_self _ _)
    have hn : c ≠ '\n' := fun heq => h2 (heq ▸ List.mem_cons_self _ _)
    rw [List.cons_append]
    simp only [findDelim1]
    rw [if_neg hs, if_neg hn,
      ih (fun hm => h1 (List.mem_cons_of_mem _ hm))
         (fun hm => h2 (List.mem_cons_of_mem _ hm))]
    simp

theorem drop_append_one (r s : List Char) (a : Char) :
    (r ++ a :: s).drop (r.length + 1) = s := by
  rw [show r ++ a :: s = (r ++ [a]) ++ s by simp,
    show r.length + 1 = (r ++ [a]).length by simp]
  exact List.drop_left _ _

theorem italicStep_act (r s : List Char) (h1 : '*' ∉ r) (h2 : '\n' ∉ r) :
    italicStep ('*' :: (r ++ '*' :: s))
      = strL "<em>" ++ r ++ (strL "</em>" ++ italicStep s) := by
  simp only [italicStep]
  rw [if_pos trivial]
  rw [findDelim1_append r s h1 h2]
  show strL "<em>" ++ (r ++ '*' :: s).take r.length ++ strL "</em>"
      ++ italicStep ((r ++ '*' :: s).drop (r.length + 1)) = _
  rw [List.take_left, drop_append_one]
  simp [List.append_assoc]

theorem ulWrapGo_nil : ulWrapGo [] = [] := rfl

theorem ulWrapGo_cons_no (c : Char) (cs : List Char)
    (h : isPfx (strL "<li>") (c :: cs) = false) :
    ulWrapGo (c :: cs) = c :: ulWrapGo cs := by
  simp only [ulWrapGo]
  rw [if_neg (by simp [h])]

theorem ulWrapGo_chunk (r s : List Char) (hr : '<' ∉ r) :
    ulWrapGo (r ++ s) = r ++ ulWrapGo s := by
  induction r with
  | nil => simp
  | cons c r ih =>
    have hc : '<' ≠ c := fun heq => hr (heq ▸ List.mem_cons_self _ _)
    rw [List.cons_append, ulWrapGo_cons_no c _ (by
        rw [show strL "<li>" = '<' :: 'l' :: 'i' :: '>' :: [] from rfl]
        exact isPfx_cons_ne '<' _ c _ hc),
      ih (fun hm => hr (List.mem_cons_of_mem _ hm))]
    rfl

theorem ulWrapGo_id (cs : List Char) (h : '<' ∉ cs) : ulWrapGo cs = cs := by
  have h2 := ulWrapGo_chunk cs [] h
  simpa [ulWrapGo_nil] using h2

theorem lastIdxOf_none_short (pat cs : List Char) (h : cs.length < pat.length) :
    lastIdxOf pat cs = none := by
  induction cs with
  | nil => rfl
  | cons c cs ih =>
    simp only [lastIdxOf]
    rw [ih (by simp at h ⊢; omega)]
    rw [if_neg (fun hp => absurd (isPfx_length_le _ _ hp) (by simp at h ⊢; omega))]

theorem lastIdxOf_append_pat (u : List Char) (p0 : Char) (prest : List Char) :
    lastIdxOf (p0 :: prest) (u ++ p0 :: prest) = some u.length := by
  induction u with
  | nil =>
    rw [List.nil_append]
    simp only [lastIdxOf]
    rw [lastIdxOf_none_short _ _ (by simp)]
    show (if isPfx (p0 :: prest) (p0 :: prest) = true then some 0 else none)
      = some ([] : List Char).length
    rw [if_pos (by simpa using isPfx_append_self (p0 :: prest) [])]
    rfl
  | cons c u ih =>
    rw [List.cons_append]
    simp only [lastIdxOf]
    rw [ih]
    rfl

theorem ulWrapGo_act (cs : List Char) (q : Nat)
    (hp : isPfx (strL "<li>") ('<' :: cs) = true)
    (h : lastIdxOf (strL "</li>") (cs.drop 3) = some q) :
    ulWrapGo ('<' :: cs)
      = strL "<ul>" ++ ('<' :: cs).take (4 + q + 5) ++ strL "</ul>"
        ++ (cs.drop 3).drop (q + 5) := by
  simp only [ulWrapGo]
  rw [if_pos hp, h]

theorem replMulti_nil (pats : List (List Char × List Char)) : replMulti pats [] = [] := by
  simp [replMulti]

theorem replMulti_cons_no (pats : List (List Char × List Char)) (c : Char) (cs : List Char)
    (h : tryPats pats (c :: cs) = none) :
    replMulti pats (c :: cs) = c :: replMulti pats cs := by
  simp only [replMulti]
  rw [h]

theorem replMulti_cons_yes (pats : List (List Char × List Char)) (c : Char) (cs : List Char)
    (rep : List Char) (n : Nat) (h : tryPats pats (c :: cs) = some (rep, n)) :
    replMulti pats (c :: cs) = rep ++ replMulti pats (cs.drop (n - 1)) := by
  simp only [replMulti]
  rw [h]

theorem tryPats_none_heads (pats : List (List Char × List Char)) (c : Char) (cs : List Char)
    (h : ∀ p ∈ pats, ∃ d ds, p.1 = d :: ds ∧ d ≠ c) : tryPats pats (c :: cs) = none := by
  induction pats with
  | nil => rfl
  | cons p ps ih =>
    obtain ⟨d, ds, hpd, hdc⟩ := h p (List.mem_cons_self _ _)
    rcases p with ⟨p1, p2⟩
    simp only at hpd
    subst hpd
    simp only [tryPats]
    rw [if_neg (by simp [isPfx_cons_ne d _ c _ hdc])]
    exact ih (fun p hp => h p (List.mem_cons_of_mem _ hp))

theorem replMulti_chunk (pats : List (List Char × List Char)) (r s : List Char)
    (h : ∀ p ∈ pats, ∃ d ds, p.1 = d :: ds ∧ d ∉ r) :
    replMulti pats (r ++ s) = r ++ replMulti pats s := by
  induction r with
  | nil => simp
  | cons c r ih =>
    rw [List.cons_append,
      replMulti_cons_no _ _ _ (tryPats_none_heads _ _ _ (fun p hp => by
        obtain ⟨d, ds, hpd, hdm⟩ := h p hp
        exact ⟨d, ds, hpd, fun heq => hdm (heq ▸ List.mem_cons_self _ _)⟩)),
      ih (fun p hp => by
        obtain ⟨d, ds, hpd, hdm⟩ := h p hp
        exact ⟨d, ds, hpd, fun hm => hdm (List.mem_cons_of_mem _ hm)⟩)]
    rfl

theorem replMulti_id (pats : List (List Char × List Char)) (cs : List Char)
    (h : ∀ p ∈ pats, ∃ d ds, p.1 = d :: ds ∧ d ∉ cs) : replMulti pats cs = cs := by
  have h2 := replMulti_chunk pats cs [] h
  simpa [replMulti_nil] using h2

theorem perLine_single (f : List Char → List Char) (cs : List Char) (h : '\n' ∉ cs) :
    perLine f cs = f cs := by
  rw [perLine, splitLines_no_nl cs h]
  simp [joinNL]

theorem perLine_two (f : List Char → List Char) (a b : List Char)
    (ha : '\n' ∉ a) (hb : '\n' ∉ b) :
    perLine f (a ++ '\n' :: b) = f a ++ '\n' :: f b := by
  rw [perLine, splitLines_line_append a b ha, splitLines_no_nl b hb]
  simp [joinNL]

theorem perLine_three (f : List Char → List Char) (a b c : List Char)
    (ha : '\n' ∉ a) (hb : '\n' ∉ b) (hc : '\n' ∉ c) :
    perLine f (a ++ '\n' :: (b ++ '\n' :: c))
      = f a ++ '\n' :: (f b ++ '\n' :: f c) := by
  rw [perLine, splitLines_line_append a _ ha, splitLines_line_append b c hb,
    splitLines_no_nl c hc]
  simp [joinNL]

theorem ne_true_of_false {b : Bool} (h : b = false) : ¬(b = true) := by
  simp [h]

theorem not_mem_app {x : Char} {a b : List Char} (ha : x ∉ a) (hb : x ∉ b) :
    x ∉ a ++ b := by
  intro hm
  rcases List.mem_append.mp hm with h | h
  · exact ha h
  · exact hb h

theorem mdH1_yes (r : List Char) (hnl : '\n' ∉ strL "# " ++ r) :
    mdH1 (strL "# " ++ r) = strL "<h1>" ++ (r ++ strL "</h1>") := by
  unfold mdH1
  rw [perLine_single _ _ hnl]
  simp only [isPfx_append_self, if_pos]
  rw [show (strL "# " ++ r).drop 2 = r from List.drop_left (strL "# ") r]
  simp [List.append_assoc]

theorem mdH2_yes (r : List Char) (hnl : '\n' ∉ strL "## " ++ r) :
    mdH2 (strL "## " ++ r) = strL "<h2>" ++ (r ++ strL "</h2>") := by
  unfold mdH2
  rw [perLine_single _ _ hnl]
  simp only [isPfx_append_self, if_pos]
  rw [show (strL "## " ++ r).drop 3 = r from List.drop_left (strL "## ") r]
  simp [List.append_assoc]

theorem mdH3_yes (r : List Char) (hnl : '\n' ∉ strL "### " ++ r) :
    mdH3 (strL "### " ++ r) = strL "<h3>" ++ (r ++ strL "</h3>") := by
  unfold mdH3
  rw [perLine_single _ _ hnl]
  simp only [isPfx_append_self, if_pos]
  rw [show (strL "### " ++ r).drop 4 = r from List.drop_left (strL "### ") r]
  simp [List.append_assoc]

theorem mdH4_yes (r : List Char) (hnl : '\n' ∉ strL "#### " ++ r) :
    mdH4 (strL "#### " ++ r) = strL "<h4>" ++ (r ++ strL "</h4>") := by
  unfold mdH4
  rw [perLine_single _ _ hnl]
  simp only [isPfx_append_self, if_pos]
  rw [show (strL "#### " ++ r).drop 5 = r from List.drop_left (strL "#### ") r]
  simp [List.append_assoc]

theorem mdH1_no (w : List Char) (hnl : '\n' ∉ w) (hno : isPfx (strL "# ") w = false) :
    mdH1 w = w := by
  unfold mdH1
  rw [perLine_single _ _ hnl]
  simp [hno]

theorem mdH2_no (w : List Char) (hnl : '\n' ∉ w) (hno : isPfx (strL "## ") w = false) :
    mdH2 w = w := by
  unfold mdH2
  rw [perLine_single _ _ hnl]
  simp [hno]

theorem mdH3_no (w : List Char) (hnl : '\n' ∉ w) (hno : isPfx (strL "### ") w = false) :
    mdH3 w = w := by
  unfold mdH3
  rw [perLine_single _ _ hnl]
  simp [hno]

theorem mdH4_no (w : List Char) (hnl : '\n' ∉ w) (hno : isPfx (strL "#### ") w = false) :
    mdH4 w = w := by
  unfold mdH4
  rw [perLine_single _ _ hnl]
  simp [hno]

theorem mdLi_no (w : List Char) (hnl : '\n' ∉ w) (hno : isPfx (strL "- ") w = false) :
    mdLi w = w := by
  unfold mdLi
  rw [perLine_single _ _ hnl]
  simp [hno]

theorem mdPara_single (w : List Char) (hnl : '\n' ∉ w) :
    mdPara w = strL "<p>" ++ (w ++ strL "</p>") := by
  unfold mdPara
  rw [perLine_single _ _ hnl]
  simp [List.append_assoc]

theorem heads_aux (pats : List (List Char × List Char)) (d : Char) (w : List Char)
    (h : ∀ p ∈ pats, ∃ ds, p.1 = d :: ds) (hw : d ∉ w) :
    ∀ p ∈ pats, ∃ e ds, p.1 = e :: ds ∧ e ∉ w := fun p hp => by
  obtain ⟨ds, hds⟩ := h p hp
  exact ⟨d, ds, hds, hw⟩

theorem replMulti_walk1 (pats : List (List Char × List Char)) (a r tail tail2 : List Char)
    (h1 : tryPats pats ('<' :: (a ++ (r ++ tail))) = none)
    (ha : '<' ∉ a) (hr : '<' ∉ r)
    (hheads : ∀ p ∈ pats, ∃ ds, p.1 = '<' :: ds)
    (htail : replMulti pats tail = tail2) :
    replMulti pats ('<' :: (a ++ (r ++ tail))) = '<' :: (a ++ (r ++ tail2)) := by
  rw [replMulti_cons_no pats '<' _ h1]
  rw [show a ++ (r ++ tail) = (a ++ r) ++ tail from (List.append_assoc _ _ _).symm]
  rw [replMulti_chunk pats _ _ (heads_aux _ '<' _ hheads (not_mem_app ha hr))]
  rw [htail]
  simp [List.append_assoc]

theorem replMulti_walk2 (pats : List (List Char × List Char)) (a b r tail tail2 : List Char)
    (h1 : tryPats pats ('<' :: (a ++ ('<' :: (b ++ (r ++ tail))))) = none)
    (h2 : tryPats pats ('<' :: (b ++ (r ++ tail))) = none)
    (ha : '<' ∉ a) (hb : '<' ∉ b) (hr : '<' ∉ r)
    (hheads : ∀ p ∈ pats, ∃ ds, p.1 = '<' :: ds)
    (htail : replMulti pats tail = tail2) :
    replMulti pats ('<' :: (a ++ ('<' :: (b ++ (r ++ tail)))))
      = '<' :: (a ++ ('<' :: (b ++ (r ++ tail2)))) := by
  rw [replMulti_cons_no pats '<' _ h1]
  rw [replMulti_chunk pats a _ (heads_aux _ '<' _ hheads ha)]
  rw [replMulti_cons_no pats '<' _ h2]
  rw [show b ++ (r ++ tail) = (b ++ r) ++ tail from (List.append_assoc _ _ _).symm]
  rw [replMulti_chunk pats _ _ (heads_aux _ '<' _ hheads (not_mem_app hb hr))]
  rw [htail]
  simp [List.append_assoc]

theorem replMulti_segs (pats : List (List Char × List Char)) (d : Char)
    (hheads : ∀ p ∈ pats, ∃ ds, p.1 = d :: ds) :
    ∀ (ss : List (List Char)) (s0 : List Char), d ∉ s0 → (∀ s ∈ ss, d ∉ s) →
      (∀ t ∈ segsSufs d s0 ss, tryPats pats t = none) →
      replMulti pats (segsJoin d s0 ss) = segsJoin d s0 ss := by
  intro ss
  induction ss with
  | nil =>
    intro s0 h0 _ _
    exact replMulti_id pats s0 (heads_aux pats d s0 hheads h0)
  | cons s ss ih =>
    intro s0 h0 hss hnone
    show replMulti pats (s0 ++ d :: segsJoin d s ss) = s0 ++ d :: segsJoin d s ss
    rw [replMulti_chunk pats s0 _ (heads_aux pats d s0 hheads h0)]
    rw [replMulti_cons_no pats d _ (hnone _ (by simp [segsSufs]))]
    rw [ih s (hss s (List.mem_cons_self _ _))
      (fun t ht => hss t (List.mem_cons_of_mem _ ht))
      (fun t ht => hnone t (by simp [segsSufs]; right; exact ht))]

theorem replMulti_segsT (pats : List (List Char × List Char)) (d : Char)
    (tail tail2 : List Char)
    (hheads : ∀ p ∈ pats, ∃ ds, p.1 = d :: ds)
    (htail : replMulti pats tail = tail2) :
    ∀ (ss : List (List Char)) (s0 : List Char), d ∉ s0 → (∀ s ∈ ss, d ∉ s) →
      (∀ t ∈ segsSufsT d tail s0 ss, tryPats pats t = none) →
      replMulti pats (segsJoinT d tail s0 ss) = segsJoinT d tail2 s0 ss := by
  intro ss
  induction ss with
  | nil =>
    intro s0 h0 _ _
    show replMulti pats (s0 ++ tail) = s0 ++ tail2
    rw [replMulti_chunk pats s0 tail (heads_aux pats d s0 hheads h0), htail]
  | cons s ss ih =>
    intro s0 h0 hss hnone
    show replMulti pats (s0 ++ d :: segsJoinT d tail s ss)
      = s0 ++ d :: segsJoinT d tail2 s ss
    rw [replMulti_chunk pats s0 _ (heads_aux pats d s0 hheads h0)]
    rw [replMulti_cons_no pats d _ (hnone _ (by simp [segsSufsT]))]
    rw [ih s (hss s (List.mem_cons_self _ _))
      (fun t ht => hss t (List.mem_cons_of_mem _ ht))
      (fun t ht => hnone t (by simp [segsSufsT]; right; exact ht))]

theorem not_mem_cons_of_ne {c d : Char} {X : List Char} (h1 : c ≠ d) (h2 : c ∉ X) :
    c ∉ d :: X := by
  intro h
  rcases List.mem_cons.mp h with he | hm
  · exact h1 he
  · exact h2 hm

theorem perLine_if_id_two (q : List Char → Bool) (g : List Char → List Char)
    (la lb : List Char) (ha : '\n' ∉ la) (hb : '\n' ∉ lb)
    (hqa : q la = false) (hqb : q lb = false) :
    perLine (fun l => if q l then g l else l) (la ++ '\n' :: lb) = la ++ '\n' :: lb := by
  rw [perLine_two _ _ _ ha hb]
  rw [if_neg (ne_true_of_false hqa), if_neg (ne_true_of_false hqb)]

theorem perLine_if_id_three (q : List Char → Bool) (g : List Char → List Char)
    (la lb lc : List Char) (ha : '\n' ∉ la) (hb : '\n' ∉ lb) (hc : '\n' ∉ lc)
    (hqa : q la = false) (hqb : q lb = false) (hqc : q lc = false) :
    perLine (fun l => if q l then g l else l) (la ++ '\n' :: (lb ++ '\n' :: lc))
      = la ++ '\n' :: (lb ++ '\n' :: lc) := by
  rw [perLine_three _ _ _ _ ha hb hc]
  rw [if_neg (ne_true_of_false hqa), if_neg (ne_true_of_false hqb),
    if_neg (ne_true_of_false hqc)]

theorem tryPats_none_all (pats : List (List Char × List Char)) (cs : List Char)
    (h : ∀ p ∈ pats, isPfx p.1 cs = false) : tryPats pats cs = none := by
  induction pats with
  | nil => rfl
  | cons pr rest ih =>
    obtain ⟨p, r⟩ := pr
    show (if isPfx p cs then some (r, p.length) else tryPats rest cs) = none
    rw [if_neg (ne_true_of_false (h (p, r) (List.mem_cons_self _ _)))]
    exact ih (fun q hq => h q (List.mem_cons_of_mem _ hq))

theorem benign_head_ne (c : Char) (hc : benignChar c = false) (d : Char)
    (hd : benignChar d = true) : c ≠ d := by
  intro h
  rw [h, hd] at hc
  cases hc

theorem isPfx_p_lt_x (t : List Char) (xh : Char) (Z : List Char) (h : '<' ≠ xh) :
    isPfx ('<' :: 'p' :: '>' :: '<' :: t) ('<' :: ('p' :: '>' :: (xh :: Z))) = false := by
  show (('<' == '<') && (('p' == 'p') && (('>' == '>') && isPfx ('<' :: t) (xh :: Z)))) = false
  rw [isPfx_cons_ne '<' t xh Z h]
  simp

theorem isPfx_two_head_ne (d : Char) (xh : Char) (Z : List Char) (h : d ≠ xh) :
    isPfx (d :: d :: []) (d :: (xh :: Z)) = false := by
  show ((d == d) && isPfx (d :: []) (xh :: Z)) = false
  rw [isPfx_cons_ne d [] xh Z h]
  simp

theorem fmtSubst_heading1 (r : List Char) (hr : benignStr r = true) :
    formatMarkdownSubst (strL "# " ++ r) = strL "<h1>" ++ (r ++ strL "</h1>") := by
  have hnl : '\n' ∉ r := benign_not_mem '\n' (by decide) r hr
  have hst : '*' ∉ r := benign_not_mem '*' (by decide) r hr
  have hlt : '<' ∉ r := benign_not_mem '<' (by decide) r hr
  have hin : '\n' ∉ strL "# " ++ r := not_mem_app (by decide) hnl
  have hwnl : '\n' ∉ strL "<h1>" ++ (r ++ strL "</h1>") :=
    not_mem_app (by decide) (not_mem_app hnl (by decide))
  have hwst : '*' ∉ strL "<h1>" ++ (r ++ strL "</h1>") :=
    not_mem_app (by decide) (not_mem_app hst (by decide))
  have s1 := mdH1_yes r hin
  have s2 := mdH2_no _ hwnl rfl
  have s3 := mdH3_no _ hwnl rfl
  have s4 := mdH4_no _ hwnl rfl
  have s5 := boldStep_id _ hwst
  have s6 := italicStep_id _ hwst
  have s7 := mdLi_no _ hwnl rfl
  have s8 : ulWrapGo (strL "<h1>" ++ (r ++ strL "</h1>"))
      = strL "<h1>" ++ (r ++ strL "</h1>") := by
    rw [show strL "<h1>" ++ (r ++ strL "</h1>")
          = '<' :: (strL "h1>" ++ (r ++ strL "</h1>")) from rfl]
    rw [ulWrapGo_cons_no '<' (strL "h1>" ++ (r ++ strL "</h1>")) rfl]
    rw [show strL "h1>" ++ (r ++ strL "</h1>")
          = (strL "h1>" ++ r) ++ strL "</h1>" from (List.append_assoc _ _ _).symm]
    rw [ulWrapGo_chunk _ _ (not_mem_app (by decide) hlt)]
    rw [show ulWrapGo (strL "</h1>") = strL "</h1>" from by decide]
  have s9 := replMulti_id [(strL "\n\n", strL "</p><p>")]
    (strL "<h1>" ++ (r ++ strL "</h1>"))
    (fun p hp => by
      simp at hp
      subst hp
      exact ⟨'\n', strL "\n", rfl, hwnl⟩)
  have s10 := mdPara_single _ hwnl
  have hw2 : strL "<p>" ++ ((strL "<h1>" ++ (r ++ strL "</h1>")) ++ strL "</p>")
      = '<' :: (strL "p>" ++ ('<' :: (strL "h1>" ++ (r ++ strL "</h1></p>")))) := by
    simp only [List.append_assoc]
    rfl
  have h11heads : ∀ p ∈ [(strL "<p></p>", ([] : List Char))], ∃ ds, p.1 = '<' :: ds := by
    intro p hp
    simp at hp
    subst hp
    exact ⟨_, rfl⟩
  have h12heads : ∀ p ∈
      [(strL "<p><h1>", strL "<h1>"), (strL "<p><h2>", strL "<h2>"),
       (strL "<p><h3>", strL "<h3>"), (strL "<p><h4>", strL "<h4>"),
       (strL "<p><h5>", strL "<h5>"), (strL "<p><h6>", strL "<h6>")],
      ∃ ds, p.1 = '<' :: ds := by
    intro p hp
    simp at hp
    rcases hp with rfl | rfl | rfl | rfl | rfl | rfl <;> exact ⟨_, rfl⟩
  have h13heads : ∀ p ∈
      [(strL "</h1></p>", strL "</h1>"), (strL "</h2></p>", strL "</h2>"),
       (strL "</h3></p>", strL "</h3>"), (strL "</h4></p>", strL "</h4>"),
       (strL "</h5></p>", strL "</h5>"), (strL "</h6></p>", strL "</h6>")],
      ∃ ds, p.1 = '<' :: ds := by
    intro p hp
    simp at hp
    rcases hp with rfl | rfl | rfl | rfl | rfl | rfl <;> exact ⟨_, rfl⟩
  have s11 := replMulti_walk2 [(strL "<p></p>", ([] : List Char))]
    (strL "p>") (strL "h1>") r (strL "</h1></p>") (strL "</h1></p>")
    rfl rfl (by decide) (by decide) hlt h11heads
    (by simp [replMulti, tryPats, isPfx, strL])
  have s12 : replMulti
      [(strL "<p><h1>", strL "<h1>"), (strL "<p><h2>", strL "<h2>"),
       (strL "<p><h3>", strL "<h3>"), (strL "<p><h4>", strL "<h4>"),
       (strL "<p><h5>", strL "<h5>"), (strL "<p><h6>", strL "<h6>")]
      ('<' :: (strL "p>" ++ ('<' :: (strL "h1>" ++ (r ++ strL "</h1></p>")))))
      = strL "<h1>" ++ (r ++ strL "</h1></p>") := by
    rw [replMulti_cons_yes
      [(strL "<p><h1>", strL "<h1>"), (strL "<p><h2>", strL "<h2>"),
       (strL "<p><h3>", strL "<h3>"), (strL "<p><h4>", strL "<h4>"),
       (strL "<p><h5>", strL "<h5>"), (strL "<p><h6>", strL "<h6>")] '<'
      (strL "p>" ++ ('<' :: (strL "h1>" ++ (r ++ strL "</h1></p>")))) (strL "<h1>") 7 rfl]
    rw [show (strL "p>" ++ ('<' :: (strL "h1>" ++ (r ++ strL "</h1></p>")))).drop (7 - 1)
          = r ++ strL "</h1></p>" from rfl]
    rw [replMulti_chunk _ r _ (heads_aux _ '<' _ h12heads hlt)]
    rw [show replMulti
        [(strL "<p><h1>", strL "<h1>"), (strL "<p><h2>", strL "<h2>"),
         (strL "<p><h3>", strL "<h3>"), (strL "<p><h4>", strL "<h4>"),
         (strL "<p><h5>", strL "<h5>"), (strL "<p><h6>", strL "<h6>")]
        (strL "</h1></p>") = strL "</h1></p>"
      from by simp [replMulti, tryPats, isPfx, strL]]
  have hw3 : strL "<h1>" ++ (r ++ strL "</h1></p>")
      = '<' :: (strL "h1>" ++ (r ++ strL "</h1></p>")) := rfl
  have s13 := replMulti_walk1
    [(strL "</h1></p>", strL "</h1>"), (strL "</h2></p>", strL "</h2>"),
     (strL "</h3></p>", strL "</h3>"), (strL "</h4></p>", strL "</h4>"),
     (strL "</h5></p>", strL "</h5>"), (strL "</h6></p>", strL "</h6>")]
    (strL "h1>") r (strL "</h1></p>") (strL "</h1>")
    rfl (by decide) hlt h13heads
    (by simp [replMulti, tryPats, isPfx, strL])
  have s14 := replMulti_walk1 [(strL "<p><ul>", strL "<ul>")]
    (strL "h1>") r (strL "</h1>") (strL "</h1>")
    rfl (by decide) hlt
    (by intro p hp; simp at hp; subst hp; exact ⟨_, rfl⟩)
    (by simp [replMulti, tryPats, isPfx, strL])
  have s15 := replMulti_walk1 [(strL "</ul></p>", strL "</ul>")]
    (strL "h1>") r (strL "</h1>") (strL "</h1>")
    rfl (by decide) hlt
    (by intro p hp; simp at hp; subst hp; exact ⟨_, rfl⟩)
    (by simp [replMulti, tryPats, isPfx, strL])
  have s16 := replMulti_walk1 [(strL "<p><table", strL "<table")]
    (strL "h1>") r (strL "</h1>") (strL "</h1>")
    rfl (by decide) hlt
    (by intro p hp; simp at hp; subst hp; exact ⟨_, rfl⟩)
    (by simp [replMulti, tryPats, isPfx, strL])
  have s17 := replMulti_walk1 [(strL "</table></p>", strL "</table>")]
    (strL "h1>") r (strL "</h1>") (strL "</h1>")
    rfl (by decide) hlt
    (by intro p hp; simp at hp; subst hp; exact ⟨_, rfl⟩)
    (by simp [replMulti, tryPats, isPfx, strL])
  simp only [formatMarkdownSubst]
  rw [s1, s2, s3, s4, s5, s6, s7, s8, s9, s10, hw2, s11, s12, hw3, s13]
  rw [s14, s15, s16, s17]
  rfl

theorem fmtSubst_heading2 (r : List Char) (hr : benignStr r = true) :
    formatMarkdownSubst (strL "## " ++ r) = strL "<h2>" ++ (r ++ strL "</h2>") := by
  have hnl : '\n' ∉ r := benign_not_mem '\n' (by decide) r hr
  have hst : '*' ∉ r := benign_not_mem '*' (by decide) r hr
  have hlt : '<' ∉ r := benign_not_mem '<' (by decide) r hr
  have hin : '\n' ∉ strL "## " ++ r := not_mem_app (by decide) hnl
  have hwnl : '\n' ∉ strL "<h2>" ++ (r ++ strL "</h2>") :=
    not_mem_app (by decide) (not_mem_app hnl (by decide))
  have hwst : '*' ∉ strL "<h2>" ++ (r ++ strL "</h2>") :=
    not_mem_app (by decide) (not_mem_app hst (by decide))
  have n1 := mdH1_no _ hin rfl
  have s1 := mdH2_yes r hin
  have s3 := mdH3_no _ hwnl rfl
  have s4 := mdH4_no _ hwnl rfl
  have s5 := boldStep_id _ hwst
  have s6 := italicStep_id _ hwst
  have s7 := mdLi_no _ hwnl rfl
  have s8 : ulWrapGo (strL "<h2>" ++ (r ++ strL "</h2>"))
      = strL "<h2>" ++ (r ++ strL "</h2>") := by
    rw [show strL "<h2>" ++ (r ++ strL "</h2>")
          = '<' :: (strL "h2>" ++ (r ++ strL "</h2>")) from rfl]
    rw [ulWrapGo_cons_no '<' (strL "h2>" ++ (r ++ strL "</h2>")) rfl]
    rw [show strL "h2>" ++ (r ++ strL "</h2>")
          = (strL "h2>" ++ r) ++ strL "</h2>" from (List.append_assoc _ _ _).symm]
    rw [ulWrapGo_chunk _ _ (not_mem_app (by decide) hlt)]
    rw [show ulWrapGo (strL "</h2>") = strL "</h2>" from by decide]
  have s9 := replMulti_id [(strL "\n\n", strL "</p><p>")]
    (strL "<h2>" ++ (r ++ strL "</h2>"))
    (fun p hp => by
      simp at hp
      subst hp
      exact ⟨'\n', strL "\n", rfl, hwnl⟩)
  have s10 := mdPara_single _ hwnl
  have hw2 : strL "<p>" ++ ((strL "<h2>" ++ (r ++ strL "</h2>")) ++ strL "</p>")
      = '<' :: (strL "p>" ++ ('<' :: (strL "h2>" ++ (r ++ strL "</h2></p>")))) := by
    simp only [List.append_assoc]
    rfl
  have h11heads : ∀ p ∈ [(strL "<p></p>", ([] : List Char))], ∃ ds, p.1 = '<' :: ds := by
    intro p hp
    simp at hp
    subst hp
    exact ⟨_, rfl⟩
  have h12heads : ∀ p ∈
      [(strL "<p><h1>", strL "<h1>"), (strL "<p><h2>", strL "<h2>"),
       (strL "<p><h3>", strL "<h3>"), (strL "<p><h4>", strL "<h4>"),
       (strL "<p><h5>", strL "<h5>"), (strL "<p><h6>", strL "<h6>")],
      ∃ ds, p.1 = '<' :: ds := by
    intro p hp
    simp at hp
    rcases hp with rfl | rfl | rfl | rfl | rfl | rfl <;> exact ⟨_, rfl⟩
  have h13heads : ∀ p ∈
      [(strL "</h1></p>", strL "</h1>"), (strL "</h2></p>", strL "</h2>"),
       (strL "</h3></p>", strL "</h3>"), (strL "</h4></p>", strL "</h4>"),
       (strL "</h5></p>", strL "</h5>"), (strL "</h6></p>", strL "</h6>")],
      ∃ ds, p.1 = '<' :: ds := by
    intro p hp
    simp at hp
    rcases hp with rfl | rfl | rfl | rfl | rfl | rfl <;> exact ⟨_, rfl⟩
  have s11 := replMulti_walk2 [(strL "<p></p>", ([] : List Char))]
    (strL "p>") (strL "h2>") r (strL "</h2></p>") (strL "</h2></p>")
    rfl rfl (by decide) (by decide) hlt h11heads
    (by simp [replMulti, tryPats, isPfx, strL])
  have s12 : replMulti
      [(strL "<p><h1>", strL "<h1>"), (strL "<p><h2>", strL "<h2>"),
       (strL "<p><h3>", strL "<h3>"), (strL "<p><h4>", strL "<h4>"),
       (strL "<p><h5>", strL "<h5>"), (strL "<p><h6>", strL "<h6>")]
      ('<' :: (strL "p>" ++ ('<' :: (strL "h2>" ++ (r ++ strL "</h2></p>")))))
      = strL "<h2>" ++ (r ++ strL "</h2></p>") := by
    rw [replMulti_cons_yes
      [(strL "<p><h1>", strL "<h1>"), (strL "<p><h2>", strL "<h2>"),
       (strL "<p><h3>", strL "<h3>"), (strL "<p><h4>", strL "<h4>"),
       (strL "<p><h5>", strL "<h5>"), (strL "<p><h6>", strL "<h6>")] '<'
      (strL "p>" ++ ('<' :: (strL "h2>" ++ (r ++ strL "</h2></p>")))) (strL "<h2>") 7 rfl]
    rw [show (strL "p>" ++ ('<' :: (strL "h2>" ++ (r ++ strL "</h2></p>")))).drop (7 - 1)
          = r ++ strL "</h2></p>" from rfl]
    rw [replMulti_chunk _ r _ (heads_aux _ '<' _ h12heads hlt)]
    rw [show replMulti
        [(strL "<p><h1>", strL "<h1>"), (strL "<p><h2>", strL "<h2>"),
         (strL "<p><h3>", strL "<h3>"), (strL "<p><h4>", strL "<h4>"),
         (strL "<p><h5>", strL "<h5>"), (strL "<p><h6>", strL "<h6>")]
        (strL "</h2></p>") = strL "</h2></p>"
      from by simp [replMulti, tryPats, isPfx, strL]]
  have hw3 : strL "<h2>" ++ (r ++ strL "</h2></p>")
      = '<' :: (strL "h2>" ++ (r ++ strL "</h2></p>")) := rfl
  have s13 := replMulti_walk1
    [(strL "</h1></p>", strL "</h1>"), (strL "</h2></p>", strL "</h2>"),
     (strL "</h3></p>", strL "</h3>"), (strL "</h4></p>", strL "</h4>"),
     (strL "</h5></p>", strL "</h5>"), (strL "</h6></p>", strL "</h6>")]
    (strL "h2>") r (strL "</h2></p>") (strL "</h2>")
    rfl (by decide) hlt h13heads
    (by simp [replMulti, tryPats, isPfx, strL])
  have s14 := replMulti_walk1 [(strL "<p><ul>", strL "<ul>")]
    (strL "h2>") r (strL "</h2>") (strL "</h2>")
    rfl (by decide) hlt
    (by intro p hp; simp at hp; subst hp; exact ⟨_, rfl⟩)
    (by simp [replMulti, tryPats, isPfx, strL])
  have s15 := replMulti_walk1 [(strL "</ul></p>", strL "</ul>")]
    (strL "h2>") r (strL "</h2>") (strL "</h2>")
    rfl (by decide) hlt
    (by intro p hp; simp at hp; subst hp; exact ⟨_, rfl⟩)
    (by simp [replMulti, tryPats, isPfx, strL])
  have s16 := replMulti_walk1 [(strL "<p><table", strL "<table")]
    (strL "h2>") r (strL "</h2>") (strL "</h2>")
    rfl (by decide) hlt
    (by intro p hp; simp at hp; subst hp; exact ⟨_, rfl⟩)
    (by simp [replMulti, tryPats, isPfx, strL])
  have s17 := replMulti_walk1 [(strL "</table></p>", strL "</table>")]
    (strL "h2>") r (strL "</h2>") (strL "</h2>")
    rfl (by decide) hlt
    (by intro p hp; simp at hp; subst hp; exact ⟨_, rfl⟩)
    (by simp [replMulti, tryPats, isPfx, strL])
  simp only [formatMarkdownSubst]
  rw [n1, s1, s3, s4, s5, s6, s7, s8, s9, s10, hw2, s11, s12, hw3, s13]
  rw [s14, s15, s16, s17]
  rfl

theorem fmtSubst_heading3 (r : List Char) (hr : benignStr r = true) :
    formatMarkdownSubst (strL "### " ++ r) = strL "<h3>" ++ (r ++ strL "</h3>") := by
  have hnl : '\n' ∉ r := benign_not_mem '\n' (by decide) r hr
  have hst : '*' ∉ r := benign_not_mem '*' (by decide) r hr
  have hlt : '<' ∉ r := benign_not_mem '<' (by decide) r hr
  have hin : '\n' ∉ strL "### " ++ r := not_mem_app (by decide) hnl
  have hwnl : '\n' ∉ strL "<h3>" ++ (r ++ strL "</h3>") :=
    not_mem_app (by decide) (not_mem_app hnl (by decide))
  have hwst : '*' ∉ strL "<h3>" ++ (r ++ strL "</h3>") :=
    not_mem_app (by decide) (not_mem_app hst (by decide))
  have n1 := mdH1_no _ hin rfl
  have n2 := mdH2_no _ hin rfl
  have s1 := mdH3_yes r hin
  have s4 := mdH4_no _ hwnl rfl
  have s5 := boldStep_id _ hwst
  have s6 := italicStep_id _ hwst
  have s7 := mdLi_no _ hwnl rfl
  have s8 : ulWrapGo (strL "<h3>" ++ (r ++ strL "</h3>"))
      = strL "<h3>" ++ (r ++ strL "</h3>") := by
    rw [show strL "<h3>" ++ (r ++ strL "</h3>")
          = '<' :: (strL "h3>" ++ (r ++ strL "</h3>")) from rfl]
    rw [ulWrapGo_cons_no '<' (strL "h3>" ++ (r ++ strL "</h3>")) rfl]
    rw [show strL "h3>" ++ (r ++ strL "</h3>")
          = (strL "h3>" ++ r) ++ strL "</h3>" from (List.append_assoc _ _ _).symm]
    rw [ulWrapGo_chunk _ _ (not_mem_app (by decide) hlt)]
    rw [show ulWrapGo (strL "</h3>") = strL "</h3>" from by decide]
  have s9 := replMulti_id [(strL "\n\n", strL "</p><p>")]
    (strL "<h3>" ++ (r ++ strL "</h3>"))
    (fun p hp => by
      simp at hp
      subst hp
      exact ⟨'\n', strL "\n", rfl, hwnl⟩)
  have s10 := mdPara_single _ hwnl
  have hw2 : strL "<p>" ++ ((strL "<h3>" ++ (r ++ strL "</h3>")) ++ strL "</p>")
      = '<' :: (strL "p>" ++ ('<' :: (strL "h3>" ++ (r ++ strL "</h3></p>")))) := by
    simp only [List.append_assoc]
    rfl
  have h11heads : ∀ p ∈ [(strL "<p></p>", ([] : List Char))], ∃ ds, p.1 = '<' :: ds := by
    intro p hp
    simp at hp
    subst hp
    exact ⟨_, rfl⟩
  have h12heads : ∀ p ∈
      [(strL "<p><h1>", strL "<h1>"), (strL "<p><h2>", strL "<h2>"),
       (strL "<p><h3>", strL "<h3>"), (strL "<p><h4>", strL "<h4>"),
       (strL "<p><h5>", strL "<h5>"), (strL "<p><h6>", strL "<h6>")],
      ∃ ds, p.1 = '<' :: ds := by
    intro p hp
    simp at hp
    rcases hp with rfl | rfl | rfl | rfl | rfl | rfl <;> exact ⟨_, rfl⟩
  have h13heads : ∀ p ∈
      [(strL "</h1></p>", strL "</h1>"), (strL "</h2></p>", strL "</h2>"),
       (strL "</h3></p>", strL "</h3>"), (strL "</h4></p>", strL "</h4>"),
       (strL "</h5></p>", strL "</h5>"), (strL "</h6></p>", strL "</h6>")],
      ∃ ds, p.1 = '<' :: ds := by
    intro p hp
    simp at hp
    rcases hp with rfl | rfl | rfl | rfl | rfl | rfl <;> exact ⟨_, rfl⟩
  have s11 := replMulti_walk2 [(strL "<p></p>", ([] : List Char))]
    (strL "p>") (strL "h3>") r (strL "</h3></p>") (strL "</h3></p>")
    rfl rfl (by decide) (by decide) hlt h11heads
    (by simp [replMulti, tryPats, isPfx, strL])
  have s12 : replMulti
      [(strL "<p><h1>", strL "<h1>"), (strL "<p><h2>", strL "<h2>"),
       (strL "<p><h3>", strL "<h3>"), (strL "<p><h4>", strL "<h4>"),
       (strL "<p><h5>", strL "<h5>"), (strL "<p><h6>", strL "<h6>")]
      ('<' :: (strL "p>" ++ ('<' :: (strL "h3>" ++ (r ++ strL "</h3></p>")))))
      = strL "<h3>" ++ (r ++ strL "</h3></p>") := by
    rw [replMulti_cons_yes
      [(strL "<p><h1>", strL "<h1>"), (strL "<p><h2>", strL "<h2>"),
       (strL "<p><h3>", strL "<h3>"), (strL "<p><h4>", strL "<h4>"),
       (strL "<p><h5>", strL "<h5>"), (strL "<p><h6>", strL "<h6>")] '<'
      (strL "p>" ++ ('<' :: (strL "h3>" ++ (r ++ strL "</h3></p>")))) (strL "<h3>") 7 rfl]
    rw [show (strL "p>" ++ ('<' :: (strL "h3>" ++ (r ++ strL "</h3></p>")))).drop (7 - 1)
          = r ++ strL "</h3></p>" from rfl]
    rw [replMulti_chunk _ r _ (heads_aux _ '<' _ h12heads hlt)]
    rw [show replMulti
        [(strL "<p><h1>", strL "<h1>"), (strL "<p><h2>", strL "<h2>"),
         (strL "<p><h3>", strL "<h3>"), (strL "<p><h4>", strL "<h4>"),
         (strL "<p><h5>", strL "<h5>"), (strL "<p><h6>", strL "<h6>")]
        (strL "</h3></p>") = strL "</h3></p>"
      from by simp [replMulti, tryPats, isPfx, strL]]
  have hw3 : strL "<h3>" ++ (r ++ strL "</h3></p>")
      = '<' :: (strL "h3>" ++ (r ++ strL "</h3></p>")) := rfl
  have s13 := replMulti_walk1
    [(strL "</h1></p>", strL "</h1>"), (strL "</h2></p>", strL "</h2>"),
     (strL "</h3></p>", strL "</h3>"), (strL "</h4></p>", strL "</h4>"),
     (strL "</h5></p>", strL "</h5>"), (strL "</h6></p>", strL "</h6>")]
    (strL "h3>") r (strL "</h3></p>") (strL "</h3>")
    rfl (by decide) hlt h13heads
    (by simp [replMulti, tryPats, isPfx, strL])
  have s14 := replMulti_walk1 [(strL "<p><ul>", strL "<ul>")]
    (strL "h3>") r (strL "</h3>") (strL "</h3>")
    rfl (by decide) hlt
    (by intro p hp; simp at hp; subst hp; exact ⟨_, rfl⟩)
    (by simp [replMulti, tryPats, isPfx, strL])
  have s15 := replMulti_walk1 [(strL "</ul></p>", strL "</ul>")]
    (strL "h3>") r (strL "</h3>") (strL "</h3>")
    rfl (by decide) hlt
    (by intro p hp; simp at hp; subst hp; exact ⟨_, rfl⟩)
    (by simp [replMulti, tryPats, isPfx, strL])
  have s16 := replMulti_walk1 [(strL "<p><table", strL "<table")]
    (strL "h3>") r (strL "</h3>") (strL "</h3>")
    rfl (by decide) hlt
    (by intro p hp; simp at hp; subst hp; exact ⟨_, rfl⟩)
    (by simp [replMulti, tryPats, isPfx, strL])
  have s17 := replMulti_walk1 [(strL "</table></p>", strL "</table>")]
    (strL "h3>") r (strL "</h3>") (strL "</h3>")
    rfl (by decide) hlt
    (by intro p hp; simp at hp; subst hp; exact ⟨_, rfl⟩)
    (by simp [replMulti, tryPats, isPfx, strL])
  simp only [formatMarkdownSubst]
  rw [n1, n2, s1, s4, s5, s6, s7, s8, s9, s10, hw2, s11, s12, hw3, s13]
  rw [s14, s15, s16, s17]
  rfl

theorem fmtSubst_heading4 (r : List Char) (hr : benignStr r = true) :
    formatMarkdownSubst (strL "#### " ++ r) = strL "<h4>" ++ (r ++ strL "</h4>") := by
  have hnl : '\n' ∉ r := benign_not_mem '\n' (by decide) r hr
  have hst : '*' ∉ r := benign_not_mem '*' (by decide) r hr
  have hlt : '<' ∉ r := benign_not_mem '<' (by decide) r hr
  have hin : '\n' ∉ strL "#### " ++ r := not_mem_app (by decide) hnl
  have hwnl : '\n' ∉ strL "<h4>" ++ (r ++ strL "</h4>") :=
    not_mem_app (by decide) (not_mem_app hnl (by decide))
  have hwst : '*' ∉ strL "<h4>" ++ (r ++ strL "</h4>") :=
    not_mem_app (by decide) (not_mem_app hst (by decide))
  have n1 := mdH1_no _ hin rfl
  have n2 := mdH2_no _ hin rfl
  have n3 := mdH3_no _ hin rfl
  have s1 := mdH4_yes r hin
  have s5 := boldStep_id _ hwst
  have s6 := italicStep_id _ hwst
  have s7 := mdLi_no _ hwnl rfl
  have s8 : ulWrapGo (strL "<h4>" ++ (r ++ strL "</h4>"))
      = strL "<h4>" ++ (r ++ strL "</h4>") := by
    rw [show strL "<h4>" ++ (r ++ strL "</h4>")
          = '<' :: (strL "h4>" ++ (r ++ strL "</h4>")) from rfl]
    rw [ulWrapGo_cons_no '<' (strL "h4>" ++ (r ++ strL "</h4>")) rfl]
    rw [show strL "h4>" ++ (r ++ strL "</h4>")
          = (strL "h4>" ++ r) ++ strL "</h4>" from (List.append_assoc _ _ _).symm]
    rw [ulWrapGo_chunk _ _ (not_mem_app (by decide) hlt)]
    rw [show ulWrapGo (strL "</h4>") = strL "</h4>" from by decide]
  have s9 := replMulti_id [(strL "\n\n", strL "</p><p>")]
    (strL "<h4>" ++ (r ++ strL "</h4>"))
    (fun p hp => by
      simp at hp
      subst hp
      exact ⟨'\n', strL "\n", rfl, hwnl⟩)
  have s10 := mdPara_single _ hwnl
  have hw2 : strL "<p>" ++ ((strL "<h4>" ++ (r ++ strL "</h4>")) ++ strL "</p>")
      = '<' :: (strL "p>" ++ ('<' :: (strL "h4>" ++ (r ++ strL "</h4></p>")))) := by
    simp only [List.append_assoc]
    rfl
  have h11heads : ∀ p ∈ [(strL "<p></p>", ([] : List Char))], ∃ ds, p.1 = '<' :: ds := by
    intro p hp
    simp at hp
    subst hp
    exact ⟨_, rfl⟩
  have h12heads : ∀ p ∈
      [(strL "<p><h1>", strL "<h1>"), (strL "<p><h2>", strL "<h2>"),
       (strL "<p><h3>", strL "<h3>"), (strL "<p><h4>", strL "<h4>"),
       (strL "<p><h5>", strL "<h5>"), (strL "<p><h6>", strL "<h6>")],
      ∃ ds, p.1 = '<' :: ds := by
    intro p hp
    simp at hp
    rcases hp with rfl | rfl | rfl | rfl | rfl | rfl <;> exact ⟨_, rfl⟩
  have h13heads : ∀ p ∈
      [(strL "</h1></p>", strL "</h1>"), (strL "</h2></p>", strL "</h2>"),
       (strL "</h3></p>", strL "</h3>"), (strL "</h4></p>", strL "</h4>"),
       (strL "</h5></p>", strL "</h5>"), (strL "</h6></p>", strL "</h6>")],
      ∃ ds, p.1 = '<' :: ds := by
    intro p hp
    simp at hp
    rcases hp with rfl | rfl | rfl | rfl | rfl | rfl <;> exact ⟨_, rfl⟩
  have s11 := replMulti_walk2 [(strL "<p></p>", ([] : List Char))]
    (strL "p>") (strL "h4>") r (strL "</h4></p>") (strL "</h4></p>")
    rfl rfl (by decide) (by decide) hlt h11heads
    (by simp [replMulti, tryPats, isPfx, strL])
  have s12 : replMulti
      [(strL "<p><h1>", strL "<h1>"), (strL "<p><h2>", strL "<h2>"),
       (strL "<p><h3>", strL "<h3>"), (strL "<p><h4>", strL "<h4>"),
       (strL "<p><h5>", strL "<h5>"), (strL "<p><h6>", strL "<h6>")]
      ('<' :: (strL "p>" ++ ('<' :: (strL "h4>" ++ (r ++ strL "</h4></p>")))))
      = strL "<h4>" ++ (r ++ strL "</h4></p>") := by
    rw [replMulti_cons_yes
      [(strL "<p><h1>", strL "<h1>"), (strL "<p><h2>", strL "<h2>"),
       (strL "<p><h3>", strL "<h3>"), (strL "<p><h4>", strL "<h4>"),
       (strL "<p><h5>", strL "<h5>"), (strL "<p><h6>", strL "<h6>")] '<'
      (strL "p>" ++ ('<' :: (strL "h4>" ++ (r ++ strL "</h4></p>")))) (strL "<h4>") 7 rfl]
    rw [show (strL "p>" ++ ('<' :: (strL "h4>" ++ (r ++ strL "</h4></p>")))).drop (7 - 1)
          = r ++ strL "</h4></p>" from rfl]
    rw [replMulti_chunk _ r _ (heads_aux _ '<' _ h12heads hlt)]
    rw [show replMulti
        [(strL "<p><h1>", strL "<h1>"), (strL "<p><h2>", strL "<h2>"),
         (strL "<p><h3>", strL "<h3>"), (strL "<p><h4>", strL "<h4>"),
         (strL "<p><h5>", strL "<h5>"), (strL "<p><h6>", strL "<h6>")]
        (strL "</h4></p>") = strL "</h4></p>"
      from by simp [replMulti, tryPats, isPfx, strL]]
  have hw3 : strL "<h4>" ++ (r ++ strL "</h4></p>")
      = '<' :: (strL "h4>" ++ (r ++ strL "</h4></p>")) := rfl
  have s13 := replMulti_walk1
    [(strL "</h1></p>", strL "</h1>"), (strL "</h2></p>", strL "</h2>"),
     (strL "</h3></p>", strL "</h3>"), (strL "</h4></p>", strL "</h4>"),
     (strL "</h5></p>", strL "</h5>"), (strL "</h6></p>", strL "</h6>")]
    (strL "h4>") r (strL "</h4></p>") (strL "</h4>")
    rfl (by decide) hlt h13heads
    (by simp [replMulti, tryPats, isPfx, strL])
  have s14 := replMulti_walk1 [(strL "<p><ul>", strL "<ul>")]
    (strL "h4>") r (strL "</h4>") (strL "</h4>")
    rfl (by decide) hlt
    (by intro p hp; simp at hp; subst hp; exact ⟨_, rfl⟩)
    (by simp [replMulti, tryPats, isPfx, strL])
  have s15 := replMulti_walk1 [(strL "</ul></p>", strL "</ul>")]
    (strL "h4>") r (strL "</h4>") (strL "</h4>")
    rfl (by decide) hlt
    (by intro p hp; simp at hp; subst hp; exact ⟨_, rfl⟩)
    (by simp [replMulti, tryPats, isPfx, strL])
  have s16 := replMulti_walk1 [(strL "<p><table", strL "<table")]
    (strL "h4>") r (strL "</h4>") (strL "</h4>")
    rfl (by decide) hlt
    (by intro p hp; simp at hp; subst hp; exact ⟨_, rfl⟩)
    (by simp [replMulti, tryPats, isPfx, strL])
  have s17 := replMulti_walk1 [(strL "</table></p>", strL "</table>")]
    (strL "h4>") r (strL "</h4>") (strL "</h4>")
    rfl (by decide) hlt
    (by intro p hp; simp at hp; subst hp; exact ⟨_, rfl⟩)
    (by simp [replMulti, tryPats, isPfx, strL])
  simp only [formatMarkdownSubst]
  rw [n1, n2, n3, s1, s5, s6, s7, s8, s9, s10, hw2, s11, s12, hw3, s13]
  rw [s14, s15, s16, s17]
  rfl

theorem fmtSubst_bold (r : List Char) (hr : benignStr r = true) :
    formatMarkdownSubst (strL "**" ++ (r ++ strL "**"))
      = strL "<p><strong>" ++ (r ++ strL "</strong></p>") := by
  have hnl : '\n' ∉ r := benign_not_mem '\n' (by decide) r hr
  have hst : '*' ∉ r := benign_not_mem '*' (by decide) r hr
  have hlt : '<' ∉ r := benign_not_mem '<' (by decide) r hr
  have hin : '\n' ∉ strL "**" ++ (r ++ strL "**") :=
    not_mem_app (by decide) (not_mem_app hnl (by decide))
  have hwnl : '\n' ∉ strL "<strong>" ++ (r ++ strL "</strong>") :=
    not_mem_app (by decide) (not_mem_app hnl (by decide))
  have hwst : '*' ∉ strL "<strong>" ++ (r ++ strL "</strong>") :=
    not_mem_app (by decide) (not_mem_app hst (by decide))
  have n1 := mdH1_no _ hin rfl
  have n2 := mdH2_no _ hin rfl
  have n3 := mdH3_no _ hin rfl
  have n4 := mdH4_no _ hin rfl
  have s5 : boldStep (strL "**" ++ (r ++ strL "**"))
      = strL "<strong>" ++ (r ++ strL "</strong>") := by
    rw [show strL "**" ++ (r ++ strL "**")
          = '*' :: '*' :: (r ++ '*' :: '*' :: []) from rfl]
    rw [boldStep_act r [] hst hnl]
    rw [boldStep_nil]
    simp [List.append_assoc]
  have s6 := italicStep_id _ hwst
  have s7 := mdLi_no _ hwnl rfl
  have s8 : ulWrapGo (strL "<strong>" ++ (r ++ strL "</strong>"))
      = strL "<strong>" ++ (r ++ strL "</strong>") := by
    rw [show strL "<strong>" ++ (r ++ strL "</strong>")
          = '<' :: (strL "strong>" ++ (r ++ strL "</strong>")) from rfl]
    rw [ulWrapGo_cons_no '<' (strL "strong>" ++ (r ++ strL "</strong>")) rfl]
    rw [show strL "strong>" ++ (r ++ strL "</strong>")
          = (strL "strong>" ++ r) ++ strL "</strong>" from (List.append_assoc _ _ _).symm]
    rw [ulWrapGo_chunk _ _ (not_mem_app (by decide) hlt)]
    rw [show ulWrapGo (strL "</strong>") = strL "</strong>" from by decide]
  have s9 := replMulti_id [(strL "\n\n", strL "</p><p>")]
    (strL "<strong>" ++ (r ++ strL "</strong>"))
    (fun p hp => by
      simp at hp
      subst hp
      exact ⟨'\n', strL "\n", rfl, hwnl⟩)
  have s10 := mdPara_single _ hwnl
  have hsegss : ∀ t ∈ [strL "p>", strL "strong>" ++ r, strL "/strong>", strL "/p>"],
      '<' ∉ t := by
    intro t ht
    simp at ht
    rcases ht with rfl | rfl | rfl | rfl
    · decide
    · exact not_mem_app (by decide) hlt
    · decide
    · decide
  have h11heads : ∀ p ∈ [(strL "<p></p>", ([] : List Char))], ∃ ds, p.1 = '<' :: ds := by
    intro p hp
    simp at hp
    subst hp
    exact ⟨_, rfl⟩
  have h12heads : ∀ p ∈
      [(strL "<p><h1>", strL "<h1>"), (strL "<p><h2>", strL "<h2>"),
       (strL "<p><h3>", strL "<h3>"), (strL "<p><h4>", strL "<h4>"),
       (strL "<p><h5>", strL "<h5>"), (strL "<p><h6>", strL "<h6>")],
      ∃ ds, p.1 = '<' :: ds := by
    intro p hp
    simp at hp
    rcases hp with rfl | rfl | rfl | rfl | rfl | rfl <;> exact ⟨_, rfl⟩
  have h13heads : ∀ p ∈
      [(strL "</h1></p>", strL "</h1>"), (strL "</h2></p>", strL "</h2>"),
       (strL "</h3></p>", strL "</h3>"), (strL "</h4></p>", strL "</h4>"),
       (strL "</h5></p>", strL "</h5>"), (strL "</h6></p>", strL "</h6>")],
      ∃ ds, p.1 = '<' :: ds := by
    intro p hp
    simp at hp
    rcases hp with rfl | rfl | rfl | rfl | rfl | rfl <;> exact ⟨_, rfl⟩
  have hw2 : strL "<p>" ++ ((strL "<strong>" ++ (r ++ strL "</strong>")) ++ strL "</p>")
      = segsJoin '<' []
          [strL "p>", strL "strong>" ++ r, strL "/strong>", strL "/p>"] := by
    simp [segsJoin, List.append_assoc]
    rfl
  have p11 := replMulti_segs [(strL "<p></p>", ([] : List Char))] '<' h11heads
    [strL "p>", strL "strong>" ++ r, strL "/strong>", strL "/p>"] []
    (List.not_mem_nil '<') hsegss
    (by
      intro t ht
      simp [segsSufs, segsJoin] at ht
      rcases ht with rfl | rfl | rfl | rfl <;> rfl)
  have p12 := replMulti_segs
    [(strL "<p><h1>", strL "<h1>"), (strL "<p><h2>", strL "<h2>"),
     (strL "<p><h3>", strL "<h3>"), (strL "<p><h4>", strL "<h4>"),
     (strL "<p><h5>", strL "<h5>"), (strL "<p><h6>", strL "<h6>")] '<' h12heads
    [strL "p>", strL "strong>" ++ r, strL "/strong>", strL "/p>"] []
    (List.not_mem_nil '<') hsegss
    (by
      intro t ht
      simp [segsSufs, segsJoin] at ht
      rcases ht with rfl | rfl | rfl | rfl <;> rfl)
  have p13 := replMulti_segs
    [(strL "</h1></p>", strL "</h1>"), (strL "</h2></p>", strL "</h2>"),
     (strL "</h3></p>", strL "</h3>"), (strL "</h4></p>", strL "</h4>"),
     (strL "</h5></p>", strL "</h5>"), (strL "</h6></p>", strL "</h6>")] '<' h13heads
    [strL "p>", strL "strong>" ++ r, strL "/strong>", strL "/p>"] []
    (List.not_mem_nil '<') hsegss
    (by
      intro t ht
      simp [segsSufs, segsJoin] at ht
      rcases ht with rfl | rfl | rfl | rfl <;> rfl)
  have p14 := replMulti_segs [(strL "<p><ul>", strL "<ul>")] '<'
    (by intro p hp; simp at hp; subst hp; exact ⟨_, rfl⟩)
    [strL "p>", strL "strong>" ++ r, strL "/strong>", strL "/p>"] []
    (List.not_mem_nil '<') hsegss
    (by
      intro t ht
      simp [segsSufs, segsJoin] at ht
      rcases ht with rfl | rfl | rfl | rfl <;> rfl)
  have p15 := replMulti_segs [(strL "</ul></p>", strL "</ul>")] '<'
    (by intro p hp; simp at hp; subst hp; exact ⟨_, rfl⟩)
    [strL "p>", strL "strong>" ++ r, strL "/strong>", strL "/p>"] []
    (List.not_mem_nil '<') hsegss
    (by
      intro t ht
      simp [segsSufs, segsJoin] at ht
      rcases ht with rfl | rfl | rfl | rfl <;> rfl)
  have p16 := replMulti_segs [(strL "<p><table", strL "<table")] '<'
    (by intro p hp; simp at hp; subst hp; exact ⟨_, rfl⟩)
    [strL "p>", strL "strong>" ++ r, strL "/strong>", strL "/p>"] []
    (List.not_mem_nil '<') hsegss
    (by
      intro t ht
      simp [segsSufs, segsJoin] at ht
      rcases ht with rfl | rfl | rfl | rfl <;> rfl)
  have p17 := replMulti_segs [(strL "</table></p>", strL "</table>")] '<'
    (by intro p hp; simp at hp; subst hp; exact ⟨_, rfl⟩)
    [strL "p>", strL "strong>" ++ r, strL "/strong>", strL "/p>"] []
    (List.not_mem_nil '<') hsegss
    (by
      intro t ht
      simp [segsSufs, segsJoin] at ht
      rcases ht with rfl | rfl | rfl | rfl <;> rfl)
  simp only [formatMarkdownSubst]
  rw [n1, n2, n3, n4, s5, s6, s7, s8, s9, s10, hw2, p11, p12, p13, p14, p15, p16, p17]
  simp only [segsJoin]
  rfl

theorem fmtSubst_italic (r : List Char) (hr : benignStr r = true)
    (hne : r ≠ []) :
    formatMarkdownSubst (strL "*" ++ (r ++ strL "*"))
      = strL "<p><em>" ++ (r ++ strL "</em></p>") := by
  have hnl : '\n' ∉ r := benign_not_mem '\n' (by decide) r hr
  have hst : '*' ∉ r := benign_not_mem '*' (by decide) r hr
  have hlt : '<' ∉ r := benign_not_mem '<' (by decide) r hr
  have hin : '\n' ∉ strL "*" ++ (r ++ strL "*") :=
    not_mem_app (by decide) (not_mem_app hnl (by decide))
  have hwnl : '\n' ∉ strL "<em>" ++ (r ++ strL "</em>") :=
    not_mem_app (by decide) (not_mem_app hnl (by decide))
  have hwst : '*' ∉ strL "<em>" ++ (r ++ strL "</em>") :=
    not_mem_app (by decide) (not_mem_app hst (by decide))
  have n1 := mdH1_no _ hin rfl
  have n2 := mdH2_no _ hin rfl
  have n3 := mdH3_no _ hin rfl
  have n4 := mdH4_no _ hin rfl
  have hbno : isPfx (strL "**") ('*' :: (r ++ '*' :: [])) = false := by
    cases r with
    | nil => exact absurd rfl hne
    | cons d r0 =>
      have hdne : d ≠ '*' := fun h => hst (h ▸ List.mem_cons_self _ _)
      show isPfx ('*' :: '*' :: []) ('*' :: ((d :: r0) ++ '*' :: [])) = false
      simp [isPfx, beq_eq_false_iff_ne]
      exact fun h => hdne h.symm
  have s5 : boldStep (strL "*" ++ (r ++ strL "*"))
      = strL "*" ++ (r ++ strL "*") := by
    rw [show strL "*" ++ (r ++ strL "*") = '*' :: (r ++ '*' :: []) from rfl]
    rw [boldStep_cons_no _ _ hbno]
    rw [boldStep_chunk r _ hst]
    rw [show boldStep ('*' :: []) = '*' :: [] from by simp [boldStep, findDelim2, isPfx]]
  have s6 : italicStep (strL "*" ++ (r ++ strL "*"))
      = strL "<em>" ++ (r ++ strL "</em>") := by
    rw [show strL "*" ++ (r ++ strL "*") = '*' :: (r ++ '*' :: []) from rfl]
    rw [italicStep_act r [] hst hnl]
    rw [italicStep_nil]
    simp [List.append_assoc]
  have s7 := mdLi_no _ hwnl rfl
  have s8 : ulWrapGo (strL "<em>" ++ (r ++ strL "</em>"))
      = strL "<em>" ++ (r ++ strL "</em>") := by
    rw [show strL "<em>" ++ (r ++ strL "</em>")
          = '<' :: (strL "em>" ++ (r ++ strL "</em>")) from rfl]
    rw [ulWrapGo_cons_no '<' (strL "em>" ++ (r ++ strL "</em>")) rfl]
    rw [show strL "em>" ++ (r ++ strL "</em>")
          = (strL "em>" ++ r) ++ strL "</em>" from (List.append_assoc _ _ _).symm]
    rw [ulWrapGo_chunk _ _ (not_mem_app (by decide) hlt)]
    rw [show ulWrapGo (strL "</em>") = strL "</em>" from by decide]
  have s9 := replMulti_id [(strL "\n\n", strL "</p><p>")]
    (strL "<em>" ++ (r ++ strL "</em>"))
    (fun p hp => by
      simp at hp
      subst hp
      exact ⟨'\n', strL "\n", rfl, hwnl⟩)
  have s10 := mdPara_single _ hwnl
  have hsegss : ∀ t ∈ [strL "p>", strL "em>" ++ r, strL "/em>", strL "/p>"],
      '<' ∉ t := by
    intro t ht
    simp at ht
    rcases ht with rfl | rfl | rfl | rfl
    · decide
    · exact not_mem_app (by decide) hlt
    · decide
    · decide
  have h11heads : ∀ p ∈ [(strL "<p></p>", ([] : List Char))], ∃ ds, p.1 = '<' :: ds := by
    intro p hp
    simp at hp
    subst hp
    exact ⟨_, rfl⟩
  have h12heads : ∀ p ∈
      [(strL "<p><h1>", strL "<h1>"), (strL "<p><h2>", strL "<h2>"),
       (strL "<p><h3>", strL "<h3>"), (strL "<p><h4>", strL "<h4>"),
       (strL "<p><h5>", strL "<h5>"), (strL "<p><h6>", strL "<h6>")],
      ∃ ds, p.1 = '<' :: ds := by
    intro p hp
    simp at hp
    rcases hp with rfl | rfl | rfl | rfl | rfl | rfl <;> exact ⟨_, rfl⟩
  have h13heads : ∀ p ∈
      [(strL "</h1></p>", strL "</h1>"), (strL "</h2></p>", strL "</h2>"),
       (strL "</h3></p>", strL "</h3>"), (strL "</h4></p>", strL "</h4>"),
       (strL "</h5></p>", strL "</h5>"), (strL "</h6></p>", strL "</h6>")],
      ∃ ds, p.1 = '<' :: ds := by
    intro p hp
    simp at hp
    rcases hp with rfl | rfl | rfl | rfl | rfl | rfl <;> exact ⟨_, rfl⟩
  have hw2 : strL "<p>" ++ ((strL "<em>" ++ (r ++ strL "</em>")) ++ strL "</p>")
      = segsJoin '<' []
          [strL "p>", strL "em>" ++ r, strL "/em>", strL "/p>"] := by
    simp [segsJoin, List.append_assoc]
    rfl
  have p11 := replMulti_segs [(strL "<p></p>", ([] : List Char))] '<' h11heads
    [strL "p>", strL "em>" ++ r, strL "/em>", strL "/p>"] []
    (List.not_mem_nil '<') hsegss
    (by
      intro t ht
      simp [segsSufs, segsJoin] at ht
      rcases ht with rfl | rfl | rfl | rfl <;> rfl)
  have p12 := replMulti_segs
    [(strL "<p><h1>", strL "<h1>"), (strL "<p><h2>", strL "<h2>"),
     (strL "<p><h3>", strL "<h3>"), (strL "<p><h4>", strL "<h4>"),
     (strL "<p><h5>", strL "<h5>"), (strL "<p><h6>", strL "<h6>")] '<' h12heads
    [strL "p>", strL "em>" ++ r, strL "/em>", strL "/p>"] []
    (List.not_mem_nil '<') hsegss
    (by
      intro t ht
      simp [segsSufs, segsJoin] at ht
      rcases ht with rfl | rfl | rfl | rfl <;> rfl)
  have p13 := replMulti_segs
    [(strL "</h1></p>", strL "</h1>"), (strL "</h2></p>", strL "</h2>"),
     (strL "</h3></p>", strL "</h3>"), (strL "</h4></p>", strL "</h4>"),
     (strL "</h5></p>", strL "</h5>"), (strL "</h6></p>", strL "</h6>")] '<' h13heads
    [strL "p>", strL "em>" ++ r, strL "/em>", strL "/p>"] []
    (List.not_mem_nil '<') hsegss
    (by
      intro t ht
      simp [segsSufs, segsJoin] at ht
      rcases ht with rfl | rfl | rfl | rfl <;> rfl)
  have p14 := replMulti_segs [(strL "<p><ul>", strL "<ul>")] '<'
    (by intro p hp; simp at hp; subst hp; exact ⟨_, rfl⟩)
    [strL "p>", strL "em>" ++ r, strL "/em>", strL "/p>"] []
    (List.not_mem_nil '<') hsegss
    (by
      intro t ht
      simp [segsSufs, segsJoin] at ht
      rcases ht with rfl | rfl | rfl | rfl <;> rfl)
  have p15 := replMulti_segs [(strL "</ul></p>", strL "</ul>")] '<'
    (by intro p hp; simp at hp; subst hp; exact ⟨_, rfl⟩)
    [strL "p>", strL "em>" ++ r, strL "/em>", strL "/p>"] []
    (List.not_mem_nil '<') hsegss
    (by
      intro t ht
      simp [segsSufs, segsJoin] at ht
      rcases ht with rfl | rfl | rfl | rfl <;> rfl)
  have p16 := replMulti_segs [(strL "<p><table", strL "<table")] '<'
    (by intro p hp; simp at hp; subst hp; exact ⟨_, rfl⟩)
    [strL "p>", strL "em>" ++ r, strL "/em>", strL "/p>"] []
    (List.not_mem_nil '<') hsegss
    (by
      intro t ht
      simp [segsSufs, segsJoin] at ht
      rcases ht with rfl | rfl | rfl | rfl <;> rfl)
  have p17 := replMulti_segs [(strL "</table></p>", strL "</table>")] '<'
    (by intro p hp; simp at hp; subst hp; exact ⟨_, rfl⟩)
    [strL "p>", strL "em>" ++ r, strL "/em>", strL "/p>"] []
    (List.not_mem_nil '<') hsegss
    (by
      intro t ht
      simp [segsSufs, segsJoin] at ht
      rcases ht with rfl | rfl | rfl | rfl <;> rfl)
  simp only [formatMarkdownSubst]
  rw [n1, n2, n3, n4, s5, s6, s7, s8, s9, s10, hw2, p11, p12, p13, p14, p15, p16, p17]
  simp only [segsJoin]
  rfl

theorem fmtSubst_list_run (a b : List Char)
    (ha : benignStr a = true) (hb : benignStr b = true) :
    formatMarkdownSubst ((strL "- " ++ a) ++ '\n' :: (strL "- " ++ b))
      = strL "<ul><li>" ++ (a ++ (strL "</li></p>\n<p><li>" ++ (b ++ strL "</li></ul>"))) := by
  have hnla : '\n' ∉ a := benign_not_mem '\n' (by decide) a ha
  have hsta : '*' ∉ a := benign_not_mem '*' (by decide) a ha
  have hlta : '<' ∉ a := benign_not_mem '<' (by decide) a ha
  have hnlb : '\n' ∉ b := benign_not_mem '\n' (by decide) b hb
  have hstb : '*' ∉ b := benign_not_mem '*' (by decide) b hb
  have hltb : '<' ∉ b := benign_not_mem '<' (by decide) b hb
  have hla : '\n' ∉ strL "- " ++ a := not_mem_app (by decide) hnla
  have hlb : '\n' ∉ strL "- " ++ b := not_mem_app (by decide) hnlb
  have h0st : '*' ∉ (strL "- " ++ a) ++ '\n' :: (strL "- " ++ b) :=
    not_mem_app (not_mem_app (by decide) hsta)
      (not_mem_cons_of_ne (by decide) (not_mem_app (by decide) hstb))
  have n1 : mdH1 ((strL "- " ++ a) ++ '\n' :: (strL "- " ++ b))
      = (strL "- " ++ a) ++ '\n' :: (strL "- " ++ b) := by
    unfold mdH1
    exact perLine_if_id_two (isPfx (strL "# "))
      (fun l => strL "<h1>" ++ l.drop 2 ++ strL "</h1>") _ _ hla hlb rfl rfl
  have n2 : mdH2 ((strL "- " ++ a) ++ '\n' :: (strL "- " ++ b))
      = (strL "- " ++ a) ++ '\n' :: (strL "- " ++ b) := by
    unfold mdH2
    exact perLine_if_id_two (isPfx (strL "## "))
      (fun l => strL "<h2>" ++ l.drop 3 ++ strL "</h2>") _ _ hla hlb rfl rfl
  have n3 : mdH3 ((strL "- " ++ a) ++ '\n' :: (strL "- " ++ b))
      = (strL "- " ++ a) ++ '\n' :: (strL "- " ++ b) := by
    unfold mdH3
    exact perLine_if_id_two (isPfx (strL "### "))
      (fun l => strL "<h3>" ++ l.drop 4 ++ strL "</h3>") _ _ hla hlb rfl rfl
  have n4 : mdH4 ((strL "- " ++ a) ++ '\n' :: (strL "- " ++ b))
      = (strL "- " ++ a) ++ '\n' :: (strL "- " ++ b) := by
    unfold mdH4
    exact perLine_if_id_two (isPfx (strL "#### "))
      (fun l => strL "<h4>" ++ l.drop 5 ++ strL "</h4>") _ _ hla hlb rfl rfl
  have s5 := boldStep_id _ h0st
  have s6 := italicStep_id _ h0st
  have sLi : mdLi ((strL "- " ++ a) ++ '\n' :: (strL "- " ++ b))
      = (strL "<li>" ++ (a ++ strL "</li>")) ++ '\n' :: (strL "<li>" ++ (b ++ strL "</li>")) := by
    unfold mdLi
    rw [perLine_two _ _ _ hla hlb]
    show (strL "<li>" ++ a ++ strL "</li>") ++ '\n' :: (strL "<li>" ++ b ++ strL "</li>") = _
    simp [List.append_assoc]
  have sUl : ulWrapGo ((strL "<li>" ++ (a ++ strL "</li>")) ++ '\n' :: (strL "<li>" ++ (b ++ strL "</li>")))
      = strL "<ul><li>" ++ (a ++ (strL "</li>\n<li>" ++ (b ++ strL "</li></ul>"))) := by
    rw [show (strL "<li>" ++ (a ++ strL "</li>")) ++ '\n' :: (strL "<li>" ++ (b ++ strL "</li>"))
          = '<' :: (strL "li>" ++ (a ++ (strL "</li>" ++ ('\n' :: (strL "<li>" ++ (b ++ strL "</li>"))))))
        from by simp [List.append_assoc]; rfl]
    have hdrop3 : (strL "li>" ++ (a ++ (strL "</li>" ++ ('\n' :: (strL "<li>" ++ (b ++ strL "</li>")))))).drop 3
        = a ++ (strL "</li>" ++ ('\n' :: (strL "<li>" ++ (b ++ strL "</li>")))) := rfl
    have hsplit : a ++ (strL "</li>" ++ ('\n' :: (strL "<li>" ++ (b ++ strL "</li>"))))
        = (a ++ (strL "</li>\n<li>" ++ b)) ++ ('<' :: strL "/li>") := by
      simp [List.append_assoc]
      rfl
    have hlast : lastIdxOf (strL "</li>")
        ((strL "li>" ++ (a ++ (strL "</li>" ++ ('\n' :: (strL "<li>" ++ (b ++ strL "</li>")))))).drop 3)
        = some ((a ++ (strL "</li>\n<li>" ++ b)).length) := by
      rw [hdrop3, hsplit]
      exact lastIdxOf_append_pat _ '<' (strL "/li>")
    rw [ulWrapGo_act (strL "li>" ++ (a ++ (strL "</li>" ++ ('\n' :: (strL "<li>" ++ (b ++ strL "</li>"))))))
      _ rfl hlast]
    have htake : ('<' :: (strL "li>" ++ (a ++ (strL "</li>" ++ ('\n' :: (strL "<li>" ++ (b ++ strL "</li>"))))))).take
          (4 + (a ++ (strL "</li>\n<li>" ++ b)).length + 5)
        = '<' :: (strL "li>" ++ (a ++ (strL "</li>" ++ ('\n' :: (strL "<li>" ++ (b ++ strL "</li>")))))) := by
      have hlen : 4 + (a ++ (strL "</li>\n<li>" ++ b)).length + 5
          = ('<' :: (strL "li>" ++ (a ++ (strL "</li>" ++ ('\n' :: (strL "<li>" ++ (b ++ strL "</li>"))))))).length := by
        simp only [List.length_append, List.length_cons]
        rw [show (strL "li>").length = 3 from rfl, show (strL "</li>").length = 5 from rfl,
          show (strL "<li>").length = 4 from rfl, show (strL "</li>\n<li>").length = 10 from rfl]
        omega
      rw [hlen, List.take_length]
    have hdropnil : (((strL "li>" ++ (a ++ (strL "</li>" ++ ('\n' :: (strL "<li>" ++ (b ++ strL "</li>")))))).drop 3).drop
          ((a ++ (strL "</li>\n<li>" ++ b)).length + 5)) = [] := by
      rw [hdrop3]
      apply List.drop_eq_nil_of_le
      simp only [List.length_append, List.length_cons]
      rw [show (strL "</li>").length = 5 from rfl, show (strL "<li>").length = 4 from rfl,
        show (strL "</li>\n<li>").length = 10 from rfl]
      omega
    rw [htake, hdropnil]
    simp [List.append_assoc]
    rfl
  have hnn : replMulti [(strL "\n\n", strL "</p><p>")]
        (strL "<ul><li>" ++ (a ++ (strL "</li>\n<li>" ++ (b ++ strL "</li></ul>"))))
      = strL "<ul><li>" ++ (a ++ (strL "</li>\n<li>" ++ (b ++ strL "</li></ul>"))) := by
    rw [show strL "<ul><li>" ++ (a ++ (strL "</li>\n<li>" ++ (b ++ strL "</li></ul>")))
          = segsJoin '\n' (strL "<ul><li>" ++ (a ++ strL "</li>"))
              [strL "<li>" ++ (b ++ strL "</li></ul>")]
        from by simp [segsJoin, List.append_assoc]; rfl]
    exact replMulti_segs _ '\n' (fun p hp => by simp at hp; subst hp; exact ⟨_, rfl⟩) _ _
      (not_mem_app (by decide) (not_mem_app hnla (by decide)))
      (by intro t ht; simp at ht; subst ht
          exact not_mem_app (by decide) (not_mem_app hnlb (by decide)))
      (by intro t ht; simp [segsSufs, segsJoin] at ht; subst ht; rfl)
  have hpara : mdPara (strL "<ul><li>" ++ (a ++ (strL "</li>\n<li>" ++ (b ++ strL "</li></ul>"))))
      = segsJoin '<' [] [strL "p>", strL "ul>", strL "li>" ++ a, strL "/li>", strL "/p>\n",
          strL "p>", strL "li>" ++ b, strL "/li>", strL "/ul>", strL "/p>"] := by
    unfold mdPara
    rw [show strL "<ul><li>" ++ (a ++ (strL "</li>\n<li>" ++ (b ++ strL "</li></ul>")))
          = (strL "<ul><li>" ++ (a ++ strL "</li>")) ++ '\n' :: (strL "<li>" ++ (b ++ strL "</li></ul>"))
        from by simp [List.append_assoc]; rfl]
    rw [perLine_two _ _ _ (not_mem_app (by decide) (not_mem_app hnla (by decide)))
      (not_mem_app (by decide) (not_mem_app hnlb (by decide)))]
    simp [segsJoin, List.append_assoc]
    rfl
  have hsegss3 : ∀ t ∈ [strL "p>", strL "ul>", strL "li>" ++ a, strL "/li>", strL "/p>\n",
      strL "p>", strL "li>" ++ b, strL "/li>", strL "/ul>", strL "/p>"], '<' ∉ t := by
    intro t ht
    simp at ht
    rcases ht with rfl | rfl | rfl | rfl | rfl | rfl | rfl | rfl | rfl | rfl
    · decide
    · decide
    · exact not_mem_app (by decide) hlta
    · decide
    · decide
    · decide
    · exact not_mem_app (by decide) hltb
    · decide
    · decide
    · decide
  have p11 := replMulti_segs [(strL "<p></p>", ([] : List Char))] '<'
    (by intro p hp; simp at hp; subst hp; exact ⟨_, rfl⟩)
    [strL "p>", strL "ul>", strL "li>" ++ a, strL "/li>", strL "/p>\n",
     strL "p>", strL "li>" ++ b, strL "/li>", strL "/ul>", strL "/p>"] []
    (List.not_mem_nil '<') hsegss3
    (by intro t ht; simp [segsSufs, segsJoin] at ht
        rcases ht with rfl | rfl | rfl | rfl | rfl | rfl | rfl | rfl | rfl | rfl <;> rfl)
  have p12 := replMulti_segs
    [(strL "<p><h1>", strL "<h1>"), (strL "<p><h2>", strL "<h2>"),
     (strL "<p><h3>", strL "<h3>"), (strL "<p><h4>", strL "<h4>"),
     (strL "<p><h5>", strL "<h5>"), (strL "<p><h6>", strL "<h6>")] '<'
    (by intro p hp; simp at hp
        rcases hp with rfl | rfl | rfl | rfl | rfl | rfl <;> exact ⟨_, rfl⟩)
    [strL "p>", strL "ul>", strL "li>" ++ a, strL "/li>", strL "/p>\n",
     strL "p>", strL "li>" ++ b, strL "/li>", strL "/ul>", strL "/p>"] []
    (List.not_mem_nil '<') hsegss3
    (by intro t ht; simp [segsSufs, segsJoin] at ht
        rcases ht with rfl | rfl | rfl | rfl | rfl | rfl | rfl | rfl | rfl | rfl <;> rfl)
  have p13 := replMulti_segs
    [(strL "</h1></p>", strL "</h1>"), (strL "</h2></p>", strL "</h2>"),
     (strL "</h3></p>", strL "</h3>"), (strL "</h4></p>", strL "</h4>"),
     (strL "</h5></p>", strL "</h5>"), (strL "</h6></p>", strL "</h6>")] '<'
    (by intro p hp; simp at hp
        rcases hp with rfl | rfl | rfl | rfl | rfl | rfl <;> exact ⟨_, rfl⟩)
    [strL "p>", strL "ul>", strL "li>" ++ a, strL "/li>", strL "/p>\n",
     strL "p>", strL "li>" ++ b, strL "/li>", strL "/ul>", strL "/p>"] []
    (List.not_mem_nil '<') hsegss3
    (by intro t ht; simp [segsSufs, segsJoin] at ht
        rcases ht with rfl | rfl | rfl | rfl | rfl | rfl | rfl | rfl | rfl | rfl <;> rfl)
  have hp14 : replMulti [(strL "<p><ul>", strL "<ul>")]
        (segsJoin '<' [] [strL "p>", strL "ul>", strL "li>" ++ a, strL "/li>", strL "/p>\n",
          strL "p>", strL "li>" ++ b, strL "/li>", strL "/ul>", strL "/p>"])
      = segsJoin '<' [] [strL "ul>", strL "li>" ++ a, strL "/li>", strL "/p>\n",
          strL "p>", strL "li>" ++ b, strL "/li>", strL "/ul>", strL "/p>"] := by
    rw [show segsJoin '<' [] [strL "p>", strL "ul>", strL "li>" ++ a, strL "/li>", strL "/p>\n",
          strL "p>", strL "li>" ++ b, strL "/li>", strL "/ul>", strL "/p>"]
          = '<' :: (strL "p>" ++ '<' :: segsJoin '<' (strL "ul>")
              [strL "li>" ++ a, strL "/li>", strL "/p>\n",
               strL "p>", strL "li>" ++ b, strL "/li>", strL "/ul>", strL "/p>"])
        from by simp [segsJoin]]
    rw [replMulti_cons_yes [(strL "<p><ul>", strL "<ul>")] '<'
      (strL "p>" ++ '<' :: segsJoin '<' (strL "ul>")
        [strL "li>" ++ a, strL "/li>", strL "/p>\n",
         strL "p>", strL "li>" ++ b, strL "/li>", strL "/ul>", strL "/p>"])
      (strL "<ul>") 7 rfl]
    rw [show (strL "p>" ++ '<' :: segsJoin '<' (strL "ul>")
          [strL "li>" ++ a, strL "/li>", strL "/p>\n",
           strL "p>", strL "li>" ++ b, strL "/li>", strL "/ul>", strL "/p>"]).drop (7 - 1)
          = segsJoin '<' [] [strL "li>" ++ a, strL "/li>", strL "/p>\n",
              strL "p>", strL "li>" ++ b, strL "/li>", strL "/ul>", strL "/p>"]
        from rfl]
    rw [replMulti_segs [(strL "<p><ul>", strL "<ul>")] '<'
      (by intro p hp; simp at hp; subst hp; exact ⟨_, rfl⟩)
      [strL "li>" ++ a, strL "/li>", strL "/p>\n",
       strL "p>", strL "li>" ++ b, strL "/li>", strL "/ul>", strL "/p>"] []
      (List.not_mem_nil '<')
      (by intro t ht; simp at ht
          rcases ht with rfl | rfl | rfl | rfl | rfl | rfl | rfl | rfl
          · exact not_mem_app (by decide) hlta
          · decide
          · decide
          · decide
          · exact not_mem_app (by decide) hltb
          · decide
          · decide
          · decide)
      (by intro t ht; simp [segsSufs, segsJoin] at ht
          rcases ht with rfl | rfl | rfl | rfl | rfl | rfl | rfl | rfl <;> rfl)]
    simp [segsJoin]
    rfl
  have hp15 : replMulti [(strL "</ul></p>", strL "</ul>")]
        (segsJoin '<' [] [strL "ul>", strL "li>" ++ a, strL "/li>", strL "/p>\n",
          strL "p>", strL "li>" ++ b, strL "/li>", strL "/ul>", strL "/p>"])
      = segsJoin '<' [] [strL "ul>", strL "li>" ++ a, strL "/li>", strL "/p>\n",
          strL "p>", strL "li>" ++ b, strL "/li>", strL "/ul>"] := by
    rw [show segsJoin '<' [] [strL "ul>", strL "li>" ++ a, strL "/li>", strL "/p>\n",
          strL "p>", strL "li>" ++ b, strL "/li>", strL "/ul>", strL "/p>"]
          = segsJoinT '<' ('<' :: (strL "/ul>" ++ ('<' :: strL "/p>"))) []
              [strL "ul>", strL "li>" ++ a, strL "/li>", strL "/p>\n",
               strL "p>", strL "li>" ++ b, strL "/li>"]
        from by simp [segsJoin, segsJoinT, List.append_assoc]]
    rw [replMulti_segsT [(strL "</ul></p>", strL "</ul>")] '<'
      ('<' :: (strL "/ul>" ++ ('<' :: strL "/p>"))) (strL "</ul>")
      (by intro p hp; simp at hp; subst hp; exact ⟨_, rfl⟩)
      (by show replMulti [(strL "</ul></p>", strL "</ul>")]
            ('<' :: (strL "/ul>" ++ ('<' :: strL "/p>"))) = strL "</ul>"
          simp [replMulti, tryPats, isPfx, strL])
      [strL "ul>", strL "li>" ++ a, strL "/li>", strL "/p>\n",
       strL "p>", strL "li>" ++ b, strL "/li>"] []
      (List.not_mem_nil '<')
      (by intro t ht; simp at ht
          rcases ht with rfl | rfl | rfl | rfl | rfl | rfl | rfl
          · decide
          · exact not_mem_app (by decide) hlta
          · decide
          · decide
          · decide
          · exact not_mem_app (by decide) hltb
          · decide)
      (by intro t ht; simp [segsSufsT, segsJoinT] at ht
          rcases ht with rfl | rfl | rfl | rfl | rfl | rfl | rfl <;> rfl)]
    simp [segsJoin, segsJoinT, List.append_assoc]
    rfl
  have p16 := replMulti_segs [(strL "<p><table", strL "<table")] '<'
    (by intro p hp; simp at hp; subst hp; exact ⟨_, rfl⟩)
    [strL "ul>", strL "li>" ++ a, strL "/li>", strL "/p>\n",
     strL "p>", strL "li>" ++ b, strL "/li>", strL "/ul>"] []
    (List.not_mem_nil '<')
    (by intro t ht; simp at ht
        rcases ht with rfl | rfl | rfl | rfl | rfl | rfl | rfl | rfl
        · decide
        · exact not_mem_app (by decide) hlta
        · decide
        · decide
        · decide
        · exact not_mem_app (by decide) hltb
        · decide
        · decide)
    (by intro t ht; simp [segsSufs, segsJoin] at ht
        rcases ht with rfl | rfl | rfl | rfl | rfl | rfl | rfl | rfl <;> rfl)
  have p17 := replMulti_segs [(strL "</table></p>", strL "</table>")] '<'
    (by intro p hp; simp at hp; subst hp; exact ⟨_, rfl⟩)
    [strL "ul>", strL "li>" ++ a, strL "/li>", strL "/p>\n",
     strL "p>", strL "li>" ++ b, strL "/li>", strL "/ul>"] []
    (List.not_mem_nil '<')
    (by intro t ht; simp at ht
        rcases ht with rfl | rfl | rfl | rfl | rfl | rfl | rfl | rfl
        · decide
        · exact not_mem_app (by decide) hlta
        · decide
        · decide
        · decide
        · exact not_mem_app (by decide) hltb
        · decide
        · decide)
    (by intro t ht; simp [segsSufs, segsJoin] at ht
        rcases ht with rfl | rfl | rfl | rfl | rfl | rfl | rfl | rfl <;> rfl)
  simp only [formatMarkdownSubst]
  rw [n1, n2, n3, n4, s5, s6, sLi, sUl, hnn, hpara, p11, p12, p13, hp14, hp15, p16, p17]
  simp [segsJoin, List.append_assoc]
  rfl

theorem fmtSubst_list_sep (a x b : List Char)
    (ha : benignStr a = true) (hx : benignStr x = true) (hb : benignStr b = true)
    (hxe : x ≠ []) :
    formatMarkdownSubst ((strL "- " ++ a) ++ '\n' :: (x ++ '\n' :: (strL "- " ++ b)))
      = strL "<ul><li>" ++ (a ++ (strL "</li></p>\n<p>" ++
          (x ++ (strL "</p>\n<p><li>" ++ (b ++ strL "</li></ul>"))))) := by
  obtain ⟨xh, xt, rfl⟩ := List.exists_cons_of_ne_nil hxe
  have hnla : '\n' ∉ a := benign_not_mem '\n' (by decide) a ha
  have hsta : '*' ∉ a := benign_not_mem '*' (by decide) a ha
  have hlta : '<' ∉ a := benign_not_mem '<' (by decide) a ha
  have hnlb : '\n' ∉ b := benign_not_mem '\n' (by decide) b hb
  have hstb : '*' ∉ b := benign_not_mem '*' (by decide) b hb
  have hltb : '<' ∉ b := benign_not_mem '<' (by decide) b hb
  have hnlx : '\n' ∉ xh :: xt := benign_not_mem '\n' (by decide) _ hx
  have hstx : '*' ∉ xh :: xt := benign_not_mem '*' (by decide) _ hx
  have hltx : '<' ∉ xh :: xt := benign_not_mem '<' (by decide) _ hx
  have hxh : benignChar xh = true := by
    have h2 := hx
    rw [benignStr, List.all_cons, Bool.and_eq_true] at h2
    exact h2.1
  have hltne : '<' ≠ xh := benign_head_ne '<' (by decide) xh hxh
  have hla : '\n' ∉ strL "- " ++ a := not_mem_app (by decide) hnla
  have hlb : '\n' ∉ strL "- " ++ b := not_mem_app (by decide) hnlb
  have h0st : '*' ∉ (strL "- " ++ a) ++ '\n' :: ((xh :: xt) ++ '\n' :: (strL "- " ++ b)) :=
    not_mem_app (not_mem_app (by decide) hsta)
      (not_mem_cons_of_ne (by decide)
        (not_mem_app hstx (not_mem_cons_of_ne (by decide) (not_mem_app (by decide) hstb))))
  have hxH1 : isPfx (strL "# ") (xh :: xt) = false :=
    isPfx_cons_ne '#' _ xh _ (benign_head_ne '#' (by decide) xh hxh)
  have hxH2 : isPfx (strL "## ") (xh :: xt) = false :=
    isPfx_cons_ne '#' _ xh _ (benign_head_ne '#' (by decide) xh hxh)
  have hxH3 : isPfx (strL "### ") (xh :: xt) = false :=
    isPfx_cons_ne '#' _ xh _ (benign_head_ne '#' (by decide) xh hxh)
  have hxH4 : isPfx (strL "#### ") (xh :: xt) = false :=
    isPfx_cons_ne '#' _ xh _ (benign_head_ne '#' (by decide) xh hxh)
  have hxLi : isPfx (strL "- ") (xh :: xt) = false :=
    isPfx_cons_ne '-' _ xh _ (benign_head_ne '-' (by decide) xh hxh)
  have n1 : mdH1 ((strL "- " ++ a) ++ '\n' :: ((xh :: xt) ++ '\n' :: (strL "- " ++ b)))
      = (strL "- " ++ a) ++ '\n' :: ((xh :: xt) ++ '\n' :: (strL "- " ++ b)) := by
    unfold mdH1
    exact perLine_if_id_three (isPfx (strL "# "))
      (fun l => strL "<h1>" ++ l.drop 2 ++ strL "</h1>") _ _ _ hla hnlx hlb rfl hxH1 rfl
  have n2 : mdH2 ((strL "- " ++ a) ++ '\n' :: ((xh :: xt) ++ '\n' :: (strL "- " ++ b)))
      = (strL "- " ++ a) ++ '\n' :: ((xh :: xt) ++ '\n' :: (strL "- " ++ b)) := by
    unfold mdH2
    exact perLine_if_id_three (isPfx (strL "## "))
      (fun l => strL "<h2>" ++ l.drop 3 ++ strL "</h2>") _ _ _ hla hnlx hlb rfl hxH2 rfl
  have n3 : mdH3 ((strL "- " ++ a) ++ '\n' :: ((xh :: xt) ++ '\n' :: (strL "- " ++ b)))
      = (strL "- " ++ a) ++ '\n' :: ((xh :: xt) ++ '\n' :: (strL "- " ++ b)) := by
    unfold mdH3
    exact perLine_if_id_three (isPfx (strL "### "))
      (fun l => strL "<h3>" ++ l.drop 4 ++ strL "</h3>") _ _ _ hla hnlx hlb rfl hxH3 rfl
  have n4 : mdH4 ((strL "- " ++ a) ++ '\n' :: ((xh :: xt) ++ '\n' :: (strL "- " ++ b)))
      = (strL "- " ++ a) ++ '\n' :: ((xh :: xt) ++ '\n' :: (strL "- " ++ b)) := by
    unfold mdH4
    exact perLine_if_id_three (isPfx (strL "#### "))
      (fun l => strL "<h4>" ++ l.drop 5 ++ strL "</h4>") _ _ _ hla hnlx hlb rfl hxH4 rfl
  have s5 := boldStep_id _ h0st
  have s6 := italicStep_id _ h0st
  have sLi : mdLi ((strL "- " ++ a) ++ '\n' :: ((xh :: xt) ++ '\n' :: (strL "- " ++ b)))
      = (strL "<li>" ++ (a ++ strL "</li>")) ++ '\n'
          :: ((xh :: xt) ++ '\n' :: (strL "<li>" ++ (b ++ strL "</li>"))) := by
    unfold mdLi
    rw [perLine_three _ _ _ _ hla hnlx hlb]
    rw [if_neg (ne_true_of_false hxLi)]
    show (strL "<li>" ++ a ++ strL "</li>") ++ '\n'
        :: ((xh :: xt) ++ '\n' :: (strL "<li>" ++ b ++ strL "</li>")) = _
    simp [List.append_assoc]
  have sUl : ulWrapGo ((strL "<li>" ++ (a ++ strL "</li>")) ++ '\n'
        :: ((xh :: xt) ++ '\n' :: (strL "<li>" ++ (b ++ strL "</li>"))))
      = strL "<ul><li>" ++ (a ++ (strL "</li>\n" ++
          ((xh :: xt) ++ (strL "\n<li>" ++ (b ++ strL "</li></ul>"))))) := by
    rw [show (strL "<li>" ++ (a ++ strL "</li>")) ++ '\n'
          :: ((xh :: xt) ++ '\n' :: (strL "<li>" ++ (b ++ strL "</li>")))
          = '<' :: (strL "li>" ++ (a ++ (strL "</li>" ++ ('\n'
              :: ((xh :: xt) ++ '\n' :: (strL "<li>" ++ (b ++ strL "</li>")))))))
        from by simp [List.append_assoc]; rfl]
    have hdrop3 : (strL "li>" ++ (a ++ (strL "</li>" ++ ('\n'
          :: ((xh :: xt) ++ '\n' :: (strL "<li>" ++ (b ++ strL "</li>"))))))).drop 3
        = a ++ (strL "</li>" ++ ('\n'
          :: ((xh :: xt) ++ '\n' :: (strL "<li>" ++ (b ++ strL "</li>"))))) := rfl
    have hsplit : a ++ (strL "</li>" ++ ('\n'
          :: ((xh :: xt) ++ '\n' :: (strL "<li>" ++ (b ++ strL "</li>")))))
        = (a ++ (strL "</li>\n" ++ ((xh :: xt) ++ (strL "\n<li>" ++ b)))) ++ ('<' :: strL "/li>") := by
      simp [List.append_assoc]
      rfl
    have hlast : lastIdxOf (strL "</li>")
        ((strL "li>" ++ (a ++ (strL "</li>" ++ ('\n'
          :: ((xh :: xt) ++ '\n' :: (strL "<li>" ++ (b ++ strL "</li>"))))))).drop 3)
        = some ((a ++ (strL "</li>\n" ++ ((xh :: xt) ++ (strL "\n<li>" ++ b)))).length) := by
      rw [hdrop3, hsplit]
      exact lastIdxOf_append_pat _ '<' (strL "/li>")
    rw [ulWrapGo_act (strL "li>" ++ (a ++ (strL "</li>" ++ ('\n'
      :: ((xh :: xt) ++ '\n' :: (strL "<li>" ++ (b ++ strL "</li>"))))))) _ rfl hlast]
    have htake : ('<' :: (strL "li>" ++ (a ++ (strL "</li>" ++ ('\n'
          :: ((xh :: xt) ++ '\n' :: (strL "<li>" ++ (b ++ strL "</li>")))))))).take
          (4 + (a ++ (strL "</li>\n" ++ ((xh :: xt) ++ (strL "\n<li>" ++ b)))).length + 5)
        = '<' :: (strL "li>" ++ (a ++ (strL "</li>" ++ ('\n'
          :: ((xh :: xt) ++ '\n' :: (strL "<li>" ++ (b ++ strL "</li>"))))))) := by
      have hlen : 4 + (a ++ (strL "</li>\n" ++ ((xh :: xt) ++ (strL "\n<li>" ++ b)))).length + 5
          = ('<' :: (strL "li>" ++ (a ++ (strL "</li>" ++ ('\n'
            :: ((xh :: xt) ++ '\n' :: (strL "<li>" ++ (b ++ strL "</li>")))))))).length := by
        simp only [List.length_append, List.length_cons]
        rw [show (strL "li>").length = 3 from rfl, show (strL "</li>").length = 5 from rfl,
          show (strL "<li>").length = 4 from rfl, show (strL "</li>\n").length = 6 from rfl,
          show (strL "\n<li>").length = 5 from rfl]
        omega
      rw [hlen, List.take_length]
    have hdropnil : (((strL "li>" ++ (a ++ (strL "</li>" ++ ('\n'
          :: ((xh :: xt) ++ '\n' :: (strL "<li>" ++ (b ++ strL "</li>"))))))).drop 3).drop
          ((a ++ (strL "</li>\n" ++ ((xh :: xt) ++ (strL "\n<li>" ++ b)))).length + 5)) = [] := by
      rw [hdrop3]
      apply List.drop_eq_nil_of_le
      simp only [List.length_append, List.length_cons]
      rw [show (strL "</li>").length = 5 from rfl, show (strL "<li>").length = 4 from rfl,
        show (strL "</li>\n").length = 6 from rfl, show (strL "\n<li>").length = 5 from rfl]
      omega
    rw [htake, hdropnil]
    simp [List.append_assoc]
    rfl
  have hnn : replMulti [(strL "\n\n", strL "</p><p>")]
        (strL "<ul><li>" ++ (a ++ (strL "</li>\n" ++
          ((xh :: xt) ++ (strL "\n<li>" ++ (b ++ strL "</li></ul>"))))))
      = strL "<ul><li>" ++ (a ++ (strL "</li>\n" ++
          ((xh :: xt) ++ (strL "\n<li>" ++ (b ++ strL "</li></ul>"))))) := by
    rw [show strL "<ul><li>" ++ (a ++ (strL "</li>\n" ++
          ((xh :: xt) ++ (strL "\n<li>" ++ (b ++ strL "</li></ul>")))))
          = segsJoin '\n' (strL "<ul><li>" ++ (a ++ strL "</li>"))
              [xh :: xt, strL "<li>" ++ (b ++ strL "</li></ul>")]
        from by simp [segsJoin, List.append_assoc]; rfl]
    exact replMulti_segs _ '\n' (fun p hp => by simp at hp; subst hp; exact ⟨_, rfl⟩) _ _
      (not_mem_app (by decide) (not_mem_app hnla (by decide)))
      (by intro t ht; simp at ht
          rcases ht with rfl | rfl
          · exact hnlx
          · exact not_mem_app (by decide) (not_mem_app hnlb (by decide)))
      (by intro t ht; simp [segsSufs, segsJoin] at ht
          rcases ht with rfl | rfl
          · exact tryPats_none_all _ _ (by
              intro p hp; simp at hp; subst hp
              show isPfx ('\n' :: '\n' :: []) ('\n' :: (xh :: (xt ++ '\n'
                :: (strL "<li>" ++ (b ++ strL "</li></ul>"))))) = false
              exact isPfx_two_head_ne '\n' xh _ (benign_head_ne '\n' (by decide) xh hxh))
          · rfl)
  have hpara : mdPara (strL "<ul><li>" ++ (a ++ (strL "</li>\n" ++
          ((xh :: xt) ++ (strL "\n<li>" ++ (b ++ strL "</li></ul>"))))))
      = segsJoin '<' [] [strL "p>", strL "ul>", strL "li>" ++ a, strL "/li>", strL "/p>\n",
          strL "p>" ++ (xh :: xt), strL "/p>\n", strL "p>", strL "li>" ++ b, strL "/li>",
          strL "/ul>", strL "/p>"] := by
    unfold mdPara
    rw [show strL "<ul><li>" ++ (a ++ (strL "</li>\n" ++
          ((xh :: xt) ++ (strL "\n<li>" ++ (b ++ strL "</li></ul>")))))
          = (strL "<ul><li>" ++ (a ++ strL "</li>")) ++ '\n'
              :: ((xh :: xt) ++ '\n' :: (strL "<li>" ++ (b ++ strL "</li></ul>")))
        from by simp [List.append_assoc]; rfl]
    rw [perLine_three _ _ _ _ (not_mem_app (by decide) (not_mem_app hnla (by decide)))
      hnlx (not_mem_app (by decide) (not_mem_app hnlb (by decide)))]
    simp [segsJoin, List.append_assoc]
    rfl
  have hsegss3 : ∀ t ∈ [strL "p>", strL "ul>", strL "li>" ++ a, strL "/li>", strL "/p>\n",
      strL "p>" ++ (xh :: xt), strL "/p>\n", strL "p>", strL "li>" ++ b, strL "/li>",
      strL "/ul>", strL "/p>"], '<' ∉ t := by
    intro t ht
    simp at ht
    rcases ht with rfl | rfl | rfl | rfl | rfl | rfl | rfl | rfl | rfl | rfl | rfl | rfl
    · decide
    · decide
    · exact not_mem_app (by decide) hlta
    · decide
    · decide
    · exact not_mem_app (by decide) hltx
    · decide
    · decide
    · exact not_mem_app (by decide) hltb
    · decide
    · decide
    · decide
  have p11 := replMulti_segs [(strL "<p></p>", ([] : List Char))] '<'
    (by intro p hp; simp at hp; subst hp; exact ⟨_, rfl⟩)
    [strL "p>", strL "ul>", strL "li>" ++ a, strL "/li>", strL "/p>\n",
     strL "p>" ++ (xh :: xt), strL "/p>\n", strL "p>", strL "li>" ++ b, strL "/li>",
     strL "/ul>", strL "/p>"] []
    (List.not_mem_nil '<') hsegss3
    (by intro t ht; simp [segsSufs, segsJoin] at ht
        rcases ht with rfl | rfl | rfl | rfl | rfl | rfl | rfl | rfl | rfl | rfl | rfl | rfl
        · rfl
        · rfl
        · rfl
        · rfl
        · rfl
        · exact tryPats_none_all _ _ (by
            intro p hp; simp at hp; subst hp
            exact isPfx_p_lt_x (strL "/p>") xh _ hltne)
        · rfl
        · rfl
        · rfl
        · rfl
        · rfl
        · rfl)
  have p12 := replMulti_segs
    [(strL "<p><h1>", strL "<h1>"), (strL "<p><h2>", strL "<h2>"),
     (strL "<p><h3>", strL "<h3>"), (strL "<p><h4>", strL "<h4>"),
     (strL "<p><h5>", strL "<h5>"), (strL "<p><h6>", strL "<h6>")] '<'
    (by intro p hp; simp at hp
        rcases hp with rfl | rfl | rfl | rfl | rfl | rfl <;> exact ⟨_, rfl⟩)
    [strL "p>", strL "ul>", strL "li>" ++ a, strL "/li>", strL "/p>\n",
     strL "p>" ++ (xh :: xt), strL "/p>\n", strL "p>", strL "li>" ++ b, strL "/li>",
     strL "/ul>", strL "/p>"] []
    (List.not_mem_nil '<') hsegss3
    (by intro t ht; simp [segsSufs, segsJoin] at ht
        rcases ht with rfl | rfl | rfl | rfl | rfl | rfl | rfl | rfl | rfl | rfl | rfl | rfl
        · rfl
        · rfl
        · rfl
        · rfl
        · rfl
        · exact tryPats_none_all _ _ (by
            intro p hp; simp at hp
            rcases hp with rfl | rfl | rfl | rfl | rfl | rfl <;>
              exact isPfx_p_lt_x _ xh _ hltne)
        · rfl
        · rfl
        · rfl
        · rfl
        · rfl
        · rfl)
  have p13 := replMulti_segs
    [(strL "</h1></p>", strL "</h1>"), (strL "</h2></p>", strL "</h2>"),
     (strL "</h3></p>", strL "</h3>"), (strL "</h4></p>", strL "</h4>"),
     (strL "</h5></p>", strL "</h5>"), (strL "</h6></p>", strL "</h6>")] '<'
    (by intro p hp; simp at hp
        rcases hp with rfl | rfl | rfl | rfl | rfl | rfl <;> exact ⟨_, rfl⟩)
    [strL "p>", strL "ul>", strL "li>" ++ a, strL "/li>", strL "/p>\n",
     strL "p>" ++ (xh :: xt), strL "/p>\n", strL "p>", strL "li>" ++ b, strL "/li>",
     strL "/ul>", strL "/p>"] []
    (List.not_mem_nil '<') hsegss3
    (by intro t ht; simp [segsSufs, segsJoin] at ht
        rcases ht with rfl | rfl | rfl | rfl | rfl | rfl | rfl | rfl | rfl | rfl | rfl | rfl <;> rfl)
  have hp14 : replMulti [(strL "<p><ul>", strL "<ul>")]
        (segsJoin '<' [] [strL "p>", strL "ul>", strL "li>" ++ a, strL "/li>", strL "/p>\n",
          strL "p>" ++ (xh :: xt), strL "/p>\n", strL "p>", strL "li>" ++ b, strL "/li>",
          strL "/ul>", strL "/p>"])
      = segsJoin '<' [] [strL "ul>", strL "li>" ++ a, strL "/li>", strL "/p>\n",
          strL "p>" ++ (xh :: xt), strL "/p>\n", strL "p>", strL "li>" ++ b, strL "/li>",
          strL "/ul>", strL "/p>"] := by
    rw [show segsJoin '<' [] [strL "p>", strL "ul>", strL "li>" ++ a, strL "/li>", strL "/p>\n",
          strL "p>" ++ (xh :: xt), strL "/p>\n", strL "p>", strL "li>" ++ b, strL "/li>",
          strL "/ul>", strL "/p>"]
          = '<' :: (strL "p>" ++ '<' :: segsJoin '<' (strL "ul>")
              [strL "li>" ++ a, strL "/li>", strL "/p>\n",
               strL "p>" ++ (xh :: xt), strL "/p>\n", strL "p>", strL "li>" ++ b, strL "/li>",
               strL "/ul>", strL "/p>"])
        from by simp [segsJoin]]
    rw [replMulti_cons_yes [(strL "<p><ul>", strL "<ul>")] '<'
      (strL "p>" ++ '<' :: segsJoin '<' (strL "ul>")
        [strL "li>" ++ a, strL "/li>", strL "/p>\n",
         strL "p>" ++ (xh :: xt), strL "/p>\n", strL "p>", strL "li>" ++ b, strL "/li>",
         strL "/ul>", strL "/p>"])
      (strL "<ul>") 7 rfl]
    rw [show (strL "p>" ++ '<' :: segsJoin '<' (strL "ul>")
          [strL "li>" ++ a, strL "/li>", strL "/p>\n",
           strL "p>" ++ (xh :: xt), strL "/p>\n", strL "p>", strL "li>" ++ b, strL "/li>",
           strL "/ul>", strL "/p>"]).drop (7 - 1)
          = segsJoin '<' [] [strL "li>" ++ a, strL "/li>", strL "/p>\n",
              strL "p>" ++ (xh :: xt), strL "/p>\n", strL "p>", strL "li>" ++ b, strL "/li>",
              strL "/ul>", strL "/p>"]
        from rfl]
    rw [replMulti_segs [(strL "<p><ul>", strL "<ul>")] '<'
      (by intro p hp; simp at hp; subst hp; exact ⟨_, rfl⟩)
      [strL "li>" ++ a, strL "/li>", strL "/p>\n",
       strL "p>" ++ (xh :: xt), strL "/p>\n", strL "p>", strL "li>" ++ b, strL "/li>",
       strL "/ul>", strL "/p>"] []
      (List.not_mem_nil '<')
      (by intro t ht; simp at ht
          rcases ht with rfl | rfl | rfl | rfl | rfl | rfl | rfl | rfl | rfl | rfl
          · exact not_mem_app (by decide) hlta
          · decide
          · decide
          · exact not_mem_app (by decide) hltx
          · decide
          · decide
          · exact not_mem_app (by decide) hltb
          · decide
          · decide
          · decide)
      (by intro t ht; simp [segsSufs, segsJoin] at ht
          rcases ht with rfl | rfl | rfl | rfl | rfl | rfl | rfl | rfl | rfl | rfl
          · rfl
          · rfl
          · rfl
          · exact tryPats_none_all _ _ (by
              intro p hp; simp at hp; subst hp
              exact isPfx_p_lt_x (strL "ul>") xh _ hltne)
          · rfl
          · rfl
          · rfl
          · rfl
          · rfl
          · rfl)]
    simp [segsJoin]
    rfl
  have hp15 : replMulti [(strL "</ul></p>", strL "</ul>")]
        (segsJoin '<' [] [strL "ul>", strL "li>" ++ a, strL "/li>", strL "/p>\n",
          strL "p>" ++ (xh :: xt), strL "/p>\n", strL "p>", strL "li>" ++ b, strL "/li>",
          strL "/ul>", strL "/p>"])
      = segsJoin '<' [] [strL "ul>", strL "li>" ++ a, strL "/li>", strL "/p>\n",
          strL "p>" ++ (xh :: xt), strL "/p>\n", strL "p>", strL "li>" ++ b, strL "/li>",
          strL "/ul>"] := by
    rw [show segsJoin '<' [] [strL "ul>", strL "li>" ++ a, strL "/li>", strL "/p>\n",
          strL "p>" ++ (xh :: xt), strL "/p>\n", strL "p>", strL "li>" ++ b, strL "/li>",
          strL "/ul>", strL "/p>"]
          = segsJoinT '<' ('<' :: (strL "/ul>" ++ ('<' :: strL "/p>"))) []
              [strL "ul>", strL "li>" ++ a, strL "/li>", strL "/p>\n",
               strL "p>" ++ (xh :: xt), strL "/p>\n", strL "p>", strL "li>" ++ b, strL "/li>"]
        from by simp [segsJoin, segsJoinT, List.append_assoc]]
    rw [replMulti_segsT [(strL "</ul></p>", strL "</ul>")] '<'
      ('<' :: (strL "/ul>" ++ ('<' :: strL "/p>"))) (strL "</ul>")
      (by intro p hp; simp at hp; subst hp; exact ⟨_, rfl⟩)
      (by show replMulti [(strL "</ul></p>", strL "</ul>")]
            ('<' :: (strL "/ul>" ++ ('<' :: strL "/p>"))) = strL "</ul>"
          simp [replMulti, tryPats, isPfx, strL])
      [strL "ul>", strL "li>" ++ a, strL "/li>", strL "/p>\n",
       strL "p>" ++ (xh :: xt), strL "/p>\n", strL "p>", strL "li>" ++ b, strL "/li>"] []
      (List.not_mem_nil '<')
      (by intro t ht; simp at ht
          rcases ht with rfl | rfl | rfl | rfl | rfl | rfl | rfl | rfl | rfl
          · decide
          · exact not_mem_app (by decide) hlta
          · decide
          · decide
          · exact not_mem_app (by decide) hltx
          · decide
          · decide
          · exact not_mem_app (by decide) hltb
          · decide)
      (by intro t ht; simp [segsSufsT, segsJoinT] at ht
          rcases ht with rfl | rfl | rfl | rfl | rfl | rfl | rfl | rfl | rfl <;> rfl)]
    simp [segsJoin, segsJoinT, List.append_assoc]
    rfl
  have p16 := replMulti_segs [(strL "<p><table", strL "<table")] '<'
    (by intro p hp; simp at hp; subst hp; exact ⟨_, rfl⟩)
    [strL "ul>", strL "li>" ++ a, strL "/li>", strL "/p>\n",
     strL "p>" ++ (xh :: xt), strL "/p>\n", strL "p>", strL "li>" ++ b, strL "/li>",
     strL "/ul>"] []
    (List.not_mem_nil '<')
    (by intro t ht; simp at ht
        rcases ht with rfl | rfl | rfl | rfl | rfl | rfl | rfl | rfl | rfl | rfl
        · decide
        · exact not_mem_app (by decide) hlta
        · decide
        · decide
        · exact not_mem_app (by decide) hltx
        · decide
        · decide
        · exact not_mem_app (by decide) hltb
        · decide
        · decide)
    (by intro t ht; simp [segsSufs, segsJoin] at ht
        rcases ht with rfl | rfl | rfl | rfl | rfl | rfl | rfl | rfl | rfl | rfl
        · rfl
        · rfl
        · rfl
        · rfl
        · exact tryPats_none_all _ _ (by
            intro p hp; simp at hp; subst hp
            exact isPfx_p_lt_x (strL "table") xh _ hltne)
        · rfl
        · rfl
        · rfl
        · rfl
        · rfl)
  have p17 := replMulti_segs [(strL "</table></p>", strL "</table>")] '<'
    (by intro p hp; simp at hp; subst hp; exact ⟨_, rfl⟩)
    [strL "ul>", strL "li>" ++ a, strL "/li>", strL "/p>\n",
     strL "p>" ++ (xh :: xt), strL "/p>\n", strL "p>", strL "li>" ++ b, strL "/li>",
     strL "/ul>"] []
    (List.not_mem_nil '<')
    (by intro t ht; simp at ht
        rcases ht with rfl | rfl | rfl | rfl | rfl | rfl | rfl | rfl | rfl | rfl
        · decide
        · exact not_mem_app (by decide) hlta
        · decide
        · decide
        · exact not_mem_app (by decide) hltx
        · decide
        · decide
        · exact not_mem_app (by decide) hltb
        · decide
        · decide)
    (by intro t ht; simp [segsSufs, segsJoin] at ht
        rcases ht with rfl | rfl | rfl | rfl | rfl | rfl | rfl | rfl | rfl | rfl <;> rfl)
  simp only [formatMarkdownSubst]
  rw [n1, n2, n3, n4, s5, s6, sLi, sUl, hnn, hpara, p11, p12, p13, hp14, hp15, p16, p17]
  simp [segsJoin, List.append_assoc]
  rfl

end MarkdownLemmas

/-- Claim C9 counterexample: the input has two contiguous list runs
(`- a` and `- b`) separated by the non-list line `x`, but the output
contains exactly one `<ul>`, wrapping both runs and the intervening line
`x` — not one `<ul>` per contiguous run enclosing only list items.  (The
per-line paragraph pass also leaves stray `</p>`/`<p>` tags inside the
wrapped span.) -/
theorem c9_counterexample_single_ul_across_runs :
    formatMarkdownSubst (strL "- a\nx\n- b")
      = strL "<ul><li>a</li></p>\n<p>x</p>\n<p><li>b</li></ul>" ∧
    countSub (strL "<ul>") (formatMarkdownSubst (strL "- a\nx\n- b")) = 1 ∧
    countSub (strL "<li>") (formatMarkdownSubst (strL "- a\nx\n- b")) = 2 := by
  have h : formatMarkdownSubst (strL "- a\nx\n- b")
      = strL "<ul><li>a</li></p>\n<p>x</p>\n<p><li>b</li></ul>" := by
    simp [formatMarkdownSubst, mdH1, mdH2, mdH3, mdH4, mdLi, mdPara, perLine, splitLines,
      joinNL, boldStep, italicStep, ulWrapGo, lastIdxOf, replMulti, tryPats, isPfx, strL,
      findDelim1, findDelim2]
  refine ⟨h, ?_, ?_⟩ <;> rw [h] <;> decide


/-- Claim C9 (amended): in the non-table substitution chain of
`formatMarkdown`, for plain alphanumeric-and-space content, a line `# r`
through `#### r` becomes the matching `<h1>`–`<h4>` element, `**r**`
becomes a paragraph-wrapped `<strong>` element and `*r*` a
paragraph-wrapped `<em>` element; lines starting `- ` become `<li>`
items, but the list wrap is a single `<ul>` spanning from the first
`<li>` to the last `</li>` of the whole text — across separate runs,
enclosing any intervening non-list line — with the stray `</p>`/`<p>`
tags of the paragraph pass left inside the wrapped span (not one `<ul>`
per contiguous run enclosing only its list items, as the specification
claims). -/
theorem c9_markdown_substitutions (r a x b : List Char)
    (hr : benignStr r = true) (hrne : r ≠ [])
    (ha : benignStr a = true) (hx : benignStr x = true) (hb : benignStr b = true)
    (hxne : x ≠ []) :
    (formatMarkdownSubst (strL "# " ++ r) = strL "<h1>" ++ (r ++ strL "</h1>")) ∧
    (formatMarkdownSubst (strL "## " ++ r) = strL "<h2>" ++ (r ++ strL "</h2>")) ∧
    (formatMarkdownSubst (strL "### " ++ r) = strL "<h3>" ++ (r ++ strL "</h3>")) ∧
    (formatMarkdownSubst (strL "#### " ++ r) = strL "<h4>" ++ (r ++ strL "</h4>")) ∧
    (formatMarkdownSubst (strL "**" ++ (r ++ strL "**"))
      = strL "<p><strong>" ++ (r ++ strL "</strong></p>")) ∧
    (formatMarkdownSubst (strL "*" ++ (r ++ strL "*"))
      = strL "<p><em>" ++ (r ++ strL "</em></p>")) ∧
    (formatMarkdownSubst ((strL "- " ++ a) ++ '\n' :: (strL "- " ++ b))
      = strL "<ul><li>" ++ (a ++ (strL "</li></p>\n<p><li>" ++ (b ++ strL "</li></ul>")))) ∧
    (formatMarkdownSubst ((strL "- " ++ a) ++ '\n' :: (x ++ '\n' :: (strL "- " ++ b)))
      = strL "<ul><li>" ++ (a ++ (strL "</li></p>\n<p>" ++
          (x ++ (strL "</p>\n<p><li>" ++ (b ++ strL "</li></ul>")))))) :=
  ⟨fmtSubst_heading1 r hr, fmtSubst_heading2 r hr, fmtSubst_heading3 r hr,
   fmtSubst_heading4 r hr, fmtSubst_bold r hr, fmtSubst_italic r hr hrne,
   fmtSubst_list_run a b ha hb, fmtSubst_list_sep a x b ha hx hb hxne⟩

/-- Concrete instantiation of the amended C9 theorem at `r = "Title"`,
`a = "one"`, `x = "mid"`, `b = "two"`, with every hypothesis discharged
by evaluation. -/
theorem c9_markdown_substitutions_witness :
    benignStr (strL "Title") = true ∧ strL "Title" ≠ [] ∧
    benignStr (strL "one") = true ∧ benignStr (strL "mid") = true ∧
    benignStr (strL "two") = true ∧ strL "mid" ≠ [] ∧
    ((formatMarkdownSubst (strL "# " ++ strL "Title")
        = strL "<h1>" ++ (strL "Title" ++ strL "</h1>")) ∧
     (formatMarkdownSubst (strL "## " ++ strL "Title")
        = strL "<h2>" ++ (strL "Title" ++ strL "</h2>")) ∧
     (formatMarkdownSubst (strL "### " ++ strL "Title")
        = strL "<h3>" ++ (strL "Title" ++ strL "</h3>")) ∧
     (formatMarkdownSubst (strL "#### " ++ strL "Title")
        = strL "<h4>" ++ (strL "Title" ++ strL "</h4>")) ∧
     (formatMarkdownSubst (strL "**" ++ (strL "Title" ++ strL "**"))
        = strL "<p><strong>" ++ (strL "Title" ++ strL "</strong></p>")) ∧
     (formatMarkdownSubst (strL "*" ++ (strL "Title" ++ strL "*"))
        = strL "<p><em>" ++ (strL "Title" ++ strL "</em></p>")) ∧
     (formatMarkdownSubst ((strL "- " ++ strL "one") ++ '\n' :: (strL "- " ++ strL "two"))
        = strL "<ul><li>" ++ (strL "one" ++ (strL "</li></p>\n<p><li>"
            ++ (strL "two" ++ strL "</li></ul>")))) ∧
     (formatMarkdownSubst ((strL "- " ++ strL "one") ++ '\n'
          :: (strL "mid" ++ '\n' :: (strL "- " ++ strL "two")))
        = strL "<ul><li>" ++ (strL "one" ++ (strL "</li></p>\n<p>" ++
            (strL "mid" ++ (strL "</p>\n<p><li>"
              ++ (strL "two" ++ strL "</li></ul>"))))))) :=
  ⟨by decide, by decide, by decide, by decide, by decide, by decide,
   c9_markdown_substitutions (strL "Title") (strL "one") (strL "mid") (strL "two")
     (by decide) (by decide) (by decide) (by decide) (by decide) (by decide)⟩

end IntelliMarket
